import Mathlib

/-!
# stacker: the stacking-model builder and the chunked visibility stream

A shallow embedding of `stacker_clib/Model.cpp` (`Model::compute`) and of
`stacker_clib/msio.cpp` (`msio::readChunkSimple`, `msio::writeChunk`), and the
properties proved about them.

Conventions of the embedding.

* C++ `float`/`double` values are elements of a linearly ordered field `F`;
  the library functions `sin`, `cos`, `sqrt`, `log` and the constants `M_PI`,
  `casa::C::c` are supplied by a record `CMath F`.  Rounding is not modelled.
* `for` loops are folds over `List.range`, `std::vector::push_back` is
  appending to a list, and a C array is a function from indices to values
  that is updated pointwise.
* Row numbers, cursors and chunk sizes (`size_t`, `int`) are natural numbers.
  The cursor never exceeds the row count of the dataset, and a chunk of
  capacity `n` holds `n` record pairs in memory, so the sum
  `currentVisibility + chunk.size()` of `readChunkSimple` stays far below
  `2^64` and does not wrap; the `int` variables `uvrow` and `inField` hold
  every row number of a dataset of fewer than `2^31` rows.
* `Chunk.h`, `msio.h`, `Model.h` and `definitions.h` are not among the
  sources.  What `msio.cpp` and `Model.cpp` use of them is modelled from
  the use and from the specification, and marked as such.
-/

set_option autoImplicit false
set_option linter.unusedSectionVars false

namespace Stacker

/-! ## Model.cpp -/

/-- The shape kinds of `casa::ComponentType` a sky component can report. -/
inductive ComponentType
  | POINT
  | GAUSSIAN
  | DISK
  | LDISK
  | UNKNOWN_SHAPE
  deriving DecidableEq, Repr

/-- Modelled from the spec: the shape-kind constants `mod_point`,
`mod_gaussian`, `mod_disk` of `definitions.h`, which is not part of the
sources at hand; the spec lists the shape kinds Point, Gaussian and Disk. -/
inductive ModelType
  | mod_point
  | mod_gaussian
  | mod_disk
  deriving DecidableEq, Repr

/-- The C math library as used by `Model::compute`. -/
structure CMath (F : Type) where
  sin : F → F
  cos : F → F
  sqrt : F → F
  log : F → F
  M_PI : F
  c : F

/-- What `Model::compute` reads from one `casa::SkyComponent`: the reference
direction in radians, the Stokes I flux in Jy, the shape type and the first
shape parameter. -/
structure SkyComponent (F : Type) where
  dirX : F
  dirY : F
  fluxI : F
  shapeType : ComponentType
  param0 : F

/-- The part of `DataIO` that `Model::compute` calls. -/
structure DataIO (F : Type) where
  nPointings : Nat
  xPhaseCentre : Nat → F
  yPhaseCentre : Nat → F

/-- The primary beam: `calc_ dx dy` is `pb->calc(dx, dy)`. -/
structure PrimaryBeam (F : Type) where
  calc_ : F → F → F

/-- The vectors `cx[fieldID]`, `cy[fieldID]`, `cflux[fieldID]`,
`csize[fieldID]`, `cmodel_type[fieldID]` and the counter
`nStackPoints[fieldID]` of one pointing. -/
structure PointingVectors (F : Type) where
  cx : List F
  cy : List F
  cflux : List F
  csize : List F
  cmodel_type : List ModelType
  nStackPoints : Nat

/-- State of the first loop of `Model::compute`. -/
structure FirstPass (F : Type) where
  vecs : Nat → PointingVectors F
  totFlux : F

/-- One stored stacking point: entry `i` of the arrays `x[fieldID]`,
`y[fieldID]`, ..., `model_type[fieldID]`.  `omega_size` is `none` where
the code leaves the freshly allocated entry unwritten. -/
structure StackPoint (F : Type) where
  x : F
  y : F
  flux : F
  size : F
  model_type : ModelType
  dx : F
  dy : F
  omega_x : F
  omega_y : F
  omega_z : F
  omega_size : Option F

/-- The members of `Model`. `cl` is the component list stored in `clfile`. -/
structure Model (F : Type) where
  cl : List (SkyComponent F)
  subtract_ : Bool
  nPointings : Nat
  nStackPoints : Nat → Nat
  points : Nat → List (StackPoint F)

section ModelDefs

variable {F : Type} [LinearOrderedField F]

/-- `Model::Model(file, subtract)`. -/
def Model.new (cl : List (SkyComponent F)) (subtract : Bool) : Model F :=
  { cl := cl, subtract_ := subtract, nPointings := 0,
    nStackPoints := fun _ => 0, points := fun _ => [] }

/-- The local `dx` of the first pass (line 169). -/
def filterDx (M : CMath F) (ms : DataIO F) (x y : F) (fieldID : Nat) : F :=
  M.sin (x - ms.xPhaseCentre fieldID) * M.cos y

/-- The local `dy` of the first pass (lines 170-172). -/
def filterDy (M : CMath F) (ms : DataIO F) (x y : F) (fieldID : Nat) : F :=
  M.sin y * M.cos (ms.yPhaseCentre fieldID) -
    M.cos y * M.sin (ms.yPhaseCentre fieldID) *
    M.cos (x - ms.xPhaseCentre fieldID)

/-- Body of the loop over `fieldID` in the first pass (lines 165-184). -/
def filterField (M : CMath F) (ms : DataIO F) (pb : PrimaryBeam F)
    (x y flux size : F) (model_type : ModelType)
    (st : FirstPass F) (fieldID : Nat) : FirstPass F :=
  let dx := filterDx M ms x y fieldID
  let dy := filterDy M ms x y fieldID
  if pb.calc_ dx dy > 0.01 then
    let v : PointingVectors F := st.vecs fieldID
    let v1 : PointingVectors F :=
      { cx := v.cx ++ [x],
        cy := v.cy ++ [y],
        cflux := v.cflux ++ [flux],
        csize := v.csize ++ [size],
        cmodel_type := v.cmodel_type ++ [model_type],
        nStackPoints := v.nStackPoints + 1 }
    { st with vecs := Function.update st.vecs fieldID v1 }
  else st

/-- The size and model type extracted from a component (lines 150-162). -/
def shapeOf (sc : SkyComponent F) : F × ModelType :=
  if sc.shapeType = ComponentType.GAUSSIAN then (sc.param0, ModelType.mod_gaussian)
  else if sc.shapeType = ComponentType.DISK then (sc.param0, ModelType.mod_disk)
  else (0, ModelType.mod_point)

/-- Body of the loop over the components (lines 140-185). -/
def filterComponent (M : CMath F) (ms : DataIO F) (pb : PrimaryBeam F)
    (nPointings : Nat) (st : FirstPass F) (sc : SkyComponent F) : FirstPass F :=
  let x := sc.dirX
  let y := sc.dirY
  let flux := sc.fluxI
  let size := (shapeOf sc).1
  let model_type := (shapeOf sc).2
  let st1 : FirstPass F := { st with totFlux := st.totFlux + flux }
  (List.range nPointings).foldl (filterField M ms pb x y flux size model_type) st1

/-- The first pass of `Model::compute` (lines 126-185). -/
def firstPass (M : CMath F) (ms : DataIO F) (pb : PrimaryBeam F)
    (nPointings : Nat) (cl : List (SkyComponent F)) : FirstPass F :=
  cl.foldl (filterComponent M ms pb nPointings)
    { vecs := fun _ => { cx := [], cy := [], cflux := [], csize := [],
                          cmodel_type := [], nStackPoints := 0 },
      totFlux := 0 }

/-- The entry `dx[fieldID][i]` of the second pass (line 227), from the
stored `x[fieldID][i]`, `y[fieldID][i]`. -/
def storeDx (M : CMath F) (ms : DataIO F) (x y : F) (fieldID : Nat) : F :=
  M.sin (x - ms.xPhaseCentre fieldID) * M.cos y

/-- The entry `dy[fieldID][i]` of the second pass (lines 228-230). -/
def storeDy (M : CMath F) (ms : DataIO F) (x y : F) (fieldID : Nat) : F :=
  M.sin y * M.cos (ms.yPhaseCentre fieldID) -
    M.cos y * M.sin (ms.yPhaseCentre fieldID) *
    M.cos (x - ms.xPhaseCentre fieldID)

/-- Body of the loop over `i` in the second pass (lines 214-242). -/
def storePoint (M : CMath F) (ms : DataIO F) (subtract_ : Bool)
    (v : PointingVectors F) (fieldID i : Nat) : StackPoint F :=
  let x := v.cx.getD i 0
  let y := v.cy.getD i 0
  let flux := if subtract_ then v.cflux.getD i 0 else -1 * v.cflux.getD i 0
  let size := v.csize.getD i 0
  let model_type := v.cmodel_type.getD i ModelType.mod_point
  let dx := storeDx M ms x y fieldID
  let dy := storeDy M ms x y fieldID
  { x := x, y := y, flux := flux, size := size, model_type := model_type,
    dx := dx, dy := dy,
    omega_x := 2 * M.M_PI * M.sin dx / M.c,
    omega_y := 2 * M.M_PI * M.sin dy / M.c,
    omega_z := 2 * M.M_PI * (M.sqrt (1 - dx * dx - dy * dy) - 1) / M.c,
    omega_size :=
      if model_type = ModelType.mod_gaussian then
        some ((M.M_PI * size / M.c) ^ 2 / (4 * M.log 2))
      else if model_type = ModelType.mod_disk then
        some (M.M_PI * size / M.c)
      else none }

/-- `Model::compute(ms, pb)`. -/
def Model.compute (M : CMath F) (m : Model F) (ms : DataIO F)
    (pb : PrimaryBeam F) : Model F :=
  let nPointings := ms.nPointings
  let fp := firstPass M ms pb nPointings m.cl
  { m with
    nPointings := nPointings,
    nStackPoints := fun fieldID =>
      if fieldID < nPointings then (fp.vecs fieldID).nStackPoints else 0,
    points := fun fieldID =>
      if fieldID < nPointings then
        (List.range (fp.vecs fieldID).nStackPoints).map
          (storePoint M ms m.subtract_ (fp.vecs fieldID) fieldID)
      else [] }

/-- Spec §4.1 step 2: the tangent-plane offset `dx` of a component from the
phase centre of pointing `P`. -/
def specDx (M : CMath F) (ms : DataIO F) (P : Nat) (sc : SkyComponent F) : F :=
  M.sin (sc.dirX - ms.xPhaseCentre P) * M.cos sc.dirY

/-- Spec §4.1 step 2: the tangent-plane offset `dy` of a component from the
phase centre of pointing `P`. -/
def specDy (M : CMath F) (ms : DataIO F) (P : Nat) (sc : SkyComponent F) : F :=
  M.sin sc.dirY * M.cos (ms.yPhaseCentre P) -
    M.cos sc.dirY * M.sin (ms.yPhaseCentre P) * M.cos (sc.dirX - ms.xPhaseCentre P)

/-- Spec §4.1 step 3: the beam response of a component at pointing `P`. -/
def specResponse (M : CMath F) (ms : DataIO F) (pb : PrimaryBeam F) (P : Nat)
    (sc : SkyComponent F) : F :=
  pb.calc_ (specDx M ms P sc) (specDy M ms P sc)

/-- Spec §4.1 step 3: the components of the catalog included for pointing
`P`, in catalog order. -/
def specIncluded (M : CMath F) (ms : DataIO F) (pb : PrimaryBeam F) (P : Nat)
    (cl : List (SkyComponent F)) : List (SkyComponent F) :=
  cl.filter (fun sc => decide (specResponse M ms pb P sc > 0.01))

/-- The vectors of a pointing after pushing the components `l` in order. -/
def pushed (v : PointingVectors F) (l : List (SkyComponent F)) : PointingVectors F :=
  { cx := v.cx ++ l.map (fun sc => sc.dirX),
    cy := v.cy ++ l.map (fun sc => sc.dirY),
    cflux := v.cflux ++ l.map (fun sc => sc.fluxI),
    csize := v.csize ++ l.map (fun sc => (shapeOf sc).1),
    cmodel_type := v.cmodel_type ++ l.map (fun sc => (shapeOf sc).2),
    nStackPoints := v.nStackPoints + l.length }

end ModelDefs

/-! ## msio.cpp -/

/-- Modelled from the spec: the column constants `col_data`,
`col_model_data`, `col_corrected_data` of `definitions.h`, which is not part
of the sources at hand; the spec lists the column choices raw, model and
corrected. -/
inductive DataColumn
  | col_data
  | col_model_data
  | col_corrected_data
  deriving DecidableEq, Repr

/-- A `casa::Complex`. -/
structure CasaComplex (F : Type) where
  re : F
  im : F

/-- A `casa::Matrix`: `nrow` by `ncolumn` elements. -/
structure CasaMatrix (α : Type) where
  nrow : Nat
  ncolumn : Nat
  elems : Fin nrow → Fin ncolumn → α

/-- A `casa::Vector`. -/
structure CasaVector (α : Type) where
  nelements : Nat
  elems : Fin nelements → α

/-- `Matrix<T> m(nrow, ncolumn)`; `fill` stands for the initial contents. -/
def CasaMatrix.new {α : Type} (nrow ncolumn : Nat) (fill : α) : CasaMatrix α :=
  { nrow := nrow, ncolumn := ncolumn, elems := fun _ _ => fill }

/-- The element `m(i, j)`; `dflt` outside of the shape. -/
def CasaMatrix.get {α : Type} (m : CasaMatrix α) (dflt : α) (i j : Nat) : α :=
  if h : i < m.nrow ∧ j < m.ncolumn then m.elems ⟨i, h.1⟩ ⟨j, h.2⟩ else dflt

/-- The assignment `m(i, j) = v`. -/
def CasaMatrix.set {α : Type} (m : CasaMatrix α) (i j : Nat) (v : α) : CasaMatrix α :=
  { m with elems := fun a b => if a.val = i ∧ b.val = j then v else m.elems a b }

/-- `Vector<T> v(n)`; `fill` stands for the initial contents. -/
def CasaVector.new {α : Type} (n : Nat) (fill : α) : CasaVector α :=
  { nelements := n, elems := fun _ => fill }

/-- The element `v(i)`; `dflt` outside of the shape. -/
def CasaVector.get {α : Type} (v : CasaVector α) (dflt : α) (i : Nat) : α :=
  if h : i < v.nelements then v.elems ⟨i, h⟩ else dflt

/-- The assignment `v(i) = x`. -/
def CasaVector.set {α : Type} (v : CasaVector α) (i : Nat) (x : α) : CasaVector α :=
  { v with elems := fun a => if a.val = i then x else v.elems a }

/-- The columns of a measurement set that `msio` reads and writes
(`ROMSColumns`, `MSColumns`), each a function of the row number; `nrow` is
`data().nrow()`. -/
structure MSColumns (F : Type) where
  nrow : Nat
  data : Nat → CasaMatrix (CasaComplex F)
  modelData : Nat → CasaMatrix (CasaComplex F)
  correctedData : Nat → CasaMatrix (CasaComplex F)
  flag : Nat → CasaMatrix Bool
  weight : Nat → CasaVector F
  uvw : Nat → CasaVector F
  fieldId : Nat → Int
  dataDescId : Nat → Int

/-- Modelled from the spec: the visibility record of `Chunk.h`, which is
not part of the sources at hand.  A record holds a source-row index, the
baseline vector (u, v, w), the pointing index, the spectral-window index, a
reference to the frequency table of that spectral window, the
per-(polarization, channel) samples and flags and the per-polarization
weights; the members are named as `msio.cpp` accesses them.  The pointer
`freq` is the offset of its target in the array `msio::freq`. -/
structure Visibility (F : Type) where
  index : Nat
  u : F
  v : F
  w : F
  fieldID : Int
  spw : Int
  freq : Int
  nchan : Nat
  nstokes : Nat
  weight : Nat → F
  data_real : Nat → F
  data_imag : Nat → F
  data_flag : Nat → Int

/-- The scalar members of a visibility record. -/
def Visibility.header {F : Type} (r : Visibility F) :
    Nat × F × F × F × Int × Int × Int × Nat × Nat :=
  (r.index, r.u, r.v, r.w, r.fieldID, r.spw, r.freq, r.nchan, r.nstokes)

/-- Modelled from the spec: the `Chunk` of `Chunk.h`, which is not part of
the sources at hand.  A chunk is a fixed-capacity batch of record pairs
(input record, output record) with a logical size that the reader may
shrink; the channel and polarization counts of its buffers are set by a
reshape before each fill. -/
structure Chunk (F : Type) where
  capacity : Nat
  size : Nat
  dataset_id : Int
  nchan : Nat
  nstokes : Nat
  inVis : Nat → Visibility F
  outVis : Nat → Visibility F

/-- Modelled from the spec: `Chunk::resetSize` of `Chunk.h`; the logical
size is reset to the full capacity at the start of every read. -/
def Chunk.resetSize {F : Type} (chunk : Chunk F) : Chunk F :=
  { chunk with size := chunk.capacity }

/-- Modelled from the spec: `Chunk::setSize` of `Chunk.h`; the reader
shrinks the logical size, never the capacity. -/
def Chunk.setSize {F : Type} (chunk : Chunk F) (n : Nat) : Chunk F :=
  { chunk with size := n }

/-- Modelled from the spec: `Chunk::set_dataset_id` of `Chunk.h`; the
dataset identifier is stamped onto the chunk. -/
def Chunk.set_dataset_id {F : Type} (chunk : Chunk F) (id : Int) : Chunk F :=
  { chunk with dataset_id := id }

/-- Modelled from the spec: `Chunk::reshape_data` of `Chunk.h`; the
per-record buffers are reshaped to the given channel and polarization
counts.  The spec does not say what the buffers hold after a reshape; the
model leaves their contents as they were. -/
def Chunk.reshape_data {F : Type} (chunk : Chunk F) (nchan nstokes : Nat) : Chunk F :=
  { chunk with nchan := nchan, nstokes := nstokes }

/-- The members of `msio` used by `readChunk` and `writeChunk`.
`msoutcols = none` stands for `msout == NULL`; `warnings` is what the
alignment warning has written to `cout`: the pair (`inField`, `fieldID`) of
each warning printed. -/
structure msio (F : Type) where
  msincols : MSColumns F
  msoutcols : Option (MSColumns F)
  datacolumn_ : DataColumn
  one_ptg_per_chunk_ : Bool
  ptg_warning_done : Bool
  ptg_breaks_in_a_row : Int
  currentVisibility : Nat
  nchan : Nat
  nstokes : Nat
  nspw : Nat
  freq : Nat → F
  dataset_id : Int
  warnings : List (Nat × Int)

section MsioDefs

variable {F : Type} [Zero F]

/-- `msio::nvis()`. -/
def msio.nvis (self : msio F) : Nat :=
  self.msincols.nrow

/-- `msio::nChan()`. -/
def msio.nChan (self : msio F) : Nat :=
  self.nchan

/-- `msio::nStokes()`. -/
def msio.nStokes (self : msio F) : Nat :=
  self.nstokes

/-- `msio::getFreq(spw)`: the offset of `&freq[spw*nchan]`. -/
def msio.getFreq (self : msio F) (spw : Int) : Int :=
  spw * self.nchan

/-- The `while` loop of lines 344-347.  The first argument is the loop
variant `chunk.size() - inField`: it is zero exactly when the test
`inField < chunk.size()` fails. -/
def scanField (fieldId : Nat → Int) (currentVisibility : Nat) (fieldID : Int) :
    Nat → Nat → Nat
  | 0, inField => inField
  | left + 1, inField =>
    if fieldId (inField + currentVisibility) = fieldID then
      scanField fieldId currentVisibility fieldID left (inField + 1)
    else inField

/-- The block `if(one_ptg_per_chunk_) { ... }` of lines 340-365. -/
def alignChunk (self : msio F) (chunk : Chunk F) (currentVisibility : Nat) :
    msio F × Chunk F :=
  let fieldID := self.msincols.fieldId currentVisibility
  let inField := scanField self.msincols.fieldId currentVisibility fieldID chunk.size 0
  if inField < chunk.size then
    let self1 : msio F := { self with ptg_breaks_in_a_row := self.ptg_breaks_in_a_row + 1 }
    let self2 : msio F :=
      if !self1.ptg_warning_done && decide (self1.ptg_breaks_in_a_row > 1) then
        { self1 with warnings := self1.warnings ++ [(inField, fieldID)],
                     ptg_warning_done := true }
      else self1
    (self2, chunk.setSize inField)
  else
    ({ self with ptg_breaks_in_a_row := 0 }, chunk)

/-- Body of the loop over `chan` of lines 410-416. -/
def fillSample (data : CasaMatrix (CasaComplex F)) (flag : CasaMatrix Bool)
    (nchan stokes : Nat) (rec : Visibility F × Visibility F) (chan : Nat) :
    Visibility F × Visibility F :=
  let inV : Visibility F :=
    { rec.1 with
      data_real := Function.update rec.1.data_real (nchan * stokes + chan)
        (data.get ⟨0, 0⟩ stokes chan).re,
      data_imag := Function.update rec.1.data_imag (nchan * stokes + chan)
        (data.get ⟨0, 0⟩ stokes chan).im,
      data_flag := Function.update rec.1.data_flag (nchan * stokes + chan)
        (if flag.get false stokes chan then 1 else 0) }
  let outV : Visibility F :=
    { rec.2 with
      data_flag := Function.update rec.2.data_flag (nchan * stokes + chan)
        (if flag.get false stokes chan then 1 else 0) }
  (inV, outV)

/-- Body of the loop over `stokes` of lines 406-417. -/
def fillStokes (data : CasaMatrix (CasaComplex F)) (flag : CasaMatrix Bool)
    (weight : CasaVector F) (nchan : Nat) (rec : Visibility F × Visibility F)
    (stokes : Nat) : Visibility F × Visibility F :=
  let inV : Visibility F :=
    { rec.1 with weight := Function.update rec.1.weight stokes (weight.get 0 stokes) }
  let outV : Visibility F :=
    { rec.2 with weight := Function.update rec.2.weight stokes (weight.get 0 stokes) }
  (List.range nchan).foldl (fillSample data flag nchan stokes) (inV, outV)

/-- The matrix read by lines 379-390 for row `uvrow`. -/
def selectedData (cols : MSColumns F) (datacolumn_ : DataColumn) (uvrow : Nat) :
    CasaMatrix (CasaComplex F) :=
  match datacolumn_ with
  | DataColumn.col_data => cols.data uvrow
  | DataColumn.col_model_data => cols.modelData uvrow
  | DataColumn.col_corrected_data => cols.correctedData uvrow

/-- Body of the loop over `i` of lines 372-429, on the pair
(`chunk.inVis[i]`, `chunk.outVis[i]`). -/
def fillPair (self : msio F) (currentVisibility : Nat)
    (rec : Visibility F × Visibility F) (i : Nat) : Visibility F × Visibility F :=
  let uvrow := i + currentVisibility
  let data := selectedData self.msincols self.datacolumn_ uvrow
  let flag := self.msincols.flag uvrow
  let weight := self.msincols.weight uvrow
  let uvw := self.msincols.uvw uvrow
  let nchan := data.ncolumn
  let nstokes := data.nrow
  let in0 : Visibility F :=
    { rec.1 with index := uvrow, nchan := nchan, nstokes := nstokes }
  let out0 : Visibility F :=
    { rec.2 with index := uvrow, nchan := nchan, nstokes := nstokes }
  let rec1 := (List.range nstokes).foldl (fillStokes data flag weight nchan) (in0, out0)
  let in2 : Visibility F :=
    { rec1.1 with u := uvw.get 0 0, v := uvw.get 0 1, w := uvw.get 0 2,
                  fieldID := self.msincols.fieldId uvrow }
  let out2 : Visibility F := { rec1.2 with fieldID := self.msincols.fieldId uvrow }
  let in3 : Visibility F := { in2 with spw := self.msincols.dataDescId in2.index }
  let in4 : Visibility F := { in3 with freq := (nchan : Int) * in3.spw }
  let out4 : Visibility F := { out2 with spw := in4.spw, freq := in4.freq }
  (in4, out4)

/-- The loop of lines 372-429 at index `i`: the records `chunk.inVis[i]` and
`chunk.outVis[i]` are filled. -/
def fillRecord (self : msio F) (currentVisibility : Nat) (chunk : Chunk F) (i : Nat) :
    Chunk F :=
  let filled := fillPair self currentVisibility (chunk.inVis i, chunk.outVis i) i
  { chunk with inVis := Function.update chunk.inVis i filled.1,
               outVis := Function.update chunk.outVis i filled.2 }

/-- The `else if` of lines 334-337: the final partial batch. -/
def clipSize (self : msio F) (chunk : Chunk F) (currentVisibility : Nat) : Chunk F :=
  if currentVisibility + chunk.size > self.nvis then
    chunk.setSize (self.nvis - currentVisibility)
  else chunk

/-- `msio::readChunkSimple(chunk)`: the value returned, the stream after the
call and the chunk after the call. -/
def msio.readChunkSimple (self : msio F) (chunk : Chunk F) : Nat × msio F × Chunk F :=
  let chunk1 := (chunk.resetSize).set_dataset_id self.dataset_id
  let currentVisibility := self.currentVisibility
  if currentVisibility ≥ self.nvis then (0, self, chunk1)
  else
    let chunk2 := clipSize self chunk1 currentVisibility
    let aligned :=
      if self.one_ptg_per_chunk_ then alignChunk self chunk2 currentVisibility
      else (self, chunk2)
    let self3 : msio F :=
      { aligned.1 with
        currentVisibility := aligned.1.currentVisibility + aligned.2.size }
    let chunk4 := aligned.2.reshape_data self3.nchan self3.nstokes
    let chunk5 := (List.range chunk4.size).foldl (fillRecord self3 currentVisibility) chunk4
    (chunk5.size, self3, chunk5)

/-- `msio::readChunk(chunk)`. -/
def msio.readChunk (self : msio F) (chunk : Chunk F) : Nat × msio F × Chunk F :=
  self.readChunkSimple chunk

/-- Successive calls of `readChunk`, one for each chunk of the list: the
value returned by each call with the chunk after that call, and the stream
after the last call. -/
def readChunks (self : msio F) : List (Chunk F) → List (Nat × Chunk F) × msio F
  | [] => ([], self)
  | chunk :: rest =>
    let r := self.readChunk chunk
    let rs := readChunks r.2.1 rest
    ((r.1, r.2.2) :: rs.1, rs.2)

/-- The row indices delivered by one call of `readChunk`: the `index` of the
input records below the returned size. -/
def deliveredRows (r : Nat × Chunk F) : List Nat :=
  (List.range r.1).map (fun i => (r.2.inVis i).index)

/-- Body of the loop over `stokes` of lines 447-453. -/
def packSample (outV : Visibility F) (nchan chan : Nat)
    (m : CasaMatrix (CasaComplex F) × CasaMatrix Bool) (stokes : Nat) :
    CasaMatrix (CasaComplex F) × CasaMatrix Bool :=
  let vis : CasaComplex F :=
    ⟨outV.data_real (stokes * nchan + chan), outV.data_imag (stokes * nchan + chan)⟩
  (m.1.set stokes chan vis,
   m.2.set stokes chan (decide (outV.data_flag (stokes * nchan + chan) ≠ 0)))

/-- Body of the loop over `chan` of lines 445-454. -/
def packChannel (outV : Visibility F) (nchan nstokes : Nat)
    (m : CasaMatrix (CasaComplex F) × CasaMatrix Bool) (chan : Nat) :
    CasaMatrix (CasaComplex F) × CasaMatrix Bool :=
  (List.range nstokes).foldl (packSample outV nchan chan) m

/-- Body of the first loop of `writeChunk` (lines 439-469). -/
def writeData (datacolumn_ : DataColumn) (chunk : Chunk F) (cols : MSColumns F)
    (i : Nat) : MSColumns F :=
  let nchan := (chunk.outVis i).nchan
  let nstokes := (chunk.outVis i).nstokes
  let m0 : CasaMatrix (CasaComplex F) × CasaMatrix Bool :=
    (CasaMatrix.new nstokes nchan ⟨0, 0⟩, CasaMatrix.new nstokes nchan false)
  let m := (List.range nchan).foldl (packChannel (chunk.outVis i) nchan nstokes) m0
  let cols1 : MSColumns F :=
    match datacolumn_ with
    | DataColumn.col_data =>
      { cols with data := Function.update cols.data (chunk.outVis i).index m.1 }
    | DataColumn.col_model_data =>
      { cols with modelData := Function.update cols.modelData (chunk.outVis i).index m.1 }
    | DataColumn.col_corrected_data =>
      { cols with
        correctedData := Function.update cols.correctedData (chunk.outVis i).index m.1 }
  { cols1 with flag := Function.update cols1.flag (chunk.outVis i).index m.2 }

/-- Body of the second loop of `writeChunk` (lines 470-478). -/
def writeWeight (chunk : Chunk F) (cols : MSColumns F) (i : Nat) : MSColumns F :=
  let nstokes := (chunk.outVis i).nstokes
  let weight := (List.range nstokes).foldl
    (fun (weight : CasaVector F) stokes => weight.set stokes ((chunk.outVis i).weight stokes))
    (CasaVector.new nstokes 0)
  { cols with weight := Function.update cols.weight (chunk.outVis i).index weight }

/-- Body of the third loop of `writeChunk` (lines 479-482). -/
def writeFieldId (chunk : Chunk F) (cols : MSColumns F) (i : Nat) : MSColumns F :=
  { cols with
    fieldId := Function.update cols.fieldId (chunk.outVis i).index (chunk.outVis i).fieldID }

/-- `msio::writeChunk(chunk)`: the stream after the call. -/
def msio.writeChunk (self : msio F) (chunk : Chunk F) : msio F :=
  match self.msoutcols with
  | none => self
  | some cols =>
    let cols1 := (List.range chunk.size).foldl (writeData self.datacolumn_ chunk) cols
    let cols2 := (List.range chunk.size).foldl (writeWeight chunk) cols1
    let cols3 := (List.range chunk.size).foldl (writeFieldId chunk) cols2
    { self with msoutcols := some cols3 }

end MsioDefs

/-! ## Concrete inputs

Small inputs on which the definitions above are evaluated. -/

/-- A rational stand-in for the C math library: low-order polynomial
approximations, so that the model can be run on rational numbers. -/
def ratMath : CMath ℚ :=
  { sin := fun t => t - t ^ 3 / 6,
    cos := fun t => 1 - t ^ 2 / 2,
    sqrt := fun t => (1 + t) / 2,
    log := fun t => t - 1,
    M_PI := 355 / 113,
    c := 299792458 }

/-- A dataset with the single pointing 0, phase centre (0, 0). -/
def onePointing : DataIO ℚ :=
  { nPointings := 1, xPhaseCentre := fun _ => 0, yPhaseCentre := fun _ => 0 }

/-- A beam whose response is 1 everywhere. -/
def flatBeam : PrimaryBeam ℚ :=
  { calc_ := fun _ _ => 1 }

/-- A catalog of one point source of flux 1 at (0, 0). -/
def oneSource : List (SkyComponent ℚ) :=
  [{ dirX := 0, dirY := 0, fluxI := 1, shapeType := ComponentType.POINT, param0 := 0 }]

/-- The stacking point that `oneSource` yields for pointing 0 of
`onePointing` in subtract mode. -/
def oneSourcePoint : StackPoint ℚ :=
  { x := 0, y := 0, flux := 1, size := 0, model_type := ModelType.mod_point,
    dx := 0, dy := 0, omega_x := 0, omega_y := 0, omega_z := 0, omega_size := none }

/-- A dataset of ten rows: rows 0-2 belong to field 0 and rows 3-9 to
field 1; every row has one polarization and one channel. -/
def tenRows : MSColumns ℚ :=
  { nrow := 10,
    data := fun r => CasaMatrix.new 1 1 ⟨r, 0⟩,
    modelData := fun r => CasaMatrix.new 1 1 ⟨r, 1⟩,
    correctedData := fun r => CasaMatrix.new 1 1 ⟨r, 2⟩,
    flag := fun r => CasaMatrix.new 1 1 (decide (r = 5)),
    weight := fun _ => CasaVector.new 1 1,
    uvw := fun _ => CasaVector.new 3 0,
    fieldId := fun r => if r < 3 then 0 else 1,
    dataDescId := fun _ => 0 }

/-- A stream on `tenRows` with the cursor at `cursor`. -/
def tenRowStream (one_ptg_per_chunk : Bool) (cursor : Nat) : msio ℚ :=
  { msincols := tenRows,
    msoutcols := some tenRows,
    datacolumn_ := DataColumn.col_data,
    one_ptg_per_chunk_ := one_ptg_per_chunk,
    ptg_warning_done := false,
    ptg_breaks_in_a_row := 0,
    currentVisibility := cursor,
    nchan := 1,
    nstokes := 1,
    nspw := 1,
    freq := fun _ => 1,
    dataset_id := 0,
    warnings := [] }

/-- A visibility record with every member zero. -/
def zeroVisibility : Visibility ℚ :=
  { index := 0, u := 0, v := 0, w := 0, fieldID := 0, spw := 0, freq := 0,
    nchan := 0, nstokes := 0, weight := fun _ => 0, data_real := fun _ => 0,
    data_imag := fun _ => 0, data_flag := fun _ => 0 }

/-- A chunk of the given capacity whose records are all zero. -/
def zeroChunk (capacity : Nat) : Chunk ℚ :=
  { capacity := capacity, size := capacity, dataset_id := 0, nchan := 0, nstokes := 0,
    inVis := fun _ => zeroVisibility, outVis := fun _ => zeroVisibility }

/-- The processing stage that changes nothing: every output record takes
the sample arrays of its input record. -/
def copySamples {F : Type} (chunk : Chunk F) : Chunk F :=
  { chunk with
    outVis := fun i =>
      { chunk.outVis i with
        data_real := (chunk.inVis i).data_real,
        data_imag := (chunk.inVis i).data_imag } }

/-- A catalog of one Gaussian source of flux 2 and size 1e-6 rad at (0, 0). -/
def gaussSource : List (SkyComponent ℚ) :=
  [{ dirX := 0, dirY := 0, fluxI := 2, shapeType := ComponentType.GAUSSIAN,
     param0 := 1e-6 }]

/-- The stacking point that `gaussSource` yields for pointing 0 of
`onePointing` in subtract mode, computed with `ratMath`. -/
def gaussSourcePoint : StackPoint ℚ :=
  { x := 0, y := 0, flux := 2, size := 1e-6, model_type := ModelType.mod_gaussian,
    dx := 0, dy := 0, omega_x := 0, omega_y := 0, omega_z := 0,
    omega_size := some ((355 / 113 * 1e-6 / 299792458) ^ 2 / 4) }

/-- A stream on `tenRows` opened without an output dataset. -/
def readOnlyStream : msio ℚ :=
  { tenRowStream false 0 with msoutcols := none }

/-! ## msio.cpp: the constructor -/

/-- Modelled from the spec: the error kinds of `fileException` that
`msio::msio` throws; the class is declared in a header that is not part of
the sources at hand.  The spec has a kind of its own for each absent sample
column; `msio.cpp` names these two. -/
inductive fileException
  | MODEL_DATA_MISSING
  | CORRECTED_DATA_MISSING
  deriving DecidableEq, Repr

/-- A `casa::TableError`. -/
inductive TableError
  | unknownColumn (name : String)
  deriving DecidableEq, Repr

/-- A `casa::MeasurementSet` as `msio::msio` reads it: the names of the
columns its main table has, the columns of the main table, the channel
frequencies of each row of the spectral-window table and the number of
correlations of each row of the polarization table. -/
structure MeasurementSet (F : Type) where
  columnNames : List String
  main : MSColumns F
  chanFreq : List (List F)
  numCorr : List Nat

section ConstructorDefs

variable {F : Type} [Zero F]

/-- `Table::isColumnStored(name)` as the constructor relies on it: the call
throws a `TableError` when the table has no column of that name; the value
it returns otherwise is not used. -/
def MeasurementSet.isColumnStored (ms : MeasurementSet F) (name : String) :
    Except TableError Bool :=
  if name ∈ ms.columnNames then Except.ok true
  else Except.error (TableError.unknownColumn name)

/-- The selection `tablesel(node, node.nrow())` of lines 66-71 and 125-130:
the rows whose field id is matched by the field expression, in order. -/
def MeasurementSet.selectField (ms : MeasurementSet F) (field : Int → Bool) :
    MeasurementSet F :=
  let rows := (List.range ms.main.nrow).filter (fun r => field (ms.main.fieldId r))
  { ms with
    main :=
      { nrow := rows.length,
        data := fun r => ms.main.data (rows.getD r 0),
        modelData := fun r => ms.main.modelData (rows.getD r 0),
        correctedData := fun r => ms.main.correctedData (rows.getD r 0),
        flag := fun r => ms.main.flag (rows.getD r 0),
        weight := fun r => ms.main.weight (rows.getD r 0),
        uvw := fun r => ms.main.uvw (rows.getD r 0),
        fieldId := fun r => ms.main.fieldId (rows.getD r 0),
        dataDescId := fun r => ms.main.dataDescId (rows.getD r 0) } }

/-- Lines 80-112: the column choice is stored and the input table is asked
for the column. -/
def checkInput (msin : MeasurementSet F) (datacolumn : DataColumn) :
    Except fileException DataColumn :=
  match datacolumn with
  | DataColumn.col_data => Except.ok DataColumn.col_data
  | DataColumn.col_model_data =>
    match msin.isColumnStored "MODEL_DATA" with
    | Except.ok _ => Except.ok DataColumn.col_model_data
    | Except.error _ => Except.error fileException.MODEL_DATA_MISSING
  | DataColumn.col_corrected_data =>
    match msin.isColumnStored "CORRECTED_DATA" with
    | Except.ok _ => Except.ok DataColumn.col_corrected_data
    | Except.error _ => Except.error fileException.CORRECTED_DATA_MISSING

/-- Lines 117-156: the output dataset is opened when a file name is given,
and asked for the column; the result is `msoutcols`. -/
def openOutput (msin : MeasurementSet F) (msoutfile : Option (MeasurementSet F))
    (datacolumn_ : DataColumn) (select_field : Bool) (field : Int → Bool) :
    Except fileException (Option (MSColumns F)) :=
  match msoutfile with
  | some file =>
    let msout := if select_field then file.selectField field else file
    if datacolumn_ = DataColumn.col_corrected_data then
      match msout.isColumnStored "CORRECTED_DATA" with
      | Except.ok _ => Except.ok (some msout.main)
      | Except.error _ => Except.error fileException.CORRECTED_DATA_MISSING
    else if datacolumn_ = DataColumn.col_model_data then
      match msin.isColumnStored "MODEL_DATA" with
      | Except.ok _ => Except.ok (some msout.main)
      | Except.error _ => Except.error fileException.MODEL_DATA_MISSING
    else Except.ok (some msout.main)
  | none => Except.ok none

/-- Lines 163-172: the largest channel count over the spectral windows. -/
def largestNchan (chanFreq : List (List F)) (nspw : Nat) : Nat :=
  (List.range nspw).foldl
    (fun nchan row =>
      if (chanFreq.getD row []).length > nchan then (chanFreq.getD row []).length
      else nchan) 0

/-- Lines 176-190: the array `freq` of `nspw * nchan` entries, with entry
`row * nchan + col` the frequency of channel `col` of spectral window `row`,
or 0 where that window has no such channel. -/
def fillFreq (chanFreq : List (List F)) (nspw nchan : Nat) : Nat → F :=
  (List.range nspw).foldl
    (fun freq row =>
      let freqbuff := chanFreq.getD row []
      let c_nchan := freqbuff.length
      (List.range nchan).foldl
        (fun freq col =>
          if col < c_nchan then Function.update freq (row * nchan + col) (freqbuff.getD col 0)
          else Function.update freq (row * nchan + col) 0) freq)
    (fun _ => 0)

/-- Lines 192-200: the largest correlation count over the rows of the
polarization table. -/
def largestNstokes (numCorr : List Nat) : Nat :=
  (List.range numCorr.length).foldl
    (fun nstokes i => if numCorr.getD i 0 > nstokes then numCorr.getD i 0 else nstokes) 0

/-- `msio::msio(msinfile, msoutfile, datacolumn, select_field, field,
one_ptg_per_chunk)`: the stream constructed, or the exception thrown.
`msoutfile = none` stands for an empty file name.  The constructor does not
assign `dataset_id` and `ptg_breaks_in_a_row`; the values they have after
`DataIO()` are arguments here.  The phase centres of lines 203-212 are not
members of the model of `msio`. -/
def msio.new (msinfile : MeasurementSet F) (msoutfile : Option (MeasurementSet F))
    (datacolumn : DataColumn) (select_field : Bool) (field : Int → Bool)
    (one_ptg_per_chunk : Bool) (dataset_id ptg_breaks_in_a_row : Int) :
    Except fileException (msio F) :=
  let msin := if select_field then msinfile.selectField field else msinfile
  match checkInput msin datacolumn with
  | Except.error e => Except.error e
  | Except.ok datacolumn_ =>
    match openOutput msin msoutfile datacolumn_ select_field field with
    | Except.error e => Except.error e
    | Except.ok msoutcols =>
      let nspw := msin.chanFreq.length
      let nchan := largestNchan msin.chanFreq nspw
      Except.ok
        { msincols := msin.main,
          msoutcols := msoutcols,
          datacolumn_ := datacolumn_,
          one_ptg_per_chunk_ := one_ptg_per_chunk,
          ptg_warning_done := false,
          ptg_breaks_in_a_row := ptg_breaks_in_a_row,
          currentVisibility := 0,
          nchan := nchan,
          nstokes := largestNstokes msin.numCorr,
          nspw := nspw,
          freq := fillFreq msin.chanFreq nspw nchan,
          dataset_id := dataset_id,
          warnings := [] }

end ConstructorDefs

/-- A measurement set of two rows and two spectral windows: window 0 has the
channels 100 and 101, window 1 the single channel 200; row 0 belongs to
window 0 and has two channels, row 1 belongs to window 1 and has one. -/
def twoSpwMS : MeasurementSet ℚ :=
  { columnNames := ["DATA", "FLAG", "WEIGHT"],
    main :=
      { nrow := 2,
        data := fun r => if r = 0 then CasaMatrix.new 1 2 ⟨1, 0⟩ else CasaMatrix.new 1 1 ⟨2, 0⟩,
        modelData := fun _ => CasaMatrix.new 0 0 ⟨0, 0⟩,
        correctedData := fun _ => CasaMatrix.new 0 0 ⟨0, 0⟩,
        flag := fun r => if r = 0 then CasaMatrix.new 1 2 false else CasaMatrix.new 1 1 false,
        weight := fun _ => CasaVector.new 1 1,
        uvw := fun _ => CasaVector.new 3 0,
        fieldId := fun _ => 0,
        dataDescId := fun r => if r = 0 then 0 else 1 },
    chanFreq := [[100, 101], [200]],
    numCorr := [1] }

/-- A measurement set without any sample column. -/
def noSampleColumnMS : MeasurementSet ℚ :=
  { twoSpwMS with columnNames := ["FLAG", "WEIGHT"] }

section DiagnosticDefs

variable {F : Type} [Zero F]

/-- A call of `readChunk` with `chunk` in the state `self` shortens its
batch for alignment: the stream is not exhausted, alignment is enabled, and
the size returned is below both the capacity and the number of rows left. -/
def shortensBatch (self : msio F) (chunk : Chunk F) : Prop :=
  self.currentVisibility < self.nvis ∧ self.one_ptg_per_chunk_ = true ∧
    (self.readChunk chunk).1 < min chunk.capacity (self.nvis - self.currentVisibility)

instance shortensBatchDecidable (self : msio F) (chunk : Chunk F) :
    Decidable (shortensBatch self chunk) :=
  inferInstanceAs (Decidable (_ ∧ _ ∧ _))

/-- A call of `readChunk` with `chunk` in the state `self` emits the
alignment warning: what has been written to `cout` is not what it was. -/
def emitsWarning (self : msio F) (chunk : Chunk F) : Prop :=
  (self.readChunk chunk).2.1.warnings ≠ self.warnings

instance emitsWarningDecidable (self : msio F) (chunk : Chunk F) :
    Decidable (emitsWarning self chunk) :=
  inferInstanceAs (Decidable (_ ≠ _))

/-- What holds of the diagnostic members in every state of a stream whose
break counter started at 0 with no warning printed: the counter is not
negative, it is 0 once the stream is exhausted and whenever alignment is
disabled, the warning flag is set exactly when a warning has been printed,
at most one has been, and none when alignment is disabled. -/
def DiagInv (s : msio F) : Prop :=
  0 ≤ s.ptg_breaks_in_a_row ∧
    (s.currentVisibility ≥ s.nvis → s.ptg_breaks_in_a_row = 0) ∧
    (s.ptg_warning_done = true ↔ s.warnings ≠ []) ∧
    s.warnings.length ≤ 1 ∧
    (s.one_ptg_per_chunk_ = false → s.ptg_breaks_in_a_row = 0 ∧ s.warnings = [])

end DiagnosticDefs

/-- The ten rows of `tenRows` with the field ids 0, 1, 0, 1, ...: a dataset
that is not sorted by pointing. -/
def alternatingRows : MSColumns ℚ :=
  { tenRows with fieldId := fun r => if r % 2 = 0 then 0 else 1 }

/-- A fresh stream on `alternatingRows` with pointing alignment enabled. -/
def alternatingStream : msio ℚ :=
  { tenRowStream true 0 with msincols := alternatingRows, msoutcols := none }

/-- A catalog of a point source, a Gaussian, a disk and a component of
another shape, all at (0, 0). -/
def mixedSources : List (SkyComponent ℚ) :=
  [{ dirX := 0, dirY := 0, fluxI := 1, shapeType := ComponentType.POINT, param0 := 5 },
   { dirX := 0, dirY := 0, fluxI := 2, shapeType := ComponentType.GAUSSIAN, param0 := 1e-6 },
   { dirX := 0, dirY := 0, fluxI := 3, shapeType := ComponentType.DISK, param0 := 2e-6 },
   { dirX := 0, dirY := 0, fluxI := 4, shapeType := ComponentType.LDISK, param0 := 7 }]

/-! ## Properties of `Model::compute` -/

section ModelLemmas

variable {F : Type} [LinearOrderedField F]

theorem filterField_foldl_vecs (M : CMath F) (ms : DataIO F) (pb : PrimaryBeam F)
    (sc : SkyComponent F) (P : Nat) :
    ∀ (l : List Nat) (st : FirstPass F), l.Nodup →
      ((l.foldl (filterField M ms pb sc.dirX sc.dirY sc.fluxI (shapeOf sc).1
          (shapeOf sc).2) st).vecs P =
        if P ∈ l ∧ specResponse M ms pb P sc > 0.01 then pushed (st.vecs P) [sc]
        else st.vecs P) := by
  intro l
  induction l with
  | nil => intro st _; simp
  | cons a l ih =>
    intro st hnd
    rw [List.nodup_cons] at hnd
    rw [List.foldl_cons, ih _ hnd.2]
    by_cases hPa : P = a
    · subst hPa
      have hPl : P ∉ l := hnd.1
      by_cases hr : specResponse M ms pb P sc > 0.01
      · have hr2 := hr
        simp only [specResponse, specDx, specDy] at hr2
        simp [filterField, filterDx, filterDy, hPl, hr, hr2, pushed]
      · have hr2 := hr
        simp only [specResponse, specDx, specDy] at hr2
        simp [filterField, filterDx, filterDy, hPl, hr, hr2]
    · have hne : a ≠ P := fun h => hPa h.symm
      have hsame : (filterField M ms pb sc.dirX sc.dirY sc.fluxI (shapeOf sc).1
          (shapeOf sc).2 st a).vecs P = st.vecs P := by
        unfold filterField
        dsimp only
        split
        · simp [Function.update, hPa]
        · rfl
      simp [hsame, hPa]

theorem filterComponent_vecs (M : CMath F) (ms : DataIO F) (pb : PrimaryBeam F)
    (n : Nat) (st : FirstPass F) (sc : SkyComponent F) (P : Nat) (hP : P < n) :
    (filterComponent M ms pb n st sc).vecs P =
      if specResponse M ms pb P sc > 0.01 then pushed (st.vecs P) [sc]
      else st.vecs P := by
  unfold filterComponent
  dsimp only
  rw [filterField_foldl_vecs M ms pb sc P _ _ (List.nodup_range n)]
  simp [hP]

theorem pushed_nil (v : PointingVectors F) : pushed v [] = v := by
  cases v
  simp [pushed]

theorem pushed_pushed (v : PointingVectors F) (l1 l2 : List (SkyComponent F)) :
    pushed (pushed v l1) l2 = pushed v (l1 ++ l2) := by
  simp [pushed, List.append_assoc, Nat.add_assoc]

theorem foldl_filterComponent_vecs (M : CMath F) (ms : DataIO F) (pb : PrimaryBeam F)
    (n : Nat) (P : Nat) (hP : P < n) :
    ∀ (cl : List (SkyComponent F)) (st : FirstPass F),
      (cl.foldl (filterComponent M ms pb n) st).vecs P =
        pushed (st.vecs P) (specIncluded M ms pb P cl) := by
  intro cl
  induction cl with
  | nil => intro st; simp [specIncluded, pushed_nil]
  | cons sc cl ih =>
    intro st
    rw [List.foldl_cons, ih, filterComponent_vecs M ms pb n st sc P hP]
    by_cases hr : specResponse M ms pb P sc > 0.01
    · have : specIncluded M ms pb P (sc :: cl) = [sc] ++ specIncluded M ms pb P cl := by
        simp [specIncluded, List.filter_cons, hr]
      rw [if_pos hr, pushed_pushed, this]
    · have : specIncluded M ms pb P (sc :: cl) = specIncluded M ms pb P cl := by
        simp [specIncluded, List.filter_cons, hr]
      rw [if_neg hr, this]

/-- The vectors of pointing `P` after the first pass hold the included
components of the catalog, in catalog order. -/
theorem firstPass_vecs (M : CMath F) (ms : DataIO F) (pb : PrimaryBeam F)
    (n : Nat) (cl : List (SkyComponent F)) (P : Nat) (hP : P < n) :
    (firstPass M ms pb n cl).vecs P =
      { cx := (specIncluded M ms pb P cl).map (fun sc => sc.dirX),
        cy := (specIncluded M ms pb P cl).map (fun sc => sc.dirY),
        cflux := (specIncluded M ms pb P cl).map (fun sc => sc.fluxI),
        csize := (specIncluded M ms pb P cl).map (fun sc => (shapeOf sc).1),
        cmodel_type := (specIncluded M ms pb P cl).map (fun sc => (shapeOf sc).2),
        nStackPoints := (specIncluded M ms pb P cl).length } := by
  unfold firstPass
  rw [foldl_filterComponent_vecs M ms pb n P hP]
  simp [pushed]

/-- The point stored at index `i` of pointing `P` is computed from the
entries of the `i`-th included component alone. -/
theorem compute_points_getElem? (M : CMath F) (m : Model F) (ms : DataIO F)
    (pb : PrimaryBeam F) (P i : Nat)
    (sc : SkyComponent F) (hP : P < ms.nPointings)
    (hsc : (specIncluded M ms pb P m.cl)[i]? = some sc) :
    ((m.compute M ms pb).points P)[i]? =
      some (storePoint M ms m.subtract_
        { cx := [sc.dirX], cy := [sc.dirY], cflux := [sc.fluxI],
          csize := [(shapeOf sc).1], cmodel_type := [(shapeOf sc).2],
          nStackPoints := 1 } P 0) := by
  obtain ⟨hi, hget⟩ := List.getElem?_eq_some_iff.mp hsc
  simp only [Model.compute, hP, if_true, firstPass_vecs M ms pb _ m.cl P hP]
  rw [List.getElem?_map, List.getElem?_range hi]
  simp [storePoint, List.getD_eq_getElem?_getD, hsc]

/-- The number of points stored for pointing `P` is the number of included
components. -/
theorem compute_points_length (M : CMath F) (m : Model F) (ms : DataIO F)
    (pb : PrimaryBeam F) (P : Nat) (hP : P < ms.nPointings) :
    ((m.compute M ms pb).points P).length = (specIncluded M ms pb P m.cl).length := by
  simp [Model.compute, hP, firstPass_vecs M ms pb _ m.cl P hP]

theorem compute_nStackPoints (M : CMath F) (m : Model F) (ms : DataIO F)
    (pb : PrimaryBeam F) (P : Nat) (hP : P < ms.nPointings) :
    (m.compute M ms pb).nStackPoints P = (specIncluded M ms pb P m.cl).length := by
  simp [Model.compute, hP, firstPass_vecs M ms pb _ m.cl P hP]

/-- Every stored point has a source component: the included component of
the same index. -/
theorem compute_points_source (M : CMath F) (m : Model F) (ms : DataIO F)
    (pb : PrimaryBeam F) (P i : Nat) (pt : StackPoint F)
    (hpt : ((m.compute M ms pb).points P)[i]? = some pt) :
    ∃ sc, (specIncluded M ms pb P m.cl)[i]? = some sc ∧
      pt = storePoint M ms m.subtract_
        { cx := [sc.dirX], cy := [sc.dirY], cflux := [sc.fluxI],
          csize := [(shapeOf sc).1], cmodel_type := [(shapeOf sc).2],
          nStackPoints := 1 } P 0 := by
  by_cases hP : P < ms.nPointings
  · have hi : i < (specIncluded M ms pb P m.cl).length := by
      rw [← compute_points_length M m ms pb P hP]
      exact (List.getElem?_eq_some_iff.mp hpt).1
    refine ⟨(specIncluded M ms pb P m.cl)[i], List.getElem?_eq_getElem hi, ?_⟩
    have h := compute_points_getElem? M m ms pb P i _ hP (List.getElem?_eq_getElem hi)
    rw [hpt] at h
    exact Option.some.inj h
  · simp [Model.compute, hP] at hpt

end ModelLemmas

/-! ## The claims about `Model::compute` -/

section ModelClaims

variable {F : Type} [LinearOrderedField F]

/-- C1: after `Model::compute`, for every pointing `P` the count
`nStackPoints[P]` is the number of catalog components whose beam response
at their tangent-plane offset from the phase centre of `P` is strictly
greater than 0.01; a component whose response is exactly 0.01 is not
counted: taking it out of the catalog leaves the count as it is. -/
theorem compute_nStackPoints_eq_count (M : CMath F) (cl : List (SkyComponent F))
    (subtract : Bool) (ms : DataIO F) (pb : PrimaryBeam F) (P : Nat)
    (hP : P < ms.nPointings) :
    ((Model.new cl subtract).compute M ms pb).nStackPoints P =
        cl.countP (fun sc => decide (pb.calc_ (specDx M ms P sc) (specDy M ms P sc) > 0.01)) ∧
      ∀ (pre post : List (SkyComponent F)) (sc : SkyComponent F),
        cl = pre ++ sc :: post →
        pb.calc_ (specDx M ms P sc) (specDy M ms P sc) = 0.01 →
        ((Model.new cl subtract).compute M ms pb).nStackPoints P =
          ((Model.new (pre ++ post) subtract).compute M ms pb).nStackPoints P := by
  constructor
  · rw [compute_nStackPoints M _ ms pb P hP, List.countP_eq_length_filter]
    rfl
  · intro pre post sc hcl hsc
    rw [compute_nStackPoints M _ ms pb P hP, compute_nStackPoints M _ ms pb P hP]
    subst hcl
    simp [Model.new, specIncluded, specResponse, List.filter_cons, hsc]

theorem compute_nStackPoints_eq_count_witness :
    0 < onePointing.nPointings ∧
      ((Model.new oneSource true).compute ratMath onePointing flatBeam).nStackPoints 0 =
        oneSource.countP (fun sc =>
          decide (flatBeam.calc_ (specDx ratMath onePointing 0 sc)
            (specDy ratMath onePointing 0 sc) > 0.01)) :=
  ⟨by decide,
   (compute_nStackPoints_eq_count ratMath oneSource true onePointing flatBeam 0
      (by decide)).1⟩

/-- C7: the flux of every stored stacking point equals the catalog flux
of its source component when the model was constructed with
`subtract = true`, and the negation of the catalog flux when it was
constructed with `subtract = false`. -/
theorem compute_flux_sign (M : CMath F) (cl : List (SkyComponent F))
    (subtract : Bool) (ms : DataIO F) (pb : PrimaryBeam F) (P i : Nat)
    (pt : StackPoint F)
    (hpt : (((Model.new cl subtract).compute M ms pb).points P)[i]? = some pt) :
    ∃ sc, (specIncluded M ms pb P cl)[i]? = some sc ∧
      (subtract = true → pt.flux = sc.fluxI) ∧
      (subtract = false → pt.flux = -sc.fluxI) := by
  obtain ⟨sc, hsc, hpt2⟩ := compute_points_source M _ ms pb P i pt hpt
  refine ⟨sc, hsc, ?_, ?_⟩
  · intro hs
    subst hs
    simp [hpt2, storePoint, Model.new]
  · intro hs
    subst hs
    simp [hpt2, storePoint, Model.new]

theorem compute_flux_sign_witness :
    ∃ sc, (specIncluded ratMath onePointing flatBeam 0 oneSource)[0]? = some sc ∧
      (true = true → oneSourcePoint.flux = sc.fluxI) ∧
      (true = false → oneSourcePoint.flux = -sc.fluxI) :=
  compute_flux_sign ratMath oneSource true onePointing flatBeam 0 0 oneSourcePoint
    (by
      simp [Model.compute, Model.new, firstPass, filterComponent, filterField, filterDx,
        filterDy, oneSource, onePointing, flatBeam, ratMath, storePoint, storeDx, storeDy,
        shapeOf, List.range_succ, oneSourcePoint]
      norm_num
      rfl)

/-- C8: for every stored stacking point of every pointing `P`, with
`(xP, yP)` the phase centre of `P`, the stored offsets are
`dx = sin(x - xP) * cos(y)` and
`dy = sin(y) * cos(yP) - cos(y) * sin(yP) * cos(x - xP)` of the stored
`(x, y)`, and `omega_x = 2 pi sin(dx) / c`, `omega_y = 2 pi sin(dy) / c`,
`omega_z = 2 pi (sqrt(1 - dx^2 - dy^2) - 1) / c`.  The last is not the
small-angle form `2 pi (cos(sqrt(dx^2 + dy^2)) - 1) / c`: over the real
numbers there is a stored point on which the two differ. -/
theorem compute_offsets_and_omegas :
    (∀ (F : Type) [LinearOrderedField F] (M : CMath F) (cl : List (SkyComponent F))
        (subtract : Bool) (ms : DataIO F) (pb : PrimaryBeam F) (P i : Nat)
        (pt : StackPoint F),
        (((Model.new cl subtract).compute M ms pb).points P)[i]? = some pt →
        pt.dx = M.sin (pt.x - ms.xPhaseCentre P) * M.cos pt.y ∧
        pt.dy = M.sin pt.y * M.cos (ms.yPhaseCentre P) -
                  M.cos pt.y * M.sin (ms.yPhaseCentre P) * M.cos (pt.x - ms.xPhaseCentre P) ∧
        pt.omega_x = 2 * M.M_PI * M.sin pt.dx / M.c ∧
        pt.omega_y = 2 * M.M_PI * M.sin pt.dy / M.c ∧
        pt.omega_z = 2 * M.M_PI * (M.sqrt (1 - pt.dx ^ 2 - pt.dy ^ 2) - 1) / M.c) ∧
    (∃ (cl : List (SkyComponent ℝ)) (ms : DataIO ℝ) (pb : PrimaryBeam ℝ) (pt : StackPoint ℝ),
        (((Model.new cl true).compute
            ⟨Real.sin, Real.cos, Real.sqrt, Real.log, Real.pi, 299792458⟩ ms pb).points 0)[0]? =
          some pt ∧
        pt.omega_z ≠
          2 * Real.pi * (Real.cos (Real.sqrt (pt.dx ^ 2 + pt.dy ^ 2)) - 1) / 299792458) := by
  constructor
  · intro F _ M cl subtract ms pb P i pt hpt
    obtain ⟨sc, _, hpt2⟩ := compute_points_source M _ ms pb P i pt hpt
    subst hpt2
    simp [storePoint, storeDx, storeDy, pow_two]
  · refine ⟨[{ dirX := Real.pi / 2, dirY := 0, fluxI := 1,
               shapeType := ComponentType.POINT, param0 := 0 }],
      { nPointings := 1, xPhaseCentre := fun _ => 0, yPhaseCentre := fun _ => 0 },
      { calc_ := fun _ _ => 1 }, _,
      compute_points_getElem? _ _ _ _ 0 0
        { dirX := Real.pi / 2, dirY := 0, fluxI := 1,
          shapeType := ComponentType.POINT, param0 := 0 } (by decide) ?_, ?_⟩
    · simp [specIncluded, specResponse, Model.new]
      norm_num
    · simp [storePoint, storeDx, storeDy]
      have hcos := Real.cos_one_pos
      have hpi := Real.pi_pos
      intro h
      rw [div_left_inj' (by norm_num : (299792458 : ℝ) ≠ 0)] at h
      nlinarith [mul_pos hpi hcos]

theorem compute_offsets_and_omegas_witness :
    oneSourcePoint.dx =
        ratMath.sin (oneSourcePoint.x - onePointing.xPhaseCentre 0) *
          ratMath.cos oneSourcePoint.y ∧
      oneSourcePoint.dy =
        ratMath.sin oneSourcePoint.y * ratMath.cos (onePointing.yPhaseCentre 0) -
          ratMath.cos oneSourcePoint.y * ratMath.sin (onePointing.yPhaseCentre 0) *
            ratMath.cos (oneSourcePoint.x - onePointing.xPhaseCentre 0) ∧
      oneSourcePoint.omega_x = 2 * ratMath.M_PI * ratMath.sin oneSourcePoint.dx / ratMath.c ∧
      oneSourcePoint.omega_y = 2 * ratMath.M_PI * ratMath.sin oneSourcePoint.dy / ratMath.c ∧
      oneSourcePoint.omega_z =
        2 * ratMath.M_PI *
          (ratMath.sqrt (1 - oneSourcePoint.dx ^ 2 - oneSourcePoint.dy ^ 2) - 1) / ratMath.c :=
  compute_offsets_and_omegas.1 ℚ ratMath oneSource true onePointing flatBeam 0 0
    oneSourcePoint
    (by
      simp [Model.compute, Model.new, firstPass, filterComponent, filterField, filterDx,
        filterDy, oneSource, onePointing, flatBeam, ratMath, storePoint, storeDx, storeDy,
        shapeOf, List.range_succ, oneSourcePoint]
      norm_num
      rfl)

/-- C9: the offsets stored for a stacking point are the offsets that
admitted it: for every stored point `i` of every pointing `P`, the
`(dx, dy)` of the storage pass equal the `(dx, dy)` of the filtering pass
for its source component, the `i`-th component admitted for `P`, so that
the beam response at the stored offsets is greater than 0.01. -/
theorem compute_stored_offsets_admitted (M : CMath F) (cl : List (SkyComponent F))
    (subtract : Bool) (ms : DataIO F) (pb : PrimaryBeam F) (P i : Nat)
    (pt : StackPoint F)
    (hpt : (((Model.new cl subtract).compute M ms pb).points P)[i]? = some pt) :
    ∃ sc, (specIncluded M ms pb P cl)[i]? = some sc ∧ sc ∈ cl ∧
      pt.dx = filterDx M ms sc.dirX sc.dirY P ∧
      pt.dy = filterDy M ms sc.dirX sc.dirY P ∧
      pb.calc_ (filterDx M ms sc.dirX sc.dirY P) (filterDy M ms sc.dirX sc.dirY P) > 0.01 ∧
      pb.calc_ pt.dx pt.dy > 0.01 := by
  obtain ⟨sc, hsc, hpt2⟩ := compute_points_source M _ ms pb P i pt hpt
  have hmem : sc ∈ specIncluded M ms pb P cl := List.getElem?_mem hsc
  have hdx : pt.dx = filterDx M ms sc.dirX sc.dirY P := by
    simp [hpt2, storePoint, storeDx, filterDx]
  have hdy : pt.dy = filterDy M ms sc.dirX sc.dirY P := by
    simp [hpt2, storePoint, storeDy, filterDy]
  have hresp : pb.calc_ (filterDx M ms sc.dirX sc.dirY P)
      (filterDy M ms sc.dirX sc.dirY P) > 0.01 := by
    have h := (List.mem_filter.mp hmem).2
    simpa [specResponse, specDx, specDy, filterDx, filterDy] using h
  refine ⟨sc, hsc, (List.mem_filter.mp hmem).1, hdx, hdy, hresp, ?_⟩
  rw [hdx, hdy]
  exact hresp

theorem compute_stored_offsets_admitted_witness :
    ∃ sc, (specIncluded ratMath onePointing flatBeam 0 oneSource)[0]? = some sc ∧
      sc ∈ oneSource ∧
      oneSourcePoint.dx = filterDx ratMath onePointing sc.dirX sc.dirY 0 ∧
      oneSourcePoint.dy = filterDy ratMath onePointing sc.dirX sc.dirY 0 ∧
      flatBeam.calc_ (filterDx ratMath onePointing sc.dirX sc.dirY 0)
        (filterDy ratMath onePointing sc.dirX sc.dirY 0) > 0.01 ∧
      flatBeam.calc_ oneSourcePoint.dx oneSourcePoint.dy > 0.01 :=
  compute_stored_offsets_admitted ratMath oneSource true onePointing flatBeam 0 0
    oneSourcePoint
    (by
      simp [Model.compute, Model.new, firstPass, filterComponent, filterField, filterDx,
        filterDy, oneSource, onePointing, flatBeam, ratMath, storePoint, storeDx, storeDy,
        shapeOf, List.range_succ, oneSourcePoint]
      norm_num
      rfl)

end ModelClaims

/-! ## Properties of `msio::readChunk` -/

section MsioLemmas

variable {F : Type} [Zero F]

theorem fillRecord_size (self : msio F) (cur : Nat) (chunk : Chunk F) (i : Nat) :
    (fillRecord self cur chunk i).size = chunk.size := rfl

theorem fillRecord_capacity (self : msio F) (cur : Nat) (chunk : Chunk F) (i : Nat) :
    (fillRecord self cur chunk i).capacity = chunk.capacity := rfl

theorem fillRecord_foldl_size (self : msio F) (cur : Nat) :
    ∀ (l : List Nat) (chunk : Chunk F),
      (l.foldl (fillRecord self cur) chunk).size = chunk.size := by
  intro l
  induction l with
  | nil => intro chunk; rfl
  | cons a l ih => intro chunk; rw [List.foldl_cons, ih, fillRecord_size]

theorem fillRecord_foldl_capacity (self : msio F) (cur : Nat) :
    ∀ (l : List Nat) (chunk : Chunk F),
      (l.foldl (fillRecord self cur) chunk).capacity = chunk.capacity := by
  intro l
  induction l with
  | nil => intro chunk; rfl
  | cons a l ih => intro chunk; rw [List.foldl_cons, ih, fillRecord_capacity]

/-- The scan stops within the chunk: it returns at most `inField + left`. -/
theorem scanField_le (fieldId : Nat → Int) (cur : Nat) (fieldID : Int) :
    ∀ (left inField : Nat),
      scanField fieldId cur fieldID left inField ≤ inField + left := by
  intro left
  induction left with
  | zero => intro inField; simp [scanField]
  | succ n ih =>
    intro inField
    unfold scanField
    split
    · have := ih (inField + 1)
      omega
    · omega

theorem scanField_ge (fieldId : Nat → Int) (cur : Nat) (fieldID : Int) :
    ∀ (left inField : Nat),
      inField ≤ scanField fieldId cur fieldID left inField := by
  intro left
  induction left with
  | zero => intro inField; simp [scanField]
  | succ n ih =>
    intro inField
    unfold scanField
    split
    · have := ih (inField + 1)
      omega
    · omega

/-- Every row the scan has passed carries the field id looked for. -/
theorem scanField_same (fieldId : Nat → Int) (cur : Nat) (fieldID : Int) :
    ∀ (left inField j : Nat), inField ≤ j →
      j < scanField fieldId cur fieldID left inField →
      fieldId (j + cur) = fieldID := by
  intro left
  induction left with
  | zero =>
    intro inField j h1 h2
    simp [scanField] at h2
    omega
  | succ n ih =>
    intro inField j h1 h2
    unfold scanField at h2
    split at h2
    · rename_i heq
      by_cases hj : j = inField
      · subst hj; exact heq
      · exact ih (inField + 1) j (by omega) h2
    · omega

/-- Where the scan stops before the end of the chunk, the next row carries
another field id. -/
theorem scanField_stop (fieldId : Nat → Int) (cur : Nat) (fieldID : Int) :
    ∀ (left inField : Nat),
      scanField fieldId cur fieldID left inField < inField + left →
      fieldId (scanField fieldId cur fieldID left inField + cur) ≠ fieldID := by
  intro left
  induction left with
  | zero => intro inField h; simp [scanField] at h
  | succ n ih =>
    intro inField h
    unfold scanField at h ⊢
    split
    · rename_i heq
      rw [if_pos heq] at h
      exact ih (inField + 1) (by omega)
    · rename_i hne
      exact hne

theorem alignChunk_size_le (self : msio F) (chunk : Chunk F) (cur : Nat) :
    (alignChunk self chunk cur).2.size ≤ chunk.size := by
  unfold alignChunk
  dsimp only
  split
  · simp only [Chunk.setSize]
    omega
  · exact Nat.le_refl _

theorem alignChunk_capacity (self : msio F) (chunk : Chunk F) (cur : Nat) :
    (alignChunk self chunk cur).2.capacity = chunk.capacity := by
  unfold alignChunk
  dsimp only
  split <;> rfl

theorem alignChunk_cursor (self : msio F) (chunk : Chunk F) (cur : Nat) :
    (alignChunk self chunk cur).1.currentVisibility = self.currentVisibility := by
  unfold alignChunk
  dsimp only
  split
  · split <;> rfl
  · rfl

theorem alignChunk_msincols (self : msio F) (chunk : Chunk F) (cur : Nat) :
    (alignChunk self chunk cur).1.msincols = self.msincols := by
  unfold alignChunk
  dsimp only
  split
  · split <;> rfl
  · rfl

theorem alignChunk_flag (self : msio F) (chunk : Chunk F) (cur : Nat) :
    (alignChunk self chunk cur).1.one_ptg_per_chunk_ = self.one_ptg_per_chunk_ := by
  unfold alignChunk
  dsimp only
  split
  · split <;> rfl
  · rfl

/-- The value returned by `readChunk` is the logical size of the chunk
after the call when the stream was not exhausted, and 0 when it was. -/
theorem readChunk_fst (self : msio F) (chunk : Chunk F) :
    (self.readChunk chunk).1 =
      if self.currentVisibility ≥ self.nvis then 0 else (self.readChunk chunk).2.2.size := by
  unfold msio.readChunk msio.readChunkSimple
  dsimp only
  split <;> rfl

/-- The cursor advances by the value returned. -/
theorem readChunk_cursor (self : msio F) (chunk : Chunk F) :
    (self.readChunk chunk).2.1.currentVisibility =
      self.currentVisibility + (self.readChunk chunk).1 := by
  unfold msio.readChunk msio.readChunkSimple
  dsimp only
  split
  · rfl
  · simp only [fillRecord_foldl_size, Chunk.reshape_data]
    split
    · rw [alignChunk_cursor]
    · rfl

theorem readChunk_msincols (self : msio F) (chunk : Chunk F) :
    (self.readChunk chunk).2.1.msincols = self.msincols := by
  unfold msio.readChunk msio.readChunkSimple
  dsimp only
  split
  · rfl
  · dsimp only
    split
    · rw [alignChunk_msincols]
    · rfl

theorem readChunk_nvis (self : msio F) (chunk : Chunk F) :
    (self.readChunk chunk).2.1.nvis = self.nvis := by
  unfold msio.nvis
  rw [readChunk_msincols]

theorem readChunk_flag (self : msio F) (chunk : Chunk F) :
    (self.readChunk chunk).2.1.one_ptg_per_chunk_ = self.one_ptg_per_chunk_ := by
  unfold msio.readChunk msio.readChunkSimple
  dsimp only
  split
  · rfl
  · dsimp only
    split
    · rw [alignChunk_flag]
    · rfl

theorem clipSize_size (self : msio F) (chunk : Chunk F) (cur : Nat) :
    (clipSize self chunk cur).size = min chunk.size (self.nvis - cur) := by
  unfold clipSize
  split
  · simp only [Chunk.setSize]
    omega
  · omega

theorem clipSize_capacity (self : msio F) (chunk : Chunk F) (cur : Nat) :
    (clipSize self chunk cur).capacity = chunk.capacity := by
  unfold clipSize
  split <;> rfl

/-- The value returned when the stream is not exhausted. -/
theorem readChunk_fst_of_lt (self : msio F) (chunk : Chunk F)
    (h : self.currentVisibility < self.nvis) :
    (self.readChunk chunk).1 =
      if self.one_ptg_per_chunk_ then
        (alignChunk self
          (clipSize self ((chunk.resetSize).set_dataset_id self.dataset_id)
            self.currentVisibility) self.currentVisibility).2.size
      else min chunk.capacity (self.nvis - self.currentVisibility) := by
  unfold msio.readChunk msio.readChunkSimple
  dsimp only
  rw [if_neg (by omega)]
  simp only [fillRecord_foldl_size, Chunk.reshape_data]
  split
  · rfl
  · rw [clipSize_size]
    rfl

/-- The value returned when the stream is exhausted. -/
theorem readChunk_of_ge (self : msio F) (chunk : Chunk F)
    (h : self.currentVisibility ≥ self.nvis) :
    (self.readChunk chunk).1 = 0 ∧ (self.readChunk chunk).2.1 = self := by
  unfold msio.readChunk msio.readChunkSimple
  dsimp only
  rw [if_pos h]
  exact ⟨rfl, rfl⟩

/-- The value returned is at most the capacity and at most the rows left. -/
theorem readChunk_le (self : msio F) (chunk : Chunk F) :
    (self.readChunk chunk).1 ≤ chunk.capacity ∧
      (self.readChunk chunk).1 ≤ self.nvis - self.currentVisibility := by
  by_cases h : self.currentVisibility < self.nvis
  · rw [readChunk_fst_of_lt self chunk h]
    split
    · have h1 := alignChunk_size_le self
        (clipSize self ((chunk.resetSize).set_dataset_id self.dataset_id)
          self.currentVisibility) self.currentVisibility
      rw [clipSize_size] at h1
      have hc : ((chunk.resetSize).set_dataset_id self.dataset_id).size = chunk.capacity := rfl
      rw [hc] at h1
      omega
    · omega
  · rw [(readChunk_of_ge self chunk (by omega)).1]
    omega

/-! ### The loops that fill a record -/

/-- A loop that stores `g c` at index `base + c` for `c < n`. -/
theorem foldl_update_range {α : Type} (base : Nat) (g : Nat → α) :
    ∀ (n : Nat) (arr : Nat → α) (j : Nat),
      ((List.range n).foldl (fun a c => Function.update a (base + c) (g c)) arr) j =
        if base ≤ j ∧ j < base + n then g (j - base) else arr j := by
  intro n
  induction n with
  | zero =>
    intro arr j
    have : ¬ (base ≤ j ∧ j < base + 0) := by omega
    rw [if_neg this]
    rfl
  | succ n ih =>
    intro arr j
    rw [List.range_succ, List.foldl_append, List.foldl_cons, List.foldl_nil]
    by_cases hj : j = base + n
    · subst hj
      simp
    · rw [Function.update_noteq hj, ih]
      by_cases h1 : base ≤ j ∧ j < base + n
      · have h2 : base ≤ j ∧ j < base + (n + 1) := by omega
        rw [if_pos h1, if_pos h2]
      · have h2 : ¬ (base ≤ j ∧ j < base + (n + 1)) := by omega
        rw [if_neg h1, if_neg h2]

/-- The nested loops that store `g s c` at index `nchan * s + c` for
`s < nstokes` and `c < nchan`. -/
theorem foldl_update_nested {α : Type} (nchan : Nat) (g : Nat → Nat → α) :
    ∀ (nstokes : Nat) (arr : Nat → α) (j : Nat),
      ((List.range nstokes).foldl
        (fun a s => (List.range nchan).foldl
          (fun a c => Function.update a (nchan * s + c) (g s c)) a) arr) j =
        if j < nchan * nstokes then g (j / nchan) (j % nchan) else arr j := by
  intro nstokes
  induction nstokes with
  | zero => intro arr j; simp
  | succ n ih =>
    intro arr j
    rw [List.range_succ, List.foldl_append, List.foldl_cons, List.foldl_nil,
      foldl_update_range]
    by_cases h1 : nchan * n ≤ j ∧ j < nchan * n + nchan
    · rw [if_pos h1, if_pos (by rw [Nat.mul_succ]; omega)]
      have hpos : 0 < nchan := by omega
      have hdiv : j / nchan = n := by
        apply Nat.div_eq_of_lt_le
        · rw [Nat.mul_comm]; exact h1.1
        · rw [Nat.succ_mul, Nat.mul_comm]; exact h1.2
      have hmod : j % nchan = j - nchan * n := by
        have := Nat.div_add_mod j nchan
        rw [hdiv] at this
        omega
      rw [hdiv, hmod]
    · rw [if_neg h1, ih]
      by_cases h2 : j < nchan * n
      · rw [if_pos h2, if_pos (by rw [Nat.mul_succ]; omega)]
      · rw [if_neg h2, if_neg (by rw [Nat.mul_succ]; omega)]

/-- What the loop over `chan` leaves as it was. -/
theorem fillSample_foldl_frame (data : CasaMatrix (CasaComplex F)) (flag : CasaMatrix Bool)
    (nchan stokes : Nat) :
    ∀ (l : List Nat) (rec : Visibility F × Visibility F),
      (l.foldl (fillSample data flag nchan stokes) rec).1.header = rec.1.header ∧
      (l.foldl (fillSample data flag nchan stokes) rec).1.weight = rec.1.weight ∧
      (l.foldl (fillSample data flag nchan stokes) rec).2.header = rec.2.header ∧
      (l.foldl (fillSample data flag nchan stokes) rec).2.weight = rec.2.weight ∧
      (l.foldl (fillSample data flag nchan stokes) rec).2.data_real = rec.2.data_real ∧
      (l.foldl (fillSample data flag nchan stokes) rec).2.data_imag = rec.2.data_imag := by
  intro l
  induction l with
  | nil => intro rec; simp
  | cons a l ih =>
    intro rec
    rw [List.foldl_cons]
    obtain ⟨h1, h2, h3, h4, h5, h6⟩ := ih (fillSample data flag nchan stokes rec a)
    rw [h1, h2, h3, h4, h5, h6]
    simp [fillSample, Visibility.header]

/-- The arrays after the loop over `chan`. -/
theorem fillSample_foldl_arrays (data : CasaMatrix (CasaComplex F)) (flag : CasaMatrix Bool)
    (nchan stokes : Nat) :
    ∀ (l : List Nat) (rec : Visibility F × Visibility F),
      (l.foldl (fillSample data flag nchan stokes) rec).1.data_real =
        l.foldl (fun a c => Function.update a (nchan * stokes + c)
          (data.get ⟨0, 0⟩ stokes c).re) rec.1.data_real ∧
      (l.foldl (fillSample data flag nchan stokes) rec).1.data_imag =
        l.foldl (fun a c => Function.update a (nchan * stokes + c)
          (data.get ⟨0, 0⟩ stokes c).im) rec.1.data_imag ∧
      (l.foldl (fillSample data flag nchan stokes) rec).1.data_flag =
        l.foldl (fun a c => Function.update a (nchan * stokes + c)
          (if flag.get false stokes c then (1 : Int) else 0)) rec.1.data_flag ∧
      (l.foldl (fillSample data flag nchan stokes) rec).2.data_flag =
        l.foldl (fun a c => Function.update a (nchan * stokes + c)
          (if flag.get false stokes c then (1 : Int) else 0)) rec.2.data_flag := by
  intro l
  induction l with
  | nil => intro rec; simp
  | cons a l ih =>
    intro rec
    simp only [List.foldl_cons]
    obtain ⟨h1, h2, h3, h4⟩ := ih (fillSample data flag nchan stokes rec a)
    rw [h1, h2, h3, h4]
    simp [fillSample]

/-- What the loop over `stokes` leaves as it was. -/
theorem fillStokes_foldl_frame (data : CasaMatrix (CasaComplex F)) (flag : CasaMatrix Bool)
    (weight : CasaVector F) (nchan : Nat) :
    ∀ (l : List Nat) (rec : Visibility F × Visibility F),
      (l.foldl (fillStokes data flag weight nchan) rec).1.header = rec.1.header ∧
      (l.foldl (fillStokes data flag weight nchan) rec).2.header = rec.2.header ∧
      (l.foldl (fillStokes data flag weight nchan) rec).2.data_real = rec.2.data_real ∧
      (l.foldl (fillStokes data flag weight nchan) rec).2.data_imag = rec.2.data_imag := by
  intro l
  induction l with
  | nil => intro rec; simp
  | cons a l ih =>
    intro rec
    rw [List.foldl_cons]
    obtain ⟨h1, h2, h3, h4⟩ := ih (fillStokes data flag weight nchan rec a)
    rw [h1, h2, h3, h4]
    unfold fillStokes
    dsimp only
    obtain ⟨g1, _, g3, _, g5, g6⟩ := fillSample_foldl_frame data flag nchan a
      (List.range nchan)
      ({ rec.1 with weight := Function.update rec.1.weight a (weight.get 0 a) },
       { rec.2 with weight := Function.update rec.2.weight a (weight.get 0 a) })
    rw [g1, g3, g5, g6]
    simp [Visibility.header]

/-- The arrays after the loop over `stokes`. -/
theorem fillStokes_foldl_arrays (data : CasaMatrix (CasaComplex F)) (flag : CasaMatrix Bool)
    (weight : CasaVector F) (nchan : Nat) :
    ∀ (l : List Nat) (rec : Visibility F × Visibility F),
      (l.foldl (fillStokes data flag weight nchan) rec).1.weight =
        l.foldl (fun a s => Function.update a s (weight.get 0 s)) rec.1.weight ∧
      (l.foldl (fillStokes data flag weight nchan) rec).2.weight =
        l.foldl (fun a s => Function.update a s (weight.get 0 s)) rec.2.weight ∧
      (l.foldl (fillStokes data flag weight nchan) rec).1.data_real =
        l.foldl (fun a s => (List.range nchan).foldl
          (fun a c => Function.update a (nchan * s + c) (data.get ⟨0, 0⟩ s c).re) a)
          rec.1.data_real ∧
      (l.foldl (fillStokes data flag weight nchan) rec).1.data_imag =
        l.foldl (fun a s => (List.range nchan).foldl
          (fun a c => Function.update a (nchan * s + c) (data.get ⟨0, 0⟩ s c).im) a)
          rec.1.data_imag ∧
      (l.foldl (fillStokes data flag weight nchan) rec).1.data_flag =
        l.foldl (fun a s => (List.range nchan).foldl
          (fun a c => Function.update a (nchan * s + c)
            (if flag.get false s c then (1 : Int) else 0)) a) rec.1.data_flag ∧
      (l.foldl (fillStokes data flag weight nchan) rec).2.data_flag =
        l.foldl (fun a s => (List.range nchan).foldl
          (fun a c => Function.update a (nchan * s + c)
            (if flag.get false s c then (1 : Int) else 0)) a) rec.2.data_flag := by
  intro l
  induction l with
  | nil => intro rec; simp
  | cons a l ih =>
    intro rec
    simp only [List.foldl_cons]
    obtain ⟨h1, h2, h3, h4, h5, h6⟩ := ih (fillStokes data flag weight nchan rec a)
    rw [h1, h2, h3, h4, h5, h6]
    unfold fillStokes
    dsimp only
    obtain ⟨_, g2, _, g4, _, _⟩ := fillSample_foldl_frame data flag nchan a
      (List.range nchan)
      ({ rec.1 with weight := Function.update rec.1.weight a (weight.get 0 a) },
       { rec.2 with weight := Function.update rec.2.weight a (weight.get 0 a) })
    obtain ⟨k1, k2, k3, k4⟩ := fillSample_foldl_arrays data flag nchan a
      (List.range nchan)
      ({ rec.1 with weight := Function.update rec.1.weight a (weight.get 0 a) },
       { rec.2 with weight := Function.update rec.2.weight a (weight.get 0 a) })
    rw [g2, g4, k1, k2, k3, k4]
    exact ⟨rfl, rfl, rfl, rfl, rfl, rfl⟩

theorem foldl_update_id {α : Type} (g : Nat → α) (n : Nat) (arr : Nat → α) (j : Nat) :
    ((List.range n).foldl (fun a s => Function.update a s (g s)) arr) j =
      if j < n then g j else arr j := by
  have h := foldl_update_range 0 g n arr j
  simp only [Nat.zero_add, Nat.zero_le, true_and, Nat.sub_zero] at h
  exact h

/-- The scalar members of the records filled for index `i`. -/
theorem fillPair_header (self : msio F) (cur : Nat) (rec : Visibility F × Visibility F)
    (i : Nat) :
    (fillPair self cur rec i).1.header =
        (i + cur, (self.msincols.uvw (i + cur)).get 0 0, (self.msincols.uvw (i + cur)).get 0 1,
         (self.msincols.uvw (i + cur)).get 0 2, self.msincols.fieldId (i + cur),
         self.msincols.dataDescId (i + cur),
         ((selectedData self.msincols self.datacolumn_ (i + cur)).ncolumn : Int) *
           self.msincols.dataDescId (i + cur),
         (selectedData self.msincols self.datacolumn_ (i + cur)).ncolumn,
         (selectedData self.msincols self.datacolumn_ (i + cur)).nrow) ∧
      (fillPair self cur rec i).2.header =
        (i + cur, rec.2.u, rec.2.v, rec.2.w, self.msincols.fieldId (i + cur),
         self.msincols.dataDescId (i + cur),
         ((selectedData self.msincols self.datacolumn_ (i + cur)).ncolumn : Int) *
           self.msincols.dataDescId (i + cur),
         (selectedData self.msincols self.datacolumn_ (i + cur)).ncolumn,
         (selectedData self.msincols self.datacolumn_ (i + cur)).nrow) := by
  obtain ⟨h1, h2, _, _⟩ := fillStokes_foldl_frame
    (selectedData self.msincols self.datacolumn_ (i + cur)) (self.msincols.flag (i + cur))
    (self.msincols.weight (i + cur))
    (selectedData self.msincols self.datacolumn_ (i + cur)).ncolumn
    (List.range (selectedData self.msincols self.datacolumn_ (i + cur)).nrow)
    ({ rec.1 with index := i + cur,
                  nchan := (selectedData self.msincols self.datacolumn_ (i + cur)).ncolumn,
                  nstokes := (selectedData self.msincols self.datacolumn_ (i + cur)).nrow },
     { rec.2 with index := i + cur,
                  nchan := (selectedData self.msincols self.datacolumn_ (i + cur)).ncolumn,
                  nstokes := (selectedData self.msincols self.datacolumn_ (i + cur)).nrow })
  simp only [Visibility.header, Prod.mk.injEq] at h1 h2
  obtain ⟨a1, a2, a3, a4, a5, a6, a7, a8, a9⟩ := h1
  obtain ⟨b1, b2, b3, b4, b5, b6, b7, b8, b9⟩ := h2
  unfold fillPair
  simp only [Visibility.header, Prod.mk.injEq]
  simp only [a1, a8, a9, b1, b2, b3, b4, b8, b9, and_self]

/-- The arrays of the records filled for index `i`. -/
theorem fillPair_arrays (self : msio F) (cur : Nat) (rec : Visibility F × Visibility F)
    (i j : Nat) :
    (fillPair self cur rec i).1.weight j =
        (if j < (selectedData self.msincols self.datacolumn_ (i + cur)).nrow then
          (self.msincols.weight (i + cur)).get 0 j else rec.1.weight j) ∧
      (fillPair self cur rec i).2.weight j =
        (if j < (selectedData self.msincols self.datacolumn_ (i + cur)).nrow then
          (self.msincols.weight (i + cur)).get 0 j else rec.2.weight j) ∧
      (fillPair self cur rec i).1.data_real j =
        (if j < (selectedData self.msincols self.datacolumn_ (i + cur)).ncolumn *
              (selectedData self.msincols self.datacolumn_ (i + cur)).nrow then
          ((selectedData self.msincols self.datacolumn_ (i + cur)).get ⟨0, 0⟩
            (j / (selectedData self.msincols self.datacolumn_ (i + cur)).ncolumn)
            (j % (selectedData self.msincols self.datacolumn_ (i + cur)).ncolumn)).re
         else rec.1.data_real j) ∧
      (fillPair self cur rec i).1.data_imag j =
        (if j < (selectedData self.msincols self.datacolumn_ (i + cur)).ncolumn *
              (selectedData self.msincols self.datacolumn_ (i + cur)).nrow then
          ((selectedData self.msincols self.datacolumn_ (i + cur)).get ⟨0, 0⟩
            (j / (selectedData self.msincols self.datacolumn_ (i + cur)).ncolumn)
            (j % (selectedData self.msincols self.datacolumn_ (i + cur)).ncolumn)).im
         else rec.1.data_imag j) ∧
      (fillPair self cur rec i).1.data_flag j =
        (if j < (selectedData self.msincols self.datacolumn_ (i + cur)).ncolumn *
              (selectedData self.msincols self.datacolumn_ (i + cur)).nrow then
          (if (self.msincols.flag (i + cur)).get false
            (j / (selectedData self.msincols self.datacolumn_ (i + cur)).ncolumn)
            (j % (selectedData self.msincols self.datacolumn_ (i + cur)).ncolumn)
           then (1 : Int) else 0)
         else rec.1.data_flag j) ∧
      (fillPair self cur rec i).2.data_flag j =
        (if j < (selectedData self.msincols self.datacolumn_ (i + cur)).ncolumn *
              (selectedData self.msincols self.datacolumn_ (i + cur)).nrow then
          (if (self.msincols.flag (i + cur)).get false
            (j / (selectedData self.msincols self.datacolumn_ (i + cur)).ncolumn)
            (j % (selectedData self.msincols self.datacolumn_ (i + cur)).ncolumn)
           then (1 : Int) else 0)
         else rec.2.data_flag j) ∧
      (fillPair self cur rec i).2.data_real = rec.2.data_real ∧
      (fillPair self cur rec i).2.data_imag = rec.2.data_imag := by
  obtain ⟨_, _, f3, f4⟩ := fillStokes_foldl_frame
    (selectedData self.msincols self.datacolumn_ (i + cur)) (self.msincols.flag (i + cur))
    (self.msincols.weight (i + cur))
    (selectedData self.msincols self.datacolumn_ (i + cur)).ncolumn
    (List.range (selectedData self.msincols self.datacolumn_ (i + cur)).nrow)
    ({ rec.1 with index := i + cur,
                  nchan := (selectedData self.msincols self.datacolumn_ (i + cur)).ncolumn,
                  nstokes := (selectedData self.msincols self.datacolumn_ (i + cur)).nrow },
     { rec.2 with index := i + cur,
                  nchan := (selectedData self.msincols self.datacolumn_ (i + cur)).ncolumn,
                  nstokes := (selectedData self.msincols self.datacolumn_ (i + cur)).nrow })
  obtain ⟨a1, a2, a3, a4, a5, a6⟩ := fillStokes_foldl_arrays
    (selectedData self.msincols self.datacolumn_ (i + cur)) (self.msincols.flag (i + cur))
    (self.msincols.weight (i + cur))
    (selectedData self.msincols self.datacolumn_ (i + cur)).ncolumn
    (List.range (selectedData self.msincols self.datacolumn_ (i + cur)).nrow)
    ({ rec.1 with index := i + cur,
                  nchan := (selectedData self.msincols self.datacolumn_ (i + cur)).ncolumn,
                  nstokes := (selectedData self.msincols self.datacolumn_ (i + cur)).nrow },
     { rec.2 with index := i + cur,
                  nchan := (selectedData self.msincols self.datacolumn_ (i + cur)).ncolumn,
                  nstokes := (selectedData self.msincols self.datacolumn_ (i + cur)).nrow })
  unfold fillPair
  dsimp only
  rw [a1, a2, a3, a4, a5, a6, f3, f4]
  simp only [foldl_update_id, foldl_update_nested, and_self]

theorem fillPair_congr (s1 s2 : msio F) (h1 : s1.msincols = s2.msincols)
    (h2 : s1.datacolumn_ = s2.datacolumn_) (cur : Nat) (rec : Visibility F × Visibility F)
    (i : Nat) : fillPair s1 cur rec i = fillPair s2 cur rec i := by
  unfold fillPair
  rw [h1, h2]

theorem fillRecord_vis (self : msio F) (cur : Nat) (chunk : Chunk F) (i : Nat) :
    (fillRecord self cur chunk i).inVis =
        Function.update chunk.inVis i
          (fillPair self cur (chunk.inVis i, chunk.outVis i) i).1 ∧
      (fillRecord self cur chunk i).outVis =
        Function.update chunk.outVis i
          (fillPair self cur (chunk.inVis i, chunk.outVis i) i).2 :=
  ⟨rfl, rfl⟩

/-- The records of a chunk after the loop over `i < n`. -/
theorem fillRecord_foldl_vis (self : msio F) (cur : Nat) :
    ∀ (n : Nat) (chunk : Chunk F) (j : Nat),
      ((List.range n).foldl (fillRecord self cur) chunk).inVis j =
          (if j < n then (fillPair self cur (chunk.inVis j, chunk.outVis j) j).1
           else chunk.inVis j) ∧
        ((List.range n).foldl (fillRecord self cur) chunk).outVis j =
          (if j < n then (fillPair self cur (chunk.inVis j, chunk.outVis j) j).2
           else chunk.outVis j) := by
  intro n
  induction n with
  | zero => intro chunk j; simp
  | succ n ih =>
    intro chunk j
    rw [List.range_succ, List.foldl_append, List.foldl_cons, List.foldl_nil,
      (fillRecord_vis _ _ _ _).1, (fillRecord_vis _ _ _ _).2]
    by_cases hj : j = n
    · subst hj
      have h1 := (ih chunk j).1
      have h2 := (ih chunk j).2
      rw [if_neg (Nat.lt_irrefl j)] at h1 h2
      rw [Function.update_same, Function.update_same, h1, h2]
      simp only [Nat.lt_succ_self, if_true, and_self]
    · rw [Function.update_noteq hj, Function.update_noteq hj, (ih chunk j).1, (ih chunk j).2]
      by_cases h : j < n
      · have h2 : j < n + 1 := by omega
        simp only [h, h2, if_true, and_self]
      · have h2 : ¬ j < n + 1 := by omega
        simp only [h, h2, if_false, and_self]

theorem alignChunk_datacolumn (self : msio F) (chunk : Chunk F) (cur : Nat) :
    (alignChunk self chunk cur).1.datacolumn_ = self.datacolumn_ := by
  unfold alignChunk
  dsimp only
  split
  · split <;> rfl
  · rfl

theorem alignChunk_vis (self : msio F) (chunk : Chunk F) (cur : Nat) :
    (alignChunk self chunk cur).2.inVis = chunk.inVis ∧
      (alignChunk self chunk cur).2.outVis = chunk.outVis := by
  unfold alignChunk
  dsimp only
  split
  · exact ⟨rfl, rfl⟩
  · exact ⟨rfl, rfl⟩

theorem clipSize_vis (self : msio F) (chunk : Chunk F) (cur : Nat) :
    (clipSize self chunk cur).inVis = chunk.inVis ∧
      (clipSize self chunk cur).outVis = chunk.outVis := by
  unfold clipSize
  split
  · exact ⟨rfl, rfl⟩
  · exact ⟨rfl, rfl⟩

theorem fill_after (self0 self3 : msio F) (cur : Nat) (chunk0 chunk4 : Chunk F)
    (h1 : self3.msincols = self0.msincols) (h2 : self3.datacolumn_ = self0.datacolumn_)
    (h3 : chunk4.inVis = chunk0.inVis) (h4 : chunk4.outVis = chunk0.outVis)
    (i : Nat) (hi : i < chunk4.size) :
    ((List.range chunk4.size).foldl (fillRecord self3 cur) chunk4).inVis i =
        (fillPair self0 cur (chunk0.inVis i, chunk0.outVis i) i).1 ∧
      ((List.range chunk4.size).foldl (fillRecord self3 cur) chunk4).outVis i =
        (fillPair self0 cur (chunk0.inVis i, chunk0.outVis i) i).2 := by
  rw [(fillRecord_foldl_vis _ _ _ _ i).1, (fillRecord_foldl_vis _ _ _ _ i).2,
    if_pos hi, if_pos hi, h3, h4, fillPair_congr self3 self0 h1 h2]
  exact ⟨rfl, rfl⟩

/-- The records below the returned size after `readChunk`: record `i` is
filled from row `currentVisibility + i`, the cursor being the one before the
call. -/
theorem readChunk_vis (self : msio F) (chunk : Chunk F) (i : Nat)
    (hi : i < (self.readChunk chunk).1) :
    (self.readChunk chunk).2.2.inVis i =
        (fillPair self self.currentVisibility (chunk.inVis i, chunk.outVis i) i).1 ∧
      (self.readChunk chunk).2.2.outVis i =
        (fillPair self self.currentVisibility (chunk.inVis i, chunk.outVis i) i).2 := by
  have hlt : self.currentVisibility < self.nvis := by
    by_contra hge
    rw [(readChunk_of_ge self chunk (by omega)).1] at hi
    omega
  have hfst := readChunk_fst self chunk
  rw [if_neg (by omega)] at hfst
  rw [hfst] at hi
  revert hi
  unfold msio.readChunk msio.readChunkSimple
  dsimp only
  rw [if_neg (by omega)]
  dsimp only
  intro hi
  rw [fillRecord_foldl_size] at hi
  cases hal : self.one_ptg_per_chunk_
  · simp only [hal, Bool.false_eq_true, if_false] at hi ⊢
    apply fill_after
    · rfl
    · rfl
    · exact (clipSize_vis _ _ _).1
    · exact (clipSize_vis _ _ _).2
    · exact hi
  · simp only [hal, if_true] at hi ⊢
    apply fill_after
    · exact alignChunk_msincols _ _ _
    · exact alignChunk_datacolumn _ _ _
    · exact ((alignChunk_vis _ _ _).1).trans (clipSize_vis _ _ _).1
    · exact ((alignChunk_vis _ _ _).2).trans (clipSize_vis _ _ _).2
    · exact hi

/-- The row index carried by the records below the returned size. -/
theorem readChunk_index (self : msio F) (chunk : Chunk F) (i : Nat)
    (hi : i < (self.readChunk chunk).1) :
    ((self.readChunk chunk).2.2.inVis i).index = self.currentVisibility + i ∧
      ((self.readChunk chunk).2.2.outVis i).index = self.currentVisibility + i := by
  obtain ⟨h1, h2⟩ := readChunk_vis self chunk i hi
  obtain ⟨g1, g2⟩ := fillPair_header self self.currentVisibility
    (chunk.inVis i, chunk.outVis i) i
  rw [h1, h2]
  have e1 := congrArg (fun h => h.1) g1
  have e2 := congrArg (fun h => h.1) g2
  simp only [Visibility.header] at e1 e2
  rw [e1, e2, Nat.add_comm]
  exact ⟨rfl, rfl⟩

/-- The field id carried by the records below the returned size. -/
theorem readChunk_fieldID (self : msio F) (chunk : Chunk F) (i : Nat)
    (hi : i < (self.readChunk chunk).1) :
    ((self.readChunk chunk).2.2.inVis i).fieldID =
        self.msincols.fieldId (self.currentVisibility + i) ∧
      ((self.readChunk chunk).2.2.outVis i).fieldID =
        self.msincols.fieldId (self.currentVisibility + i) := by
  obtain ⟨h1, h2⟩ := readChunk_vis self chunk i hi
  obtain ⟨g1, g2⟩ := fillPair_header self self.currentVisibility
    (chunk.inVis i, chunk.outVis i) i
  rw [h1, h2]
  have e1 := congrArg (fun h => h.2.2.2.2.1) g1
  have e2 := congrArg (fun h => h.2.2.2.2.1) g2
  simp only [Visibility.header] at e1 e2
  rw [e1, e2, Nat.add_comm]
  exact ⟨rfl, rfl⟩

/-- The rows delivered by one call are the rows from the cursor on. -/
theorem readChunk_delivered (self : msio F) (chunk : Chunk F) :
    deliveredRows ((self.readChunk chunk).1, (self.readChunk chunk).2.2) =
      List.range' self.currentVisibility (self.readChunk chunk).1 := by
  unfold deliveredRows
  rw [List.range'_eq_map_range]
  apply List.map_congr_left
  intro i hi
  exact (readChunk_index self chunk i (List.mem_range.mp hi)).1

/-- Cursor, row count and delivered rows over a sequence of calls. -/
theorem readChunks_spec :
    ∀ (chunks : List (Chunk F)) (self : msio F),
      (readChunks self chunks).2.currentVisibility =
          self.currentVisibility + ((readChunks self chunks).1.map Prod.fst).sum ∧
        (readChunks self chunks).2.nvis = self.nvis ∧
        ((readChunks self chunks).1.map deliveredRows).flatten =
          List.range' self.currentVisibility ((readChunks self chunks).1.map Prod.fst).sum ∧
        (self.currentVisibility ≤ self.nvis →
          (readChunks self chunks).2.currentVisibility ≤ self.nvis) := by
  intro chunks
  induction chunks with
  | nil => intro self; simp [readChunks]
  | cons chunk rest ih =>
    intro self
    obtain ⟨h1, h2, h3, h4⟩ := ih (self.readChunk chunk).2.1
    simp only [readChunks, List.map_cons, List.sum_cons, List.flatten_cons]
    rw [h1, h2, h3, readChunk_cursor, readChunk_nvis, readChunk_delivered,
      List.range'_append_1]
    refine ⟨by omega, rfl, by rw [Nat.add_comm], ?_⟩
    intro hle
    have hb := (readChunk_le self chunk).2
    have := h4 (by rw [readChunk_cursor, readChunk_nvis]; omega)
    rw [h1, readChunk_cursor, readChunk_nvis] at this
    omega

/-- With alignment, the size left by `alignChunk` is at most the length the
scan has found. -/
theorem alignChunk_size_le_scan (self : msio F) (chunk : Chunk F) (cur : Nat) :
    (alignChunk self chunk cur).2.size ≤
      scanField self.msincols.fieldId cur (self.msincols.fieldId cur) chunk.size 0 := by
  unfold alignChunk
  dsimp only
  split
  · exact Nat.le_refl _
  · rename_i h
    exact Nat.le_of_not_lt h

/-- The sizes returned without alignment, from any cursor `cur0` with
`q` full chunks and `r` further rows left. -/
theorem readChunks_sizes_from (c : Nat) (r : Nat) (hr : r < c) :
    ∀ (q : Nat) (self : msio F) (chunks : List (Chunk F)),
      self.one_ptg_per_chunk_ = false →
      self.nvis - self.currentVisibility = q * c + r →
      (∀ ch ∈ chunks, ch.capacity = c) →
      chunks.length = q + (if r = 0 then 0 else 1) + 1 →
      (readChunks self chunks).1.map Prod.fst =
        List.replicate q c ++ (if r = 0 then [] else [r]) ++ [0] := by
  intro q
  induction q with
  | zero =>
    intro self chunks hal hleft hcap hlen
    by_cases hr0 : r = 0
    · subst hr0
      simp only [if_true, Nat.zero_add] at hlen ⊢
      match chunks, hlen with
      | [ch], _ =>
        have hge : self.currentVisibility ≥ self.nvis := by omega
        simp [readChunks, (readChunk_of_ge self ch hge).1]
    · simp only [hr0, if_false, Nat.zero_add] at hlen ⊢
      match chunks, hlen, hcap with
      | [ch1, ch2], _, hcap =>
        have hlt : self.currentVisibility < self.nvis := by omega
        have h1 : (self.readChunk ch1).1 = r := by
          rw [readChunk_fst_of_lt self ch1 hlt, hal]
          have := hcap ch1 (by simp)
          simp only [Bool.false_eq_true, if_false]
          omega
        have hge : (self.readChunk ch1).2.1.currentVisibility ≥
            (self.readChunk ch1).2.1.nvis := by
          rw [readChunk_cursor, readChunk_nvis, h1]
          omega
        simp [readChunks, h1, (readChunk_of_ge _ ch2 hge).1]
  | succ q ih =>
    intro self chunks hal hleft hcap hlen
    match chunks, hlen, hcap with
    | ch :: rest, hlen, hcap =>
      have hmul : (q + 1) * c = q * c + c := Nat.succ_mul q c
      have hlt : self.currentVisibility < self.nvis := by omega
      have h1 : (self.readChunk ch).1 = c := by
        rw [readChunk_fst_of_lt self ch hlt, hal]
        have := hcap ch (by simp)
        simp only [Bool.false_eq_true, if_false]
        omega
      have hrest := ih (self.readChunk ch).2.1 rest
        (by rw [readChunk_flag, hal])
        (by rw [readChunk_cursor, readChunk_nvis, h1]; omega)
        (fun ch2 h2 => hcap ch2 (List.mem_cons_of_mem _ h2))
        (by simp only [List.length_cons] at hlen; omega)
      simp only [readChunks, List.map_cons, hrest, h1, List.replicate_succ, List.cons_append]

/-! ### The loops of `writeChunk` -/

/-- The matrices after the loop over `stokes < n` for channel `chan`. -/
theorem packSample_foldl (outV : Visibility F) (nchan chan nr nc : Nat) :
    ∀ (n : Nat) (e1 : Fin nr → Fin nc → CasaComplex F) (e2 : Fin nr → Fin nc → Bool),
      (List.range n).foldl (packSample outV nchan chan)
          (⟨nr, nc, e1⟩, ⟨nr, nc, e2⟩) =
        (⟨nr, nc, fun a b =>
            if a.val < n ∧ b.val = chan then
              ⟨outV.data_real (a.val * nchan + b.val), outV.data_imag (a.val * nchan + b.val)⟩
            else e1 a b⟩,
         ⟨nr, nc, fun a b =>
            if a.val < n ∧ b.val = chan then
              decide (outV.data_flag (a.val * nchan + b.val) ≠ 0)
            else e2 a b⟩) := by
  intro n
  induction n with
  | zero => intro e1 e2; simp
  | succ n ih =>
    intro e1 e2
    rw [List.range_succ, List.foldl_append, List.foldl_cons, List.foldl_nil, ih]
    simp only [packSample, CasaMatrix.set, Prod.mk.injEq, CasaMatrix.mk.injEq, heq_eq_eq,
      true_and]
    constructor
    · funext a b
      by_cases h1 : a.val = n ∧ b.val = chan
      · have h2 : a.val < n + 1 ∧ b.val = chan := ⟨by omega, h1.2⟩
        rw [if_pos h1, if_pos h2, h1.1, h1.2]
      · rw [if_neg h1]
        by_cases h3 : a.val < n ∧ b.val = chan
        · rw [if_pos h3, if_pos ⟨by omega, h3.2⟩]
        · rw [if_neg h3, if_neg (by omega)]
    · funext a b
      by_cases h1 : a.val = n ∧ b.val = chan
      · have h2 : a.val < n + 1 ∧ b.val = chan := ⟨by omega, h1.2⟩
        rw [if_pos h1, if_pos h2, h1.1, h1.2]
      · rw [if_neg h1]
        by_cases h3 : a.val < n ∧ b.val = chan
        · rw [if_pos h3, if_pos ⟨by omega, h3.2⟩]
        · rw [if_neg h3, if_neg (by omega)]

/-- The matrices after the loop over `chan < n`. -/
theorem packChannel_foldl (outV : Visibility F) (nchan nr nc : Nat) :
    ∀ (n : Nat) (e1 : Fin nr → Fin nc → CasaComplex F) (e2 : Fin nr → Fin nc → Bool),
      (List.range n).foldl (packChannel outV nchan nr)
          (⟨nr, nc, e1⟩, ⟨nr, nc, e2⟩) =
        (⟨nr, nc, fun a b =>
            if b.val < n then
              ⟨outV.data_real (a.val * nchan + b.val), outV.data_imag (a.val * nchan + b.val)⟩
            else e1 a b⟩,
         ⟨nr, nc, fun a b =>
            if b.val < n then
              decide (outV.data_flag (a.val * nchan + b.val) ≠ 0)
            else e2 a b⟩) := by
  intro n
  induction n with
  | zero => intro e1 e2; simp
  | succ n ih =>
    intro e1 e2
    rw [List.range_succ, List.foldl_append, List.foldl_cons, List.foldl_nil, ih]
    unfold packChannel
    rw [packSample_foldl]
    simp only [Prod.mk.injEq, CasaMatrix.mk.injEq, heq_eq_eq, true_and]
    constructor
    · funext a b
      have ha := a.isLt
      by_cases h1 : b.val = n
      · rw [if_pos ⟨ha, h1⟩, if_pos (by omega)]
      · rw [if_neg (by omega)]
        by_cases h3 : b.val < n
        · rw [if_pos h3, if_pos (by omega)]
        · rw [if_neg h3, if_neg (by omega)]
    · funext a b
      have ha := a.isLt
      by_cases h1 : b.val = n
      · rw [if_pos ⟨ha, h1⟩, if_pos (by omega)]
      · rw [if_neg (by omega)]
        by_cases h3 : b.val < n
        · rw [if_pos h3, if_pos (by omega)]
        · rw [if_neg h3, if_neg (by omega)]

/-- The vector after the weight loop over `stokes < n`. -/
theorem weight_foldl (outV : Visibility F) (nr : Nat) :
    ∀ (n : Nat) (e : Fin nr → F),
      (List.range n).foldl
          (fun (weight : CasaVector F) stokes => weight.set stokes (outV.weight stokes))
          ⟨nr, e⟩ =
        ⟨nr, fun a => if a.val < n then outV.weight a.val else e a⟩ := by
  intro n
  induction n with
  | zero => intro e; simp
  | succ n ih =>
    intro e
    rw [List.range_succ, List.foldl_append, List.foldl_cons, List.foldl_nil, ih]
    simp only [CasaVector.set, CasaVector.mk.injEq, heq_eq_eq, true_and]
    funext a
    by_cases h1 : a.val = n
    · rw [if_pos h1, if_pos (by omega), h1]
    · rw [if_neg h1]
      by_cases h3 : a.val < n
      · rw [if_pos h3, if_pos (by omega)]
      · rw [if_neg h3, if_neg (by omega)]

/-- The matrices that `writeChunk` assembles from an output record that
holds the samples and flags of a data matrix `d` and a flag matrix `f` are
`d` and `f`. -/
theorem pack_eq (outV : Visibility F) (d : CasaMatrix (CasaComplex F)) (f : CasaMatrix Bool)
    (hn : outV.nchan = d.ncolumn) (hs : outV.nstokes = d.nrow)
    (hf1 : f.nrow = d.nrow) (hf2 : f.ncolumn = d.ncolumn)
    (hre : ∀ a b, a < d.nrow → b < d.ncolumn →
      outV.data_real (a * d.ncolumn + b) = (d.get ⟨0, 0⟩ a b).re)
    (him : ∀ a b, a < d.nrow → b < d.ncolumn →
      outV.data_imag (a * d.ncolumn + b) = (d.get ⟨0, 0⟩ a b).im)
    (hfl : ∀ a b, a < d.nrow → b < d.ncolumn →
      outV.data_flag (a * d.ncolumn + b) = if f.get false a b then 1 else 0) :
    (List.range outV.nchan).foldl (packChannel outV outV.nchan outV.nstokes)
        (CasaMatrix.new outV.nstokes outV.nchan ⟨0, 0⟩,
         CasaMatrix.new outV.nstokes outV.nchan false) = (d, f) := by
  obtain ⟨nr, nc, de⟩ := d
  obtain ⟨fr, fc, fe⟩ := f
  simp only at hf1 hf2 hn hs hre him hfl
  subst hf1 hf2
  rw [hn, hs]
  unfold CasaMatrix.new
  rw [packChannel_foldl]
  simp only [Prod.mk.injEq, CasaMatrix.mk.injEq, heq_eq_eq, true_and]
  constructor
  · funext a b
    rw [if_pos b.isLt, hre a.val b.val a.isLt b.isLt, him a.val b.val a.isLt b.isLt]
    simp [CasaMatrix.get, a.isLt, b.isLt]
  · funext a b
    rw [if_pos b.isLt, hfl a.val b.val a.isLt b.isLt]
    simp only [CasaMatrix.get, a.isLt, b.isLt, and_self, dite_true, Fin.eta]
    cases fe a b <;> simp

/-- The vector that `writeChunk` assembles from an output record that holds
the weights of `w` is `w`. -/
theorem weight_eq (outV : Visibility F) (w : CasaVector F)
    (hs : outV.nstokes = w.nelements)
    (hw : ∀ a, a < w.nelements → outV.weight a = w.get 0 a) :
    (List.range outV.nstokes).foldl
        (fun (weight : CasaVector F) stokes => weight.set stokes (outV.weight stokes))
        (CasaVector.new outV.nstokes 0) = w := by
  obtain ⟨n, e⟩ := w
  simp only at hs hw
  rw [hs]
  unfold CasaVector.new
  rw [weight_foldl]
  simp only [CasaVector.mk.injEq, heq_eq_eq, true_and]
  funext a
  rw [if_pos a.isLt, hw a.val a.isLt]
  simp [CasaVector.get, a.isLt]

theorem selectedData_update (cols : MSColumns F) (dc : DataColumn) (row : Nat) :
    (match dc with
      | DataColumn.col_data =>
        { cols with data := Function.update cols.data row (selectedData cols dc row) }
      | DataColumn.col_model_data =>
        { cols with modelData := Function.update cols.modelData row (selectedData cols dc row) }
      | DataColumn.col_corrected_data =>
        { cols with
          correctedData :=
            Function.update cols.correctedData row (selectedData cols dc row) }) = cols := by
  cases dc <;> simp [selectedData, Function.update_eq_self]

theorem alignChunk_msoutcols (self : msio F) (chunk : Chunk F) (cur : Nat) :
    (alignChunk self chunk cur).1.msoutcols = self.msoutcols := by
  unfold alignChunk
  dsimp only
  split
  · split <;> rfl
  · rfl

theorem readChunk_msoutcols (self : msio F) (chunk : Chunk F) :
    (self.readChunk chunk).2.1.msoutcols = self.msoutcols := by
  unfold msio.readChunk msio.readChunkSimple
  dsimp only
  split
  · rfl
  · dsimp only
    split
    · rw [alignChunk_msoutcols]
    · rfl

theorem readChunk_datacolumn (self : msio F) (chunk : Chunk F) :
    (self.readChunk chunk).2.1.datacolumn_ = self.datacolumn_ := by
  unfold msio.readChunk msio.readChunkSimple
  dsimp only
  split
  · rfl
  · dsimp only
    split
    · rw [alignChunk_datacolumn]
    · rfl

theorem foldl_fixed {α β : Type} (step : α → β → α) (x : α) :
    ∀ (l : List β), (∀ i ∈ l, step x i = x) → l.foldl step x = x := by
  intro l
  induction l with
  | nil => intro _; rfl
  | cons a l ih =>
    intro h
    rw [List.foldl_cons, h a (List.mem_cons_self a l)]
    exact ih (fun i hi => h i (List.mem_cons_of_mem a hi))

/-- Writing back one output record that carries the samples of its input
record leaves the columns it came from as they are. -/
theorem write_record_fixed (self : msio F) (cur : Nat) (rec : Visibility F × Visibility F)
    (chunk2 : Chunk F) (i : Nat)
    (hflag : (self.msincols.flag (i + cur)).nrow =
        (selectedData self.msincols self.datacolumn_ (i + cur)).nrow ∧
      (self.msincols.flag (i + cur)).ncolumn =
        (selectedData self.msincols self.datacolumn_ (i + cur)).ncolumn)
    (hweight : (self.msincols.weight (i + cur)).nelements =
      (selectedData self.msincols self.datacolumn_ (i + cur)).nrow)
    (hcopy : chunk2.outVis i =
      { (fillPair self cur rec i).2 with
        data_real := (fillPair self cur rec i).1.data_real,
        data_imag := (fillPair self cur rec i).1.data_imag }) :
    writeData self.datacolumn_ chunk2 self.msincols i = self.msincols ∧
      writeWeight chunk2 self.msincols i = self.msincols ∧
      writeFieldId chunk2 self.msincols i = self.msincols := by
  obtain ⟨_, g2⟩ := fillPair_header self cur rec i
  simp only [Visibility.header, Prod.mk.injEq] at g2
  obtain ⟨b1, _, _, _, b5, _, _, b8, b9⟩ := g2
  have hidx : (chunk2.outVis i).index = i + cur := by rw [hcopy]; exact b1
  have hfid : (chunk2.outVis i).fieldID = self.msincols.fieldId (i + cur) := by
    rw [hcopy]; exact b5
  have hnchan : (chunk2.outVis i).nchan =
      (selectedData self.msincols self.datacolumn_ (i + cur)).ncolumn := by
    rw [hcopy]; exact b8
  have hnstokes : (chunk2.outVis i).nstokes =
      (selectedData self.msincols self.datacolumn_ (i + cur)).nrow := by
    rw [hcopy]; exact b9
  have hidxdiv : ∀ a b nc nr : Nat, a < nr → b < nc →
      a * nc + b < nc * nr ∧ (a * nc + b) / nc = a ∧ (a * nc + b) % nc = b := by
    intro a b nc nr ha hb
    have h1 : (a * nc + b) / nc = a := by
      rw [Nat.mul_comm, Nat.mul_add_div (by omega), Nat.div_eq_of_lt hb, Nat.add_zero]
    have h2 : (a * nc + b) % nc = b := by
      rw [Nat.mul_comm, Nat.mul_add_mod, Nat.mod_eq_of_lt hb]
    refine ⟨?_, h1, h2⟩
    calc a * nc + b < a * nc + nc := by omega
      _ = nc * (a + 1) := by rw [Nat.mul_succ, Nat.mul_comm]
      _ ≤ nc * nr := Nat.mul_le_mul_left nc ha
  have hpack := pack_eq (chunk2.outVis i)
    (selectedData self.msincols self.datacolumn_ (i + cur)) (self.msincols.flag (i + cur))
    hnchan hnstokes hflag.1 hflag.2
    (by
      intro a b ha hb
      obtain ⟨k1, k2, k3⟩ := hidxdiv a b _ _ ha hb
      rw [hcopy]
      show (fillPair self cur rec i).1.data_real _ = _
      rw [(fillPair_arrays self cur rec i _).2.2.1, if_pos k1, k2, k3])
    (by
      intro a b ha hb
      obtain ⟨k1, k2, k3⟩ := hidxdiv a b _ _ ha hb
      rw [hcopy]
      show (fillPair self cur rec i).1.data_imag _ = _
      rw [(fillPair_arrays self cur rec i _).2.2.2.1, if_pos k1, k2, k3])
    (by
      intro a b ha hb
      obtain ⟨k1, k2, k3⟩ := hidxdiv a b _ _ ha hb
      rw [hcopy]
      show (fillPair self cur rec i).2.data_flag _ = _
      rw [(fillPair_arrays self cur rec i _).2.2.2.2.2.1, if_pos k1, k2, k3])
  have hw := weight_eq (chunk2.outVis i) (self.msincols.weight (i + cur))
    (by rw [hnstokes, hweight])
    (by
      intro a ha
      rw [hcopy]
      show (fillPair self cur rec i).2.weight _ = _
      rw [(fillPair_arrays self cur rec i a).2.1, if_pos (by omega)])
  refine ⟨?_, ?_, ?_⟩
  · unfold writeData
    dsimp only
    rw [hpack, hidx]
    dsimp only
    rw [selectedData_update, Function.update_eq_self]
  · unfold writeWeight
    dsimp only
    rw [hw, hidx, Function.update_eq_self]
  · unfold writeFieldId
    rw [hidx, hfid, Function.update_eq_self]

end MsioLemmas

/-! ## The claims about `msio::readChunk` -/

section MsioClaims

variable {F : Type} [Zero F]

/-- C2: for every stream state and every chunk, whatever the alignment
setting, the value returned by `msio::readChunk` is at most the capacity of
the chunk and at most the number of rows remaining before the call, which
is `nvis()` minus the cursor, or 0 when the cursor is at or past `nvis()`. -/
theorem readChunk_size_bounds (self : msio F) (chunk : Chunk F) :
    (self.readChunk chunk).1 ≤ chunk.capacity ∧
      (self.readChunk chunk).1 ≤ self.nvis - self.currentVisibility ∧
      (self.currentVisibility ≥ self.nvis → (self.readChunk chunk).1 ≤ 0) := by
  refine ⟨(readChunk_le self chunk).1, (readChunk_le self chunk).2, ?_⟩
  intro h
  rw [(readChunk_of_ge self chunk h).1]

/-- C3: starting from cursor 0, after any sequence of `msio::readChunk`
calls the cursor is the sum of the sizes returned and is at most `nvis()`;
record `i` of a returned batch carries the row index (cursor before the
call) + `i`, so that the rows delivered by the calls, in order, are
0, 1, 2, ... up to the cursor; and the stream is exhausted exactly when the
sizes returned add up to the row count. -/
theorem readChunks_cursor_and_rows (self : msio F) (chunks : List (Chunk F))
    (h0 : self.currentVisibility = 0) :
    (readChunks self chunks).2.currentVisibility =
        ((readChunks self chunks).1.map Prod.fst).sum ∧
      (readChunks self chunks).2.currentVisibility ≤ self.nvis ∧
      (∀ (s : msio F) (chunk : Chunk F) (i : Nat), i < (s.readChunk chunk).1 →
        ((s.readChunk chunk).2.2.inVis i).index = s.currentVisibility + i ∧
        ((s.readChunk chunk).2.2.outVis i).index = s.currentVisibility + i) ∧
      ((readChunks self chunks).1.map deliveredRows).flatten =
        List.range ((readChunks self chunks).1.map Prod.fst).sum ∧
      ((readChunks self chunks).2.currentVisibility ≥ (readChunks self chunks).2.nvis ↔
        ((readChunks self chunks).1.map Prod.fst).sum = self.nvis) := by
  obtain ⟨h1, h2, h3, h4⟩ := readChunks_spec chunks self
  rw [h0, Nat.zero_add] at h1
  rw [h0] at h3 h4
  have hle := h4 (Nat.zero_le _)
  refine ⟨h1, hle, fun s chunk i hi => readChunk_index s chunk i hi, ?_, ?_⟩
  · rw [h3, List.range_eq_range']
  · rw [h2]
    rw [h1] at hle ⊢
    omega

theorem readChunks_cursor_and_rows_witness :
    (tenRowStream true 0).currentVisibility = 0 ∧
      (readChunks (tenRowStream true 0) (List.replicate 3 (zeroChunk 4))).2.currentVisibility =
        ((readChunks (tenRowStream true 0) (List.replicate 3 (zeroChunk 4))).1.map
          Prod.fst).sum :=
  ⟨by decide,
   (readChunks_cursor_and_rows (tenRowStream true 0) (List.replicate 3 (zeroChunk 4))
      (by decide)).1⟩

/-- C4: once the cursor has reached the row count, every further
`msio::readChunk` call returns 0 and leaves the stream (cursor, break
counter, warning flag and all the rest) as it was, so repeated calls keep
returning 0. -/
theorem readChunk_exhausted_terminal (self : msio F)
    (h : self.currentVisibility ≥ self.nvis) :
    (∀ chunk : Chunk F, (self.readChunk chunk).1 = 0 ∧
        (self.readChunk chunk).2.1 = self) ∧
      ∀ chunks : List (Chunk F),
        (readChunks self chunks).2 = self ∧
          (readChunks self chunks).1.map Prod.fst = List.replicate chunks.length 0 := by
  refine ⟨fun chunk => readChunk_of_ge self chunk h, ?_⟩
  intro chunks
  induction chunks with
  | nil => exact ⟨rfl, rfl⟩
  | cons chunk rest ih =>
    obtain ⟨h1, h2⟩ := readChunk_of_ge self chunk h
    simp only [readChunks, h2, ih, h1, List.map_cons, List.length_cons,
      List.replicate_succ, and_self]

theorem readChunk_exhausted_terminal_witness :
    (tenRowStream true 10).currentVisibility ≥ (tenRowStream true 10).nvis ∧
      ((tenRowStream true 10).readChunk (zeroChunk 4)).1 = 0 ∧
      ((tenRowStream true 10).readChunk (zeroChunk 4)).2.1 = tenRowStream true 10 :=
  ⟨by decide,
   (readChunk_exhausted_terminal (tenRowStream true 10) (by decide)).1 (zeroChunk 4)⟩

/-- C5: with pointing alignment enabled, every batch returned by
`msio::readChunk` holds rows of a single pointing: for every `i` below the
returned size, the field id of row cursor + `i` is the field id of the row at
the cursor, and the `fieldID` stored in `inVis[i]` and in `outVis[i]` is that
value. -/
theorem readChunk_single_pointing (self : msio F) (chunk : Chunk F)
    (hal : self.one_ptg_per_chunk_ = true) (i : Nat)
    (hi : i < (self.readChunk chunk).1) :
    self.msincols.fieldId (self.currentVisibility + i) =
        self.msincols.fieldId self.currentVisibility ∧
      ((self.readChunk chunk).2.2.inVis i).fieldID =
        self.msincols.fieldId self.currentVisibility ∧
      ((self.readChunk chunk).2.2.outVis i).fieldID =
        self.msincols.fieldId self.currentVisibility := by
  have hlt : self.currentVisibility < self.nvis := by
    by_contra hge
    rw [(readChunk_of_ge self chunk (by omega)).1] at hi
    omega
  have hrow : self.msincols.fieldId (self.currentVisibility + i) =
      self.msincols.fieldId self.currentVisibility := by
    have hi2 := hi
    rw [readChunk_fst_of_lt self chunk hlt, if_pos hal] at hi2
    have hscan := alignChunk_size_le_scan self
      (clipSize self ((chunk.resetSize).set_dataset_id self.dataset_id)
        self.currentVisibility) self.currentVisibility
    rw [Nat.add_comm]
    exact scanField_same _ _ _ _ 0 i (Nat.zero_le _) (Nat.lt_of_lt_of_le hi2 hscan)
  obtain ⟨h1, h2⟩ := readChunk_fieldID self chunk i hi
  exact ⟨hrow, h1.trans hrow, h2.trans hrow⟩

theorem readChunk_single_pointing_witness :
    (tenRowStream true 0).one_ptg_per_chunk_ = true ∧
      2 < ((tenRowStream true 0).readChunk (zeroChunk 4)).1 ∧
      (tenRowStream true 0).msincols.fieldId ((tenRowStream true 0).currentVisibility + 2) =
        (tenRowStream true 0).msincols.fieldId (tenRowStream true 0).currentVisibility ∧
      (((tenRowStream true 0).readChunk (zeroChunk 4)).2.2.inVis 2).fieldID =
        (tenRowStream true 0).msincols.fieldId (tenRowStream true 0).currentVisibility ∧
      (((tenRowStream true 0).readChunk (zeroChunk 4)).2.2.outVis 2).fieldID =
        (tenRowStream true 0).msincols.fieldId (tenRowStream true 0).currentVisibility :=
  ⟨by decide, by decide,
   readChunk_single_pointing (tenRowStream true 0) (zeroChunk 4) (by decide) 2 (by decide)⟩

/-- C10: with pointing alignment disabled, on a dataset of `n` rows and
with chunks of capacity `c >= 1`, the sizes returned by successive
`msio::readChunk` calls from a fresh stream are `n / c` times the value `c`,
then `n % c` if that is not zero, then 0; for `n = 10` and `c = 4` the sizes
are 4, 4, 2, 0. -/
theorem readChunks_sizes_unaligned (self : msio F) (n c : Nat) (chunks : List (Chunk F))
    (hfresh : self.currentVisibility = 0) (hal : self.one_ptg_per_chunk_ = false)
    (hn : self.nvis = n) (hc : c ≥ 1) (hcap : ∀ ch ∈ chunks, ch.capacity = c)
    (hlen : chunks.length = n / c + (if n % c = 0 then 0 else 1) + 1) :
    (readChunks self chunks).1.map Prod.fst =
        List.replicate (n / c) c ++ (if n % c = 0 then [] else [n % c]) ++ [0] ∧
      (n = 10 → c = 4 → (readChunks self chunks).1.map Prod.fst = [4, 4, 2, 0]) := by
  have hmain := readChunks_sizes_from c (n % c) (Nat.mod_lt _ (by omega)) (n / c)
    self chunks hal
    (by rw [hfresh, hn, Nat.sub_zero, Nat.mul_comm]; exact (Nat.div_add_mod n c).symm)
    hcap hlen
  refine ⟨hmain, ?_⟩
  intro h10 h4
  subst h10 h4
  rw [hmain]
  decide

theorem readChunks_sizes_unaligned_witness :
    (readChunks (tenRowStream false 0) (List.replicate 4 (zeroChunk 4))).1.map Prod.fst =
        List.replicate (10 / 4) 4 ++ (if 10 % 4 = 0 then [] else [10 % 4]) ++ [0] ∧
      (10 = 10 → 4 = 4 →
        (readChunks (tenRowStream false 0) (List.replicate 4 (zeroChunk 4))).1.map Prod.fst =
          [4, 4, 2, 0]) :=
  readChunks_sizes_unaligned (tenRowStream false 0) 10 4 (List.replicate 4 (zeroChunk 4))
    (by decide) (by decide) (by decide) (by decide)
    (by intro ch hch; rw [List.eq_of_mem_replicate hch]; rfl) (by decide)

/-- C6: round trip of `msio::readChunk` followed by `msio::writeChunk`.
For every dataset whose flag matrices have the shape of the selected sample
matrices and whose weight vectors have one entry per polarization, every
column choice and every chunk: if `readChunk` fills the chunk with a batch,
the sample arrays of every output record are then set to those of its input
record, and `writeChunk` writes to an output dataset whose rows equal those
of the input, then the output dataset is left as it was: its selected
sample column, flag column, weight column and field-id column are
unchanged. -/
theorem read_write_roundtrip (self : msio F) (chunk chunk2 : Chunk F)
    (hlt : self.currentVisibility < self.nvis)
    (hout : self.msoutcols = some self.msincols)
    (hshape : ∀ r, r < self.nvis →
      ((self.msincols.flag r).nrow = (selectedData self.msincols self.datacolumn_ r).nrow ∧
        (self.msincols.flag r).ncolumn =
          (selectedData self.msincols self.datacolumn_ r).ncolumn) ∧
      (self.msincols.weight r).nelements =
        (selectedData self.msincols self.datacolumn_ r).nrow)
    (hsize : chunk2.size = (self.readChunk chunk).2.2.size)
    (hcopy : ∀ i, i < chunk2.size →
      chunk2.outVis i =
        { (self.readChunk chunk).2.2.outVis i with
          data_real := ((self.readChunk chunk).2.2.inVis i).data_real,
          data_imag := ((self.readChunk chunk).2.2.inVis i).data_imag }) :
    ((self.readChunk chunk).2.1.writeChunk chunk2).msoutcols = some self.msincols := by
  have hfst := readChunk_fst self chunk
  rw [if_neg (by omega)] at hfst
  have hrec : ∀ i ∈ List.range chunk2.size,
      writeData self.datacolumn_ chunk2 self.msincols i = self.msincols ∧
        writeWeight chunk2 self.msincols i = self.msincols ∧
        writeFieldId chunk2 self.msincols i = self.msincols := by
    intro i hi
    have hi2 : i < chunk2.size := List.mem_range.mp hi
    have hi3 : i < (self.readChunk chunk).1 := by rw [hfst, ← hsize]; exact hi2
    have hrow : i + self.currentVisibility < self.nvis := by
      have := (readChunk_le self chunk).2
      omega
    obtain ⟨v1, v2⟩ := readChunk_vis self chunk i hi3
    have hc := hcopy i hi2
    rw [v1, v2] at hc
    exact write_record_fixed self self.currentVisibility (chunk.inVis i, chunk.outVis i)
      chunk2 i (hshape _ hrow).1 (hshape _ hrow).2 hc
  unfold msio.writeChunk
  rw [readChunk_msoutcols, hout]
  dsimp only
  rw [readChunk_datacolumn,
    foldl_fixed _ _ _ (fun i hi => (hrec i hi).1),
    foldl_fixed _ _ _ (fun i hi => (hrec i hi).2.1),
    foldl_fixed _ _ _ (fun i hi => (hrec i hi).2.2)]

theorem read_write_roundtrip_witness :
    (tenRowStream false 0).currentVisibility < (tenRowStream false 0).nvis ∧
      (((tenRowStream false 0).readChunk (zeroChunk 4)).2.1.writeChunk
        (copySamples ((tenRowStream false 0).readChunk (zeroChunk 4)).2.2)).msoutcols =
        some (tenRowStream false 0).msincols :=
  ⟨by decide,
   read_write_roundtrip (tenRowStream false 0) (zeroChunk 4)
    (copySamples ((tenRowStream false 0).readChunk (zeroChunk 4)).2.2)
    (by decide) rfl (fun _ _ => ⟨⟨rfl, rfl⟩, rfl⟩) rfl (fun _ _ => rfl)⟩

end MsioClaims

/-! ## Further claims about `Model::compute` -/

section ModelClaims2

variable {F : Type} [LinearOrderedField F]

/-- C12: for every stored stacking point whose shape kind is Gaussian,
`omega_size = (pi * size / c)^2 / (4 ln 2)`, and for every stored point
whose shape kind is Disk, `omega_size = pi * size / c`, with `size` the
stored size of the point; for a Gaussian of size 1e-6 rad this is
`(pi * 1e-6 / c)^2 / (4 ln 2)`. -/
theorem compute_omega_size (M : CMath F) (cl : List (SkyComponent F))
    (subtract : Bool) (ms : DataIO F) (pb : PrimaryBeam F) (P i : Nat)
    (pt : StackPoint F)
    (hpt : (((Model.new cl subtract).compute M ms pb).points P)[i]? = some pt) :
    (pt.model_type = ModelType.mod_gaussian →
        pt.omega_size = some ((M.M_PI * pt.size / M.c) ^ 2 / (4 * M.log 2))) ∧
      (pt.model_type = ModelType.mod_disk →
        pt.omega_size = some (M.M_PI * pt.size / M.c)) ∧
      (pt.model_type = ModelType.mod_gaussian → pt.size = 1e-6 →
        pt.omega_size = some ((M.M_PI * 1e-6 / M.c) ^ 2 / (4 * M.log 2))) := by
  obtain ⟨sc, _, hpt2⟩ := compute_points_source M _ ms pb P i pt hpt
  have hg : pt.model_type = ModelType.mod_gaussian →
      pt.omega_size = some ((M.M_PI * pt.size / M.c) ^ 2 / (4 * M.log 2)) := by
    intro h
    rw [hpt2] at h ⊢
    simp only [storePoint] at h ⊢
    rw [if_pos h]
  refine ⟨hg, ?_, ?_⟩
  · intro h
    rw [hpt2] at h ⊢
    simp only [storePoint] at h ⊢
    rw [h]
    simp
  · intro h hs
    rw [hg h, hs]

theorem compute_omega_size_witness :
    (gaussSourcePoint.model_type = ModelType.mod_gaussian →
        gaussSourcePoint.omega_size =
          some ((ratMath.M_PI * gaussSourcePoint.size / ratMath.c) ^ 2 /
            (4 * ratMath.log 2))) ∧
      (gaussSourcePoint.model_type = ModelType.mod_disk →
        gaussSourcePoint.omega_size = some (ratMath.M_PI * gaussSourcePoint.size / ratMath.c)) ∧
      (gaussSourcePoint.model_type = ModelType.mod_gaussian →
        gaussSourcePoint.size = 1e-6 →
        gaussSourcePoint.omega_size =
          some ((ratMath.M_PI * 1e-6 / ratMath.c) ^ 2 / (4 * ratMath.log 2))) :=
  compute_omega_size ratMath gaussSource true onePointing flatBeam 0 0 gaussSourcePoint
    (by
      simp [Model.compute, Model.new, firstPass, filterComponent, filterField, filterDx,
        filterDy, gaussSource, onePointing, flatBeam, ratMath, storePoint, storeDx, storeDy,
        shapeOf, List.range_succ, gaussSourcePoint]
      norm_num)

end ModelClaims2

section ModelLemmas2

variable {F : Type} [LinearOrderedField F]

/-- The position of a stored point is the position of its source
component. -/
theorem compute_points_position (M : CMath F) (m : Model F) (ms : DataIO F)
    (pb : PrimaryBeam F) (P i : Nat) (pt : StackPoint F)
    (hpt : ((m.compute M ms pb).points P)[i]? = some pt) :
    ∃ sc, (specIncluded M ms pb P m.cl)[i]? = some sc ∧ pt.x = sc.dirX ∧ pt.y = sc.dirY ∧
      pt.size = (shapeOf sc).1 ∧ pt.model_type = (shapeOf sc).2 := by
  obtain ⟨sc, hsc, hpt2⟩ := compute_points_source M m ms pb P i pt hpt
  refine ⟨sc, hsc, ?_, ?_, ?_, ?_⟩ <;> simp [hpt2, storePoint]

/-- A stored point that lies at the phase centre has zero offsets and zero
phase gradients, for a math library with `sin 0 = 0`, `cos 0 = 1` and
`sqrt 1 = 1`. -/
theorem stored_at_centre (M : CMath F) (hsin : M.sin 0 = 0) (hcos : M.cos 0 = 1)
    (hsqrt : M.sqrt 1 = 1) (m : Model F) (ms : DataIO F) (pb : PrimaryBeam F) (P i : Nat)
    (pt : StackPoint F) (hpt : ((m.compute M ms pb).points P)[i]? = some pt)
    (hx : pt.x = ms.xPhaseCentre P) (hy : pt.y = ms.yPhaseCentre P) :
    pt.dx = 0 ∧ pt.dy = 0 ∧ pt.omega_x = 0 ∧ pt.omega_y = 0 ∧ pt.omega_z = 0 := by
  obtain ⟨sc, _, hpt2⟩ := compute_points_source M m ms pb P i pt hpt
  have hx2 : sc.dirX = ms.xPhaseCentre P := by
    rw [← hx, hpt2]; simp [storePoint]
  have hy2 : sc.dirY = ms.yPhaseCentre P := by
    rw [← hy, hpt2]; simp [storePoint]
  have hdx : pt.dx = 0 := by
    rw [hpt2]
    simp [storePoint, storeDx, hx2, hsin]
  have hdy : pt.dy = 0 := by
    rw [hpt2]
    simp only [storePoint, storeDy, List.getD_cons_zero, hx2, hy2, sub_self, hcos]
    ring
  have hox : pt.omega_x = 0 := by
    have h : pt.omega_x = 2 * M.M_PI * M.sin pt.dx / M.c := by
      rw [hpt2]; simp [storePoint]
    rw [h, hdx, hsin]
    simp
  have hoy : pt.omega_y = 0 := by
    have h : pt.omega_y = 2 * M.M_PI * M.sin pt.dy / M.c := by
      rw [hpt2]; simp [storePoint]
    rw [h, hdy, hsin]
    simp
  have hoz : pt.omega_z = 0 := by
    have h : pt.omega_z = 2 * M.M_PI * (M.sqrt (1 - pt.dx * pt.dx - pt.dy * pt.dy) - 1) / M.c := by
      rw [hpt2]; simp [storePoint]
    rw [h, hdx, hdy]
    simp [hsqrt]
  exact ⟨hdx, hdy, hox, hoy, hoz⟩

/-- The tangent-plane offset of a component at the phase centre, as the
first pass computes it, is zero. -/
theorem filter_offset_at_centre (M : CMath F) (hsin : M.sin 0 = 0) (hcos : M.cos 0 = 1)
    (ms : DataIO F) (P : Nat) :
    filterDx M ms (ms.xPhaseCentre P) (ms.yPhaseCentre P) P = 0 ∧
      filterDy M ms (ms.xPhaseCentre P) (ms.yPhaseCentre P) P = 0 := by
  constructor
  · simp [filterDx, hsin]
  · simp only [filterDy, sub_self, hcos]
    ring

/-- The scenario of one point source of flux 1 at the phase centre of
pointing 0. -/
theorem one_source_at_centre (M : CMath F) (hsin : M.sin 0 = 0) (hcos : M.cos 0 = 1)
    (hsqrt : M.sqrt 1 = 1) (ms : DataIO F) (pb : PrimaryBeam F) (sc : SkyComponent F)
    (h0 : 0 < ms.nPointings) (hx : sc.dirX = ms.xPhaseCentre 0)
    (hy : sc.dirY = ms.yPhaseCentre 0) (hshape : sc.shapeType = ComponentType.POINT)
    (hflux : sc.fluxI = 1) (hpb : pb.calc_ 0 0 = 1) :
    ((Model.new [sc] true).compute M ms pb).nStackPoints 0 = 1 ∧
      ∃ pt, ((Model.new [sc] true).compute M ms pb).points 0 = [pt] ∧
        pt.model_type = ModelType.mod_point ∧ pt.flux = 1 ∧
        pt.omega_x = 0 ∧ pt.omega_y = 0 ∧ pt.omega_z = 0 := by
  have hoff := filter_offset_at_centre M hsin hcos ms 0
  have hinc : specIncluded M ms pb 0 [sc] = [sc] := by
    have h1 : specDx M ms 0 sc = 0 := by
      have := hoff.1
      simpa [specDx, filterDx, hx, hy] using this
    have h2 : specDy M ms 0 sc = 0 := by
      have := hoff.2
      simpa [specDy, filterDy, hx, hy] using this
    simp only [specIncluded, specResponse, h1, h2, hpb, List.filter_cons, List.filter_nil]
    norm_num
  have hn := compute_nStackPoints M (Model.new [sc] true) ms pb 0 h0
  have hlen := compute_points_length M (Model.new [sc] true) ms pb 0 h0
  have hget := compute_points_getElem? M (Model.new [sc] true) ms pb 0 0 sc h0
    (by show (specIncluded M ms pb 0 [sc])[0]? = some sc; rw [hinc]; rfl)
  have hcl : (Model.new [sc] true).cl = [sc] := rfl
  rw [hcl, hinc] at hn hlen
  refine ⟨hn, ?_⟩
  obtain ⟨pt, hpts⟩ := List.length_eq_one.mp hlen
  have hpt : (((Model.new [sc] true).compute M ms pb).points 0)[0]? = some pt := by
    rw [hpts]; rfl
  obtain ⟨sc2, hsc2, px, py, _, pm⟩ :=
    compute_points_position M (Model.new [sc] true) ms pb 0 0 pt hpt
  rw [hcl, hinc] at hsc2
  have hsceq : sc2 = sc := by
    have : some sc = some sc2 := hsc2
    exact (Option.some.inj this).symm
  subst hsceq
  obtain ⟨_, _, hox, hoy, hoz⟩ := stored_at_centre M hsin hcos hsqrt (Model.new [sc2] true)
    ms pb 0 0 pt hpt (px.trans hx) (py.trans hy)
  refine ⟨pt, hpts, ?_, ?_, hox, hoy, hoz⟩
  · rw [pm]; simp [shapeOf, hshape]
  · rw [hget] at hpt
    have hp := Option.some.inj hpt
    rw [← hp]
    simp [storePoint, Model.new, hflux]

end ModelLemmas2

section ModelClaims3

/-- C14: for every pointing, a catalog component located exactly at the
phase centre has tangent-plane offset `dx = dy = 0`, and a stored point at
the phase centre has `omega_x = omega_y = omega_z = 0` (for a math library
with `sin 0 = 0`, `cos 0 = 1`, `sqrt 1 = 1`, as the real functions have).
In particular a catalog of one Point source of flux 1.0 at the phase centre
of pointing 0, in subtract mode and with a beam of response 1.0 at (0, 0),
yields for pointing 0 exactly one stacking point, of flux 1.0 and with
`omega_x = omega_y = omega_z = 0`; this holds over the real numbers with the
real `sin`, `cos` and `sqrt`. -/
theorem compute_at_phase_centre :
    (∀ (F : Type) [LinearOrderedField F] (M : CMath F),
        M.sin 0 = 0 → M.cos 0 = 1 → M.sqrt 1 = 1 →
        ∀ (ms : DataIO F) (pb : PrimaryBeam F),
          (∀ P : Nat,
            filterDx M ms (ms.xPhaseCentre P) (ms.yPhaseCentre P) P = 0 ∧
            filterDy M ms (ms.xPhaseCentre P) (ms.yPhaseCentre P) P = 0) ∧
          (∀ (cl : List (SkyComponent F)) (subtract : Bool) (P i : Nat) (pt : StackPoint F),
            (((Model.new cl subtract).compute M ms pb).points P)[i]? = some pt →
            pt.x = ms.xPhaseCentre P → pt.y = ms.yPhaseCentre P →
            pt.dx = 0 ∧ pt.dy = 0 ∧ pt.omega_x = 0 ∧ pt.omega_y = 0 ∧ pt.omega_z = 0) ∧
          (∀ sc : SkyComponent F, 0 < ms.nPointings →
            sc.dirX = ms.xPhaseCentre 0 → sc.dirY = ms.yPhaseCentre 0 →
            sc.shapeType = ComponentType.POINT → sc.fluxI = 1 → pb.calc_ 0 0 = 1 →
            ((Model.new [sc] true).compute M ms pb).nStackPoints 0 = 1 ∧
            ∃ pt, ((Model.new [sc] true).compute M ms pb).points 0 = [pt] ∧
              pt.model_type = ModelType.mod_point ∧ pt.flux = 1 ∧
              pt.omega_x = 0 ∧ pt.omega_y = 0 ∧ pt.omega_z = 0)) ∧
    (∀ (ms : DataIO ℝ) (pb : PrimaryBeam ℝ) (sc : SkyComponent ℝ), 0 < ms.nPointings →
        sc.dirX = ms.xPhaseCentre 0 → sc.dirY = ms.yPhaseCentre 0 →
        sc.shapeType = ComponentType.POINT → sc.fluxI = 1 → pb.calc_ 0 0 = 1 →
        ((Model.new [sc] true).compute
            ⟨Real.sin, Real.cos, Real.sqrt, Real.log, Real.pi, 299792458⟩ ms pb).nStackPoints 0 = 1 ∧
        ∃ pt, ((Model.new [sc] true).compute
            ⟨Real.sin, Real.cos, Real.sqrt, Real.log, Real.pi, 299792458⟩ ms pb).points 0 = [pt] ∧
          pt.model_type = ModelType.mod_point ∧ pt.flux = 1 ∧
          pt.omega_x = 0 ∧ pt.omega_y = 0 ∧ pt.omega_z = 0) := by
  constructor
  · intro F _ M hsin hcos hsqrt ms pb
    refine ⟨fun P => filter_offset_at_centre M hsin hcos ms P, ?_, ?_⟩
    · intro cl subtract P i pt hpt hx hy
      exact stored_at_centre M hsin hcos hsqrt _ ms pb P i pt hpt hx hy
    · intro sc h0 hx hy hshape hflux hpb
      exact one_source_at_centre M hsin hcos hsqrt ms pb sc h0 hx hy hshape hflux hpb
  · intro ms pb sc h0 hx hy hshape hflux hpb
    exact one_source_at_centre ⟨Real.sin, Real.cos, Real.sqrt, Real.log, Real.pi, 299792458⟩
      Real.sin_zero Real.cos_zero Real.sqrt_one ms pb sc h0 hx hy hshape hflux hpb

theorem compute_at_phase_centre_witness :
    ((Model.new oneSource true).compute ratMath onePointing flatBeam).nStackPoints 0 = 1 ∧
      ∃ pt, ((Model.new oneSource true).compute ratMath onePointing flatBeam).points 0 = [pt] ∧
        pt.model_type = ModelType.mod_point ∧ pt.flux = 1 ∧
        pt.omega_x = 0 ∧ pt.omega_y = 0 ∧ pt.omega_z = 0 :=
  (compute_at_phase_centre.1 ℚ ratMath (by norm_num [ratMath]) (by norm_num [ratMath])
    (by norm_num [ratMath]) onePointing flatBeam).2.2
    { dirX := 0, dirY := 0, fluxI := 1, shapeType := ComponentType.POINT, param0 := 0 }
    (by decide) rfl rfl rfl rfl rfl

end ModelClaims3

section ModelClaims4

variable {F : Type} [LinearOrderedField F]

/-- C20, as amended: for every stored stacking point whose shape kind is
Point, `Model::compute` assigns no value to `omega_size`: neither branch of
lines 236-239 is taken, so the entry keeps what the freshly allocated array
holds. -/
theorem compute_point_omega_size_unwritten (M : CMath F) (cl : List (SkyComponent F))
    (subtract : Bool) (ms : DataIO F) (pb : PrimaryBeam F) (P i : Nat)
    (pt : StackPoint F)
    (hpt : (((Model.new cl subtract).compute M ms pb).points P)[i]? = some pt)
    (hkind : pt.model_type = ModelType.mod_point) :
    pt.omega_size = none := by
  obtain ⟨sc, _, hpt2⟩ := compute_points_source M _ ms pb P i pt hpt
  rw [hpt2] at hkind ⊢
  simp only [storePoint] at hkind ⊢
  rw [hkind]
  simp

theorem compute_point_omega_size_unwritten_witness :
    oneSourcePoint.omega_size = none :=
  compute_point_omega_size_unwritten ratMath oneSource true onePointing flatBeam 0 0
    oneSourcePoint
    (by
      simp [Model.compute, Model.new, firstPass, filterComponent, filterField, filterDx,
        filterDy, oneSource, onePointing, flatBeam, ratMath, storePoint, storeDx, storeDy,
        shapeOf, List.range_succ, oneSourcePoint]
      norm_num
      rfl)
    rfl

/-- Counterexample to C20 as stated: the point stored for the Point source
of `oneSource` has shape kind Point, and its `omega_size` is not a zero
written by `Model::compute`. -/
theorem compute_point_omega_size_not_zero :
    (((Model.new oneSource true).compute ratMath onePointing flatBeam).points 0)[0]? =
        some oneSourcePoint ∧
      oneSourcePoint.model_type = ModelType.mod_point ∧
      oneSourcePoint.omega_size ≠ some 0 := by
  refine ⟨?_, rfl, by simp [oneSourcePoint]⟩
  simp [Model.compute, Model.new, firstPass, filterComponent, filterField, filterDx,
    filterDy, oneSource, onePointing, flatBeam, ratMath, storePoint, storeDx, storeDy,
    shapeOf, List.range_succ, oneSourcePoint]
  norm_num
  rfl

end ModelClaims4

/-! ## Further properties of `msio::readChunk` and `msio::writeChunk` -/

section MsioLemmas2

variable {F : Type} [Zero F]

/-- A scan over a non-empty range passes the row at the cursor. -/
theorem scanField_pos (fieldId : Nat → Int) (cur left : Nat) (h : 1 ≤ left) :
    1 ≤ scanField fieldId cur (fieldId cur) left 0 := by
  obtain ⟨n, rfl⟩ : ∃ n, left = n + 1 := ⟨left - 1, by omega⟩
  unfold scanField
  rw [Nat.zero_add, if_pos rfl]
  exact scanField_ge _ _ _ _ _

/-- The size left by the alignment block is the smaller of the size it found
and the length the scan has reached. -/
theorem alignChunk_size_eq (self : msio F) (chunk : Chunk F) (cur : Nat) :
    (alignChunk self chunk cur).2.size =
      min chunk.size
        (scanField self.msincols.fieldId cur (self.msincols.fieldId cur) chunk.size 0) := by
  have hle := scanField_le self.msincols.fieldId cur (self.msincols.fieldId cur) chunk.size 0
  unfold alignChunk
  dsimp only
  split
  · simp only [Chunk.setSize]
    omega
  · show chunk.size = _
    omega

/-- The scan stops at the end of the run of rows that share the field id
of the cursor row, or at the end of the range scanned. -/
theorem scanField_eq_min (fieldId : Nat → Int) (cur left L : Nat)
    (hrun : ∀ j, j < L → fieldId (cur + j) = fieldId cur)
    (hmax : L < left → fieldId (cur + L) ≠ fieldId cur) :
    scanField fieldId cur (fieldId cur) left 0 = min left L := by
  have hle := scanField_le fieldId cur (fieldId cur) left 0
  have hsame := scanField_same fieldId cur (fieldId cur) left 0
  have hstop := scanField_stop fieldId cur (fieldId cur) left 0
  by_cases h1 : L < scanField fieldId cur (fieldId cur) left 0
  · exfalso
    have := hsame L (Nat.zero_le _) h1
    rw [Nat.add_comm] at this
    exact hmax (by omega) this
  · by_cases h2 : scanField fieldId cur (fieldId cur) left 0 < left
    · by_cases h3 : scanField fieldId cur (fieldId cur) left 0 < L
      · exfalso
        have := hstop (by omega)
        rw [Nat.add_comm] at this
        exact this (hrun _ h3)
      · omega
    · omega

end MsioLemmas2

section MsioClaims2

variable {F : Type} [Zero F]

/-- C11, as amended: for every stream state, every chunk of capacity at
least 1 and either alignment setting, `msio::readChunk` returns 0 if and
only if all rows had been delivered before the call
(`currentVisibility >= nvis()`). -/
theorem readChunk_zero_iff_exhausted (self : msio F) (chunk : Chunk F)
    (hcap : 1 ≤ chunk.capacity) :
    (self.readChunk chunk).1 = 0 ↔ self.currentVisibility ≥ self.nvis := by
  constructor
  · intro h0
    by_contra hlt
    have hlt2 : self.currentVisibility < self.nvis := by omega
    rw [readChunk_fst_of_lt self chunk hlt2] at h0
    split at h0
    · rw [alignChunk_size_eq, clipSize_size] at h0
      have hc : ((chunk.resetSize).set_dataset_id self.dataset_id).size = chunk.capacity := rfl
      rw [hc] at h0
      have hpos := scanField_pos self.msincols.fieldId self.currentVisibility
        (min chunk.capacity (self.nvis - self.currentVisibility)) (by omega)
      omega
    · omega
  · intro h
    exact (readChunk_of_ge self chunk h).1

theorem readChunk_zero_iff_exhausted_witness :
    1 ≤ (zeroChunk 4).capacity ∧
      (((tenRowStream true 10).readChunk (zeroChunk 4)).1 = 0 ↔
        (tenRowStream true 10).currentVisibility ≥ (tenRowStream true 10).nvis) :=
  ⟨by decide, readChunk_zero_iff_exhausted (tenRowStream true 10) (zeroChunk 4) (by decide)⟩

/-- Counterexample to C11 as stated: on a chunk of capacity 0 `readChunk`
returns 0 although no row of the ten has been delivered. -/
theorem readChunk_zero_not_exhausted :
    ¬ (((tenRowStream false 0).readChunk (zeroChunk 0)).1 = 0 ↔
        (tenRowStream false 0).currentVisibility ≥ (tenRowStream false 0).nvis) := by
  decide

/-- C16: when the stream was opened without an output dataset
(`msout == NULL`), `msio::writeChunk` is a no-op for every chunk: the stream,
with the columns of its dataset, is left as it was; the chunk is only read
by `writeChunk`. -/
theorem writeChunk_readonly_noop (self : msio F) (chunk : Chunk F)
    (h : self.msoutcols = none) :
    self.writeChunk chunk = self ∧
      (self.writeChunk chunk).msincols = self.msincols ∧
      (self.writeChunk chunk).msoutcols = none := by
  have h1 : self.writeChunk chunk = self := by
    unfold msio.writeChunk
    rw [h]
  rw [h1]
  exact ⟨rfl, rfl, h⟩

theorem writeChunk_readonly_noop_witness :
    readOnlyStream.writeChunk (copySamples (readOnlyStream.readChunk (zeroChunk 4)).2.2) =
        readOnlyStream ∧
      (readOnlyStream.writeChunk
        (copySamples (readOnlyStream.readChunk (zeroChunk 4)).2.2)).msincols =
        readOnlyStream.msincols ∧
      (readOnlyStream.writeChunk
        (copySamples (readOnlyStream.readChunk (zeroChunk 4)).2.2)).msoutcols = none :=
  writeChunk_readonly_noop readOnlyStream
    (copySamples (readOnlyStream.readChunk (zeroChunk 4)).2.2) rfl

/-- C17: with pointing alignment enabled and the cursor before the end of
the dataset, `msio::readChunk` returns `min(capacity, remaining rows, L)`,
where `L` is the length of the maximal run of consecutive rows from the
cursor on that share the pointing index of the row at the cursor; and when
the batch was shortened by alignment, the row right after the batch has
another pointing index than the batch. -/
theorem readChunk_aligned_size (self : msio F) (chunk : Chunk F) (L : Nat)
    (hal : self.one_ptg_per_chunk_ = true)
    (hlt : self.currentVisibility < self.nvis)
    (hL : L ≤ self.nvis - self.currentVisibility)
    (hrun : ∀ j, j < L →
      self.msincols.fieldId (self.currentVisibility + j) =
        self.msincols.fieldId self.currentVisibility)
    (hmax : L < self.nvis - self.currentVisibility →
      self.msincols.fieldId (self.currentVisibility + L) ≠
        self.msincols.fieldId self.currentVisibility) :
    (self.readChunk chunk).1 =
        min chunk.capacity (min (self.nvis - self.currentVisibility) L) ∧
      ((self.readChunk chunk).1 <
          min chunk.capacity (self.nvis - self.currentVisibility) →
        self.msincols.fieldId (self.currentVisibility + (self.readChunk chunk).1) ≠
          self.msincols.fieldId self.currentVisibility) := by
  have hc : ((chunk.resetSize).set_dataset_id self.dataset_id).size = chunk.capacity := rfl
  have hscan := scanField_eq_min self.msincols.fieldId self.currentVisibility
    (min chunk.capacity (self.nvis - self.currentVisibility)) L hrun
    (fun h => hmax (by omega))
  have hval : (self.readChunk chunk).1 =
      min chunk.capacity (min (self.nvis - self.currentVisibility) L) := by
    rw [readChunk_fst_of_lt self chunk hlt, if_pos hal, alignChunk_size_eq, clipSize_size,
      hc, hscan]
    omega
  refine ⟨hval, ?_⟩
  intro hshort
  rw [hval] at hshort ⊢
  have hLlt : L < self.nvis - self.currentVisibility := by omega
  have : min chunk.capacity (min (self.nvis - self.currentVisibility) L) = L := by omega
  rw [this]
  exact hmax hLlt

theorem readChunk_aligned_size_witness :
    ((tenRowStream true 0).readChunk (zeroChunk 4)).1 =
        min (zeroChunk 4).capacity
          (min ((tenRowStream true 0).nvis - (tenRowStream true 0).currentVisibility) 3) ∧
      (((tenRowStream true 0).readChunk (zeroChunk 4)).1 <
          min (zeroChunk 4).capacity
            ((tenRowStream true 0).nvis - (tenRowStream true 0).currentVisibility) →
        (tenRowStream true 0).msincols.fieldId
            ((tenRowStream true 0).currentVisibility +
              ((tenRowStream true 0).readChunk (zeroChunk 4)).1) ≠
          (tenRowStream true 0).msincols.fieldId (tenRowStream true 0).currentVisibility) :=
  readChunk_aligned_size (tenRowStream true 0) (zeroChunk 4) 3 rfl (by decide) (by decide)
    (by decide) (by decide)

end MsioClaims2

section MsioClaims3

variable {F : Type} [Zero F]

/-- C19: after `msio::readChunk` has returned `k`, for every `i < k` the
output record `outVis[i]` mirrors the input record `inVis[i]`: both carry the
row index (cursor before the call) + `i` and, as read from the dataset for
that row, the channel count, the polarization count, the weight of every
polarization, the flag of every sample, the field id and the
spectral-window index, and both hold the same frequency-table reference. -/
theorem readChunk_outVis_mirrors (self : msio F) (chunk : Chunk F) (i : Nat)
    (hi : i < (self.readChunk chunk).1) :
    (((self.readChunk chunk).2.2.inVis i).index = self.currentVisibility + i ∧
      ((self.readChunk chunk).2.2.outVis i).index = self.currentVisibility + i) ∧
    (((self.readChunk chunk).2.2.inVis i).nchan =
        (selectedData self.msincols self.datacolumn_ (self.currentVisibility + i)).ncolumn ∧
      ((self.readChunk chunk).2.2.outVis i).nchan =
        (selectedData self.msincols self.datacolumn_ (self.currentVisibility + i)).ncolumn) ∧
    (((self.readChunk chunk).2.2.inVis i).nstokes =
        (selectedData self.msincols self.datacolumn_ (self.currentVisibility + i)).nrow ∧
      ((self.readChunk chunk).2.2.outVis i).nstokes =
        (selectedData self.msincols self.datacolumn_ (self.currentVisibility + i)).nrow) ∧
    (((self.readChunk chunk).2.2.inVis i).fieldID =
        self.msincols.fieldId (self.currentVisibility + i) ∧
      ((self.readChunk chunk).2.2.outVis i).fieldID =
        self.msincols.fieldId (self.currentVisibility + i)) ∧
    (((self.readChunk chunk).2.2.inVis i).spw =
        self.msincols.dataDescId (self.currentVisibility + i) ∧
      ((self.readChunk chunk).2.2.outVis i).spw =
        self.msincols.dataDescId (self.currentVisibility + i)) ∧
    ((self.readChunk chunk).2.2.outVis i).freq = ((self.readChunk chunk).2.2.inVis i).freq ∧
    (∀ s, s < (selectedData self.msincols self.datacolumn_ (self.currentVisibility + i)).nrow →
      ((self.readChunk chunk).2.2.inVis i).weight s =
          (self.msincols.weight (self.currentVisibility + i)).get 0 s ∧
        ((self.readChunk chunk).2.2.outVis i).weight s =
          (self.msincols.weight (self.currentVisibility + i)).get 0 s) ∧
    (∀ s c,
      s < (selectedData self.msincols self.datacolumn_ (self.currentVisibility + i)).nrow →
      c < (selectedData self.msincols self.datacolumn_ (self.currentVisibility + i)).ncolumn →
      ((self.readChunk chunk).2.2.inVis i).data_flag
          ((selectedData self.msincols self.datacolumn_
            (self.currentVisibility + i)).ncolumn * s + c) =
          (if (self.msincols.flag (self.currentVisibility + i)).get false s c then 1 else 0) ∧
        ((self.readChunk chunk).2.2.outVis i).data_flag
          ((selectedData self.msincols self.datacolumn_
            (self.currentVisibility + i)).ncolumn * s + c) =
          (if (self.msincols.flag (self.currentVisibility + i)).get false s c then 1
           else 0)) := by
  obtain ⟨v1, v2⟩ := readChunk_vis self chunk i hi
  obtain ⟨g1, g2⟩ := fillPair_header self self.currentVisibility
    (chunk.inVis i, chunk.outVis i) i
  have harr := fillPair_arrays self self.currentVisibility (chunk.inVis i, chunk.outVis i) i
  rw [v1, v2]
  rw [Nat.add_comm i self.currentVisibility] at g1 g2 harr
  simp only [Visibility.header, Prod.mk.injEq] at g1 g2
  obtain ⟨a1, _, _, _, a5, a6, a7, a8, a9⟩ := g1
  obtain ⟨b1, _, _, _, b5, b6, b7, b8, b9⟩ := g2
  refine ⟨⟨a1, b1⟩, ⟨a8, b8⟩, ⟨a9, b9⟩, ⟨a5, b5⟩, ⟨a6, b6⟩, b7.trans a7.symm, ?_, ?_⟩
  · intro s hs
    obtain ⟨w1, w2, _⟩ := harr s
    rw [w1, w2]
    simp only [if_pos hs, and_self]
  · intro s c hs hc
    obtain ⟨_, _, _, _, f1, f2, _⟩ := harr
      ((selectedData self.msincols self.datacolumn_ (self.currentVisibility + i)).ncolumn * s + c)
    have hlt : (selectedData self.msincols self.datacolumn_
          (self.currentVisibility + i)).ncolumn * s + c <
        (selectedData self.msincols self.datacolumn_ (self.currentVisibility + i)).ncolumn *
          (selectedData self.msincols self.datacolumn_ (self.currentVisibility + i)).nrow := by
      calc (selectedData self.msincols self.datacolumn_
              (self.currentVisibility + i)).ncolumn * s + c
          < (selectedData self.msincols self.datacolumn_
              (self.currentVisibility + i)).ncolumn * s +
            (selectedData self.msincols self.datacolumn_
              (self.currentVisibility + i)).ncolumn := by omega
        _ = (selectedData self.msincols self.datacolumn_
              (self.currentVisibility + i)).ncolumn * (s + 1) := by rw [Nat.mul_succ]
        _ ≤ _ := Nat.mul_le_mul_left _ hs
    have hdiv : ((selectedData self.msincols self.datacolumn_
          (self.currentVisibility + i)).ncolumn * s + c) /
        (selectedData self.msincols self.datacolumn_ (self.currentVisibility + i)).ncolumn =
          s := by
      rw [Nat.mul_add_div (by omega), Nat.div_eq_of_lt hc, Nat.add_zero]
    have hmod : ((selectedData self.msincols self.datacolumn_
          (self.currentVisibility + i)).ncolumn * s + c) %
        (selectedData self.msincols self.datacolumn_ (self.currentVisibility + i)).ncolumn =
          c := by
      rw [Nat.mul_add_mod, Nat.mod_eq_of_lt hc]
    rw [f1, f2]
    simp only [if_pos hlt, hdiv, hmod, and_self]

theorem readChunk_outVis_mirrors_witness :
    2 < ((tenRowStream true 0).readChunk (zeroChunk 4)).1 ∧
      (((tenRowStream true 0).readChunk (zeroChunk 4)).2.2.inVis 2).index =
        (tenRowStream true 0).currentVisibility + 2 ∧
      (((tenRowStream true 0).readChunk (zeroChunk 4)).2.2.outVis 2).index =
        (tenRowStream true 0).currentVisibility + 2 :=
  ⟨by decide,
   (readChunk_outVis_mirrors (tenRowStream true 0) (zeroChunk 4) 2 (by decide)).1⟩

end MsioClaims3

/-! ## Claims about the constructor and the frequency table -/

section ConstructorClaims

variable {F : Type} [Zero F]

theorem selectField_columnNames (ms : MeasurementSet F) (field : Int → Bool) :
    (ms.selectField field).columnNames = ms.columnNames := rfl

theorem selected_columnNames (ms : MeasurementSet F) (select_field : Bool)
    (field : Int → Bool) :
    (if select_field then ms.selectField field else ms).columnNames = ms.columnNames := by
  cases select_field <;> rfl

theorem checkInput_model_missing (msin : MeasurementSet F)
    (h : "MODEL_DATA" ∉ msin.columnNames) :
    checkInput msin DataColumn.col_model_data =
      Except.error fileException.MODEL_DATA_MISSING := by
  simp [checkInput, MeasurementSet.isColumnStored, h]

theorem checkInput_corrected (msin : MeasurementSet F) :
    checkInput msin DataColumn.col_corrected_data =
      if "CORRECTED_DATA" ∈ msin.columnNames then Except.ok DataColumn.col_corrected_data
      else Except.error fileException.CORRECTED_DATA_MISSING := by
  by_cases h : "CORRECTED_DATA" ∈ msin.columnNames <;>
    simp [checkInput, MeasurementSet.isColumnStored, h]

/-- The evaluation of `msio::readChunk` behind C13, on a stream constructed
on `twoSpwMS`: `nChan()` is 2, row 1 belongs to spectral window 1 and has one
channel, and its input and output record get the frequency reference
`&freq[1]`, which is channel 1 of window 0 (101), while `getFreq(1)` is
`&freq[2]`, the table of window 1 (200). -/
theorem readChunk_freq_reference_of_short_row :
    ∃ s : msio ℚ,
      msio.new twoSpwMS none DataColumn.col_data false (fun _ => true) false 0 0 =
        Except.ok s ∧
      s.nChan = 2 ∧ (s.readChunk (zeroChunk 2)).1 = 2 ∧
      ((s.readChunk (zeroChunk 2)).2.2.inVis 1).nchan = 1 ∧
      ((s.readChunk (zeroChunk 2)).2.2.inVis 1).spw = 1 ∧
      ((s.readChunk (zeroChunk 2)).2.2.inVis 1).freq = 1 ∧
      ((s.readChunk (zeroChunk 2)).2.2.outVis 1).freq = 1 ∧
      s.getFreq 1 = 2 ∧ s.freq 1 = 101 ∧ s.freq 2 = 200 :=
  ⟨_, rfl, by decide, by decide, by decide, by decide, by decide, by decide, by decide,
    by decide, by decide⟩

/-- C15, as amended: constructing an `msio` stream with the model or the
corrected column choice on an input dataset that lacks that column fails at
construction, with `MODEL_DATA_MISSING` and `CORRECTED_DATA_MISSING`
respectively, two distinct kinds; with the raw column choice the constructor
asks for no column and does not fail; and with the corrected choice and an
output dataset that lacks the corrected column, construction fails with
`CORRECTED_DATA_MISSING`. -/
theorem msio_new_column_checks (msinfile : MeasurementSet F)
    (msoutfile : Option (MeasurementSet F)) (select_field : Bool) (field : Int → Bool)
    (one_ptg_per_chunk : Bool) (dataset_id ptg_breaks_in_a_row : Int) :
    ("MODEL_DATA" ∉ msinfile.columnNames →
        msio.new msinfile msoutfile DataColumn.col_model_data select_field field
            one_ptg_per_chunk dataset_id ptg_breaks_in_a_row =
          Except.error fileException.MODEL_DATA_MISSING) ∧
      ("CORRECTED_DATA" ∉ msinfile.columnNames →
        msio.new msinfile msoutfile DataColumn.col_corrected_data select_field field
            one_ptg_per_chunk dataset_id ptg_breaks_in_a_row =
          Except.error fileException.CORRECTED_DATA_MISSING) ∧
      fileException.MODEL_DATA_MISSING ≠ fileException.CORRECTED_DATA_MISSING ∧
      (∀ out : MeasurementSet F, msoutfile = some out →
        "CORRECTED_DATA" ∉ out.columnNames →
        msio.new msinfile msoutfile DataColumn.col_corrected_data select_field field
            one_ptg_per_chunk dataset_id ptg_breaks_in_a_row =
          Except.error fileException.CORRECTED_DATA_MISSING) ∧
      (msio.new msinfile msoutfile DataColumn.col_data select_field field
          one_ptg_per_chunk dataset_id ptg_breaks_in_a_row).toBool = true := by
  refine ⟨?_, ?_, by decide, ?_, ?_⟩
  · intro h
    have h2 : "MODEL_DATA" ∉
        (if select_field then msinfile.selectField field else msinfile).columnNames := by
      rw [selected_columnNames]; exact h
    unfold msio.new
    simp only [checkInput_model_missing _ h2]
  · intro h
    have h2 : "CORRECTED_DATA" ∉
        (if select_field then msinfile.selectField field else msinfile).columnNames := by
      rw [selected_columnNames]; exact h
    unfold msio.new
    simp only [checkInput_corrected, if_neg h2]
  · intro out hout h
    have h3 : "CORRECTED_DATA" ∉
        (if select_field then out.selectField field else out).columnNames := by
      rw [selected_columnNames]; exact h
    unfold msio.new
    by_cases hin : "CORRECTED_DATA" ∈
        (if select_field then msinfile.selectField field else msinfile).columnNames
    · simp only [checkInput_corrected, if_pos hin]
      simp [openOutput, hout, MeasurementSet.isColumnStored, h3]
    · simp only [checkInput_corrected, if_neg hin]
  · unfold msio.new
    cases msoutfile <;> simp [checkInput, openOutput, Except.toBool]

/-- Counterexample to C15 as stated: with the raw column choice the
constructor succeeds on a dataset that has no `DATA` column. -/
theorem msio_new_raw_without_data :
    "DATA" ∉ noSampleColumnMS.columnNames ∧
      (msio.new noSampleColumnMS none DataColumn.col_data false (fun _ => true) false 0
        0).toBool = true := by
  decide

end ConstructorClaims

/-! ## The alignment diagnostic -/

section DiagnosticLemmas

variable {F : Type} [Zero F]

/-- The diagnostic members after the alignment block. -/
theorem alignChunk_diag (self : msio F) (chunk : Chunk F) (cur : Nat) :
    (scanField self.msincols.fieldId cur (self.msincols.fieldId cur) chunk.size 0 < chunk.size →
        (alignChunk self chunk cur).1.ptg_breaks_in_a_row = self.ptg_breaks_in_a_row + 1 ∧
        (alignChunk self chunk cur).1.warnings =
          (if self.ptg_warning_done = false ∧ self.ptg_breaks_in_a_row + 1 > 1 then
            self.warnings ++
              [(scanField self.msincols.fieldId cur (self.msincols.fieldId cur) chunk.size 0,
                self.msincols.fieldId cur)]
           else self.warnings) ∧
        (alignChunk self chunk cur).1.ptg_warning_done =
          (if self.ptg_warning_done = false ∧ self.ptg_breaks_in_a_row + 1 > 1 then true
           else self.ptg_warning_done)) ∧
      (¬ scanField self.msincols.fieldId cur (self.msincols.fieldId cur) chunk.size 0 <
            chunk.size →
        (alignChunk self chunk cur).1.ptg_breaks_in_a_row = 0 ∧
        (alignChunk self chunk cur).1.warnings = self.warnings ∧
        (alignChunk self chunk cur).1.ptg_warning_done = self.ptg_warning_done) := by
  constructor
  · intro h
    unfold alignChunk
    dsimp only
    rw [if_pos h]
    by_cases hc : self.ptg_warning_done = false ∧ self.ptg_breaks_in_a_row + 1 > 1
    · rw [if_pos hc, if_pos hc]
      simp [hc.1, hc.2]
    · rw [if_neg hc, if_neg hc]
      have hc2 : ¬ (self.ptg_warning_done = false ∧ 0 < self.ptg_breaks_in_a_row) := by
        rintro ⟨h1, h2⟩
        exact hc ⟨h1, by omega⟩
      simp [hc2]
  · intro h
    unfold alignChunk
    dsimp only
    rw [if_neg h]
    exact ⟨rfl, rfl, rfl⟩

/-- The diagnostic members after a call that finds the stream not
exhausted, with alignment enabled, are those the alignment block leaves. -/
theorem readChunk_diag_aligned (self : msio F) (chunk : Chunk F)
    (hlt : self.currentVisibility < self.nvis) (hal : self.one_ptg_per_chunk_ = true) :
    (self.readChunk chunk).2.1.ptg_breaks_in_a_row =
        (alignChunk self
          (clipSize self ((chunk.resetSize).set_dataset_id self.dataset_id)
            self.currentVisibility) self.currentVisibility).1.ptg_breaks_in_a_row ∧
      (self.readChunk chunk).2.1.warnings =
        (alignChunk self
          (clipSize self ((chunk.resetSize).set_dataset_id self.dataset_id)
            self.currentVisibility) self.currentVisibility).1.warnings ∧
      (self.readChunk chunk).2.1.ptg_warning_done =
        (alignChunk self
          (clipSize self ((chunk.resetSize).set_dataset_id self.dataset_id)
            self.currentVisibility) self.currentVisibility).1.ptg_warning_done := by
  unfold msio.readChunk msio.readChunkSimple
  dsimp only
  rw [if_neg (by omega)]
  simp only [hal, if_true, and_self]

/-- The diagnostic members are left as they are by a call with alignment
disabled. -/
theorem readChunk_diag_unaligned (self : msio F) (chunk : Chunk F)
    (hal : self.one_ptg_per_chunk_ = false) :
    (self.readChunk chunk).2.1.ptg_breaks_in_a_row = self.ptg_breaks_in_a_row ∧
      (self.readChunk chunk).2.1.warnings = self.warnings ∧
      (self.readChunk chunk).2.1.ptg_warning_done = self.ptg_warning_done := by
  unfold msio.readChunk msio.readChunkSimple
  dsimp only
  split
  · exact ⟨rfl, rfl, rfl⟩
  · simp only [hal, Bool.false_eq_true, if_false, and_self]

/-- With alignment enabled and the stream not exhausted, the batch is
shortened exactly when the scan stops before the end of the clipped chunk. -/
theorem shortensBatch_iff (self : msio F) (chunk : Chunk F)
    (hlt : self.currentVisibility < self.nvis) (hal : self.one_ptg_per_chunk_ = true) :
    shortensBatch self chunk ↔
      scanField self.msincols.fieldId self.currentVisibility
          (self.msincols.fieldId self.currentVisibility)
          (clipSize self ((chunk.resetSize).set_dataset_id self.dataset_id)
            self.currentVisibility).size 0 <
        (clipSize self ((chunk.resetSize).set_dataset_id self.dataset_id)
          self.currentVisibility).size := by
  have hc : ((chunk.resetSize).set_dataset_id self.dataset_id).size = chunk.capacity := rfl
  unfold shortensBatch
  rw [readChunk_fst_of_lt self chunk hlt, if_pos hal, alignChunk_size_eq]
  have hsz := clipSize_size self ((chunk.resetSize).set_dataset_id self.dataset_id)
    self.currentVisibility
  rw [hc] at hsz
  constructor
  · rintro ⟨_, _, h⟩
    omega
  · intro h
    exact ⟨hlt, hal, by omega⟩

/-- The diagnostic members after a call that shortens its batch. -/
theorem readChunk_diag_short (self : msio F) (chunk : Chunk F)
    (h : shortensBatch self chunk) :
    (self.readChunk chunk).2.1.ptg_breaks_in_a_row = self.ptg_breaks_in_a_row + 1 ∧
      ((self.ptg_warning_done = false ∧ self.ptg_breaks_in_a_row + 1 > 1) →
        (∃ x, (self.readChunk chunk).2.1.warnings = self.warnings ++ [x]) ∧
        (self.readChunk chunk).2.1.ptg_warning_done = true) ∧
      (¬ (self.ptg_warning_done = false ∧ self.ptg_breaks_in_a_row + 1 > 1) →
        (self.readChunk chunk).2.1.warnings = self.warnings ∧
        (self.readChunk chunk).2.1.ptg_warning_done = self.ptg_warning_done) := by
  have hlt := h.1
  have hal := h.2.1
  obtain ⟨r1, r2, r3⟩ := readChunk_diag_aligned self chunk hlt hal
  obtain ⟨a1, a2, a3⟩ := (alignChunk_diag self
    (clipSize self ((chunk.resetSize).set_dataset_id self.dataset_id) self.currentVisibility)
    self.currentVisibility).1 ((shortensBatch_iff self chunk hlt hal).mp h)
  rw [r1, r2, r3, a1, a2, a3]
  refine ⟨rfl, ?_, ?_⟩
  · intro hc
    rw [if_pos hc, if_pos hc]
    exact ⟨⟨_, rfl⟩, rfl⟩
  · intro hc
    rw [if_neg hc, if_neg hc]
    exact ⟨rfl, rfl⟩

/-- The diagnostic members after a call with alignment enabled that finds
the stream not exhausted and does not shorten its batch. -/
theorem readChunk_diag_full (self : msio F) (chunk : Chunk F)
    (hlt : self.currentVisibility < self.nvis) (hal : self.one_ptg_per_chunk_ = true)
    (h : ¬ shortensBatch self chunk) :
    (self.readChunk chunk).2.1.ptg_breaks_in_a_row = 0 ∧
      (self.readChunk chunk).2.1.warnings = self.warnings ∧
      (self.readChunk chunk).2.1.ptg_warning_done = self.ptg_warning_done := by
  obtain ⟨r1, r2, r3⟩ := readChunk_diag_aligned self chunk hlt hal
  obtain ⟨a1, a2, a3⟩ := (alignChunk_diag self
    (clipSize self ((chunk.resetSize).set_dataset_id self.dataset_id) self.currentVisibility)
    self.currentVisibility).2 (fun hs => h ((shortensBatch_iff self chunk hlt hal).mpr hs))
  rw [r1, r2, r3, a1, a2, a3]
  exact ⟨rfl, rfl, rfl⟩

end DiagnosticLemmas

section DiagnosticInvariant

variable {F : Type} [Zero F]

/-- A call of `readChunk` keeps the invariant of the diagnostic members. -/
theorem readChunk_DiagInv (self : msio F) (chunk : Chunk F) (h : DiagInv self) :
    DiagInv (self.readChunk chunk).2.1 := by
  obtain ⟨i1, i2, i3, i4, i5⟩ := h
  by_cases hlt : self.currentVisibility < self.nvis
  · cases hal : self.one_ptg_per_chunk_
    · obtain ⟨d1, d2, d3⟩ := readChunk_diag_unaligned self chunk hal
      obtain ⟨j1, j2⟩ := i5 hal
      unfold DiagInv
      rw [d1, d2, d3, readChunk_flag, hal]
      exact ⟨i1, fun _ => j1, i3, i4, fun _ => ⟨j1, j2⟩⟩
    · by_cases hs : shortensBatch self chunk
      · obtain ⟨d1, d2, d3⟩ := readChunk_diag_short self chunk hs
        have hcur : (self.readChunk chunk).2.1.currentVisibility <
            (self.readChunk chunk).2.1.nvis := by
          rw [readChunk_cursor, readChunk_nvis]
          have := hs.2.2
          omega
        unfold DiagInv
        rw [d1, readChunk_flag, hal]
        refine ⟨by omega, fun hge => absurd hcur (by omega), ?_, ?_, fun hf => ?_⟩
        · by_cases hc : self.ptg_warning_done = false ∧ self.ptg_breaks_in_a_row + 1 > 1
          · obtain ⟨⟨x, hx⟩, hd⟩ := d2 hc
            rw [hx, hd]
            simp
          · obtain ⟨hx, hd⟩ := d3 hc
            rw [hx, hd]
            exact i3
        · by_cases hc : self.ptg_warning_done = false ∧ self.ptg_breaks_in_a_row + 1 > 1
          · obtain ⟨⟨x, hx⟩, _⟩ := d2 hc
            have hw : self.warnings = [] := by
              by_contra hne
              have := i3.mpr hne
              rw [hc.1] at this
              exact Bool.false_ne_true this
            rw [hx, hw]
            simp
          · obtain ⟨hx, _⟩ := d3 hc
            rw [hx]
            exact i4
        · exact absurd hf (by simp)
      · obtain ⟨d1, d2, d3⟩ := readChunk_diag_full self chunk hlt hal hs
        unfold DiagInv
        rw [d1, d2, d3, readChunk_flag, hal]
        exact ⟨Int.le_refl 0, fun _ => rfl, i3, i4, fun hf => absurd hf (by simp)⟩
  · rw [(readChunk_of_ge self chunk (by omega)).2]
    exact ⟨i1, i2, i3, i4, i5⟩

/-- A sequence of calls keeps the invariant of the diagnostic members. -/
theorem readChunks_DiagInv :
    ∀ (chunks : List (Chunk F)) (self : msio F), DiagInv self →
      DiagInv (readChunks self chunks).2 := by
  intro chunks
  induction chunks with
  | nil => intro self h; exact h
  | cons chunk rest ih =>
    intro self h
    simp only [readChunks]
    exact ih _ (readChunk_DiagInv self chunk h)

/-- The alignment setting is the same after any sequence of calls. -/
theorem readChunks_flag :
    ∀ (chunks : List (Chunk F)) (self : msio F),
      (readChunks self chunks).2.one_ptg_per_chunk_ = self.one_ptg_per_chunk_ := by
  intro chunks
  induction chunks with
  | nil => intro self; rfl
  | cons chunk rest ih =>
    intro self
    simp only [readChunks]
    rw [ih, readChunk_flag]

/-- A stream whose break counter is 0 and that has printed no warning
satisfies the invariant. -/
theorem DiagInv_fresh (self : msio F) (hc : self.ptg_breaks_in_a_row = 0)
    (hd : self.ptg_warning_done = false) (hw : self.warnings = []) : DiagInv self := by
  unfold DiagInv
  rw [hc, hd, hw]
  simp

/-- The warning is emitted by a call exactly when the call shortens its
batch, the counter thereby exceeds 1, and no warning was printed before. -/
theorem emitsWarning_iff (self : msio F) (chunk : Chunk F) (h : DiagInv self) :
    emitsWarning self chunk ↔
      shortensBatch self chunk ∧ (self.readChunk chunk).2.1.ptg_breaks_in_a_row > 1 ∧
        self.warnings = [] := by
  obtain ⟨i1, i2, i3, i4, i5⟩ := h
  unfold emitsWarning
  by_cases hs : shortensBatch self chunk
  · obtain ⟨d1, d2, d3⟩ := readChunk_diag_short self chunk hs
    rw [d1]
    by_cases hc : self.ptg_warning_done = false ∧ self.ptg_breaks_in_a_row + 1 > 1
    · obtain ⟨⟨x, hx⟩, _⟩ := d2 hc
      have hw : self.warnings = [] := by
        by_contra hne
        have := i3.mpr hne
        rw [hc.1] at this
        exact Bool.false_ne_true this
      rw [hx]
      constructor
      · intro _
        exact ⟨hs, hc.2, hw⟩
      · intro _
        simp
    · obtain ⟨hx, _⟩ := d3 hc
      rw [hx]
      constructor
      · intro hne
        exact absurd rfl hne
      · rintro ⟨_, hgt, hw⟩
        exfalso
        apply hc
        refine ⟨?_, hgt⟩
        cases hd : self.ptg_warning_done
        · rfl
        · exact absurd hw (i3.mp hd)
  · constructor
    · intro hne
      exfalso
      apply hne
      by_cases hlt : self.currentVisibility < self.nvis
      · cases hal : self.one_ptg_per_chunk_
        · exact (readChunk_diag_unaligned self chunk hal).2.1
        · exact (readChunk_diag_full self chunk hlt hal hs).2.1
      · rw [(readChunk_of_ge self chunk (by omega)).2]
    · rintro ⟨h1, _, _⟩
      exact absurd h1 hs

end DiagnosticInvariant

section DiagnosticClaims

variable {F : Type} [Zero F]

/-- C18: the alignment-fragmentation diagnostic of `msio::readChunk`, for a
stream whose break counter starts at 0 with no warning printed, in any state
`s1` it reaches.  A call that shortens its batch for alignment increments
`ptg_breaks_in_a_row`; a call with alignment enabled that does not shorten
leaves it at 0; the warning is emitted in a call exactly when that call
shortens its batch, the counter thereby exceeds 1, and no warning was
emitted before; the counter exceeds 1 after a shortening call exactly when
the call before it shortened too, and the first call of a stream emits no
warning; over the whole life of the stream at most one warning is emitted,
and none when alignment is disabled. -/
theorem readChunk_alignment_diagnostic (self0 s1 : msio F) (chunks : List (Chunk F))
    (chunk1 chunk2 : Chunk F)
    (hc : self0.ptg_breaks_in_a_row = 0) (hd : self0.ptg_warning_done = false)
    (hw : self0.warnings = []) (hs1 : s1 = (readChunks self0 chunks).2) :
    (shortensBatch s1 chunk1 →
        (s1.readChunk chunk1).2.1.ptg_breaks_in_a_row = s1.ptg_breaks_in_a_row + 1) ∧
      (s1.one_ptg_per_chunk_ = true → ¬ shortensBatch s1 chunk1 →
        (s1.readChunk chunk1).2.1.ptg_breaks_in_a_row = 0) ∧
      (emitsWarning s1 chunk1 ↔
        shortensBatch s1 chunk1 ∧ (s1.readChunk chunk1).2.1.ptg_breaks_in_a_row > 1 ∧
          s1.warnings = []) ∧
      (shortensBatch (s1.readChunk chunk1).2.1 chunk2 →
        (((s1.readChunk chunk1).2.1.readChunk chunk2).2.1.ptg_breaks_in_a_row > 1 ↔
          shortensBatch s1 chunk1)) ∧
      ¬ emitsWarning self0 chunk1 ∧
      (s1.readChunk chunk1).2.1.warnings.length ≤ 1 ∧
      (self0.one_ptg_per_chunk_ = false → (s1.readChunk chunk1).2.1.warnings = []) := by
  have hinv0 : DiagInv self0 := DiagInv_fresh self0 hc hd hw
  have hinv1 : DiagInv s1 := by rw [hs1]; exact readChunks_DiagInv chunks self0 hinv0
  have hinv2 : DiagInv (s1.readChunk chunk1).2.1 := readChunk_DiagInv s1 chunk1 hinv1
  have hb : s1.one_ptg_per_chunk_ = true → ¬ shortensBatch s1 chunk1 →
      (s1.readChunk chunk1).2.1.ptg_breaks_in_a_row = 0 := by
    intro hal hs
    by_cases hlt : s1.currentVisibility < s1.nvis
    · exact (readChunk_diag_full s1 chunk1 hlt hal hs).1
    · rw [(readChunk_of_ge s1 chunk1 (by omega)).2]
      exact hinv1.2.1 (by omega)
  refine ⟨fun hs => (readChunk_diag_short s1 chunk1 hs).1, hb,
    emitsWarning_iff s1 chunk1 hinv1, ?_, ?_, hinv2.2.2.2.1, ?_⟩
  · intro hs2
    rw [(readChunk_diag_short _ chunk2 hs2).1]
    by_cases hs : shortensBatch s1 chunk1
    · rw [(readChunk_diag_short s1 chunk1 hs).1]
      have := hinv1.1
      constructor
      · intro _; exact hs
      · intro _; omega
    · have hal : s1.one_ptg_per_chunk_ = true := by
        rw [← readChunk_flag s1 chunk1]; exact hs2.2.1
      rw [hb hal hs]
      constructor
      · intro h; omega
      · intro h; exact absurd h hs
  · intro hem
    obtain ⟨hs, hgt, _⟩ := (emitsWarning_iff self0 chunk1 hinv0).mp hem
    rw [(readChunk_diag_short self0 chunk1 hs).1, hc] at hgt
    omega
  · intro hal
    have hal2 : (s1.readChunk chunk1).2.1.one_ptg_per_chunk_ = false := by
      rw [readChunk_flag, hs1, readChunks_flag]; exact hal
    exact (hinv2.2.2.2.2 hal2).2

theorem readChunk_alignment_diagnostic_witness :
    (shortensBatch (readChunks alternatingStream [zeroChunk 4]).2 (zeroChunk 4) →
        ((readChunks alternatingStream [zeroChunk 4]).2.readChunk
            (zeroChunk 4)).2.1.ptg_breaks_in_a_row =
          (readChunks alternatingStream [zeroChunk 4]).2.ptg_breaks_in_a_row + 1) ∧
      emitsWarning (readChunks alternatingStream [zeroChunk 4]).2 (zeroChunk 4) ∧
      ¬ emitsWarning alternatingStream (zeroChunk 4) :=
  ⟨(readChunk_alignment_diagnostic alternatingStream
      (readChunks alternatingStream [zeroChunk 4]).2 [zeroChunk 4] (zeroChunk 4) (zeroChunk 4)
      rfl rfl rfl rfl).1,
   by decide, by decide⟩

end DiagnosticClaims

/-! ## The stored points and the catalog -/

section ModelClaims5

variable {F : Type} [LinearOrderedField F]

/-- C21: for every pointing `P`, the stacking points stored by
`Model::compute` are the catalog components that pass the beam filter of
`P`, in catalog order: the `i`-th stored point carries the position `(x, y)`
and the size of the `i`-th passing component, with shape kind Gaussian if
the component is a Gaussian, Disk if it is a disk, and otherwise Point with
size 0. -/
theorem compute_points_are_passing_components (M : CMath F) (cl : List (SkyComponent F))
    (subtract : Bool) (ms : DataIO F) (pb : PrimaryBeam F) (P : Nat)
    (hP : P < ms.nPointings) :
    (((Model.new cl subtract).compute M ms pb).points P).map
        (fun pt => (pt.x, pt.y, pt.size, pt.model_type)) =
      (cl.filter
          (fun sc => decide (pb.calc_ (specDx M ms P sc) (specDy M ms P sc) > 0.01))).map
        (fun sc =>
          (sc.dirX, sc.dirY,
           (if sc.shapeType = ComponentType.GAUSSIAN then sc.param0
            else if sc.shapeType = ComponentType.DISK then sc.param0 else 0),
           (if sc.shapeType = ComponentType.GAUSSIAN then ModelType.mod_gaussian
            else if sc.shapeType = ComponentType.DISK then ModelType.mod_disk
            else ModelType.mod_point))) ∧
      ∀ (i : Nat) (sc : SkyComponent F),
        (cl.filter
          (fun sc => decide (pb.calc_ (specDx M ms P sc) (specDy M ms P sc) > 0.01)))[i]? =
            some sc →
        ∃ pt, (((Model.new cl subtract).compute M ms pb).points P)[i]? = some pt ∧
          pt.x = sc.dirX ∧ pt.y = sc.dirY ∧
          (sc.shapeType = ComponentType.GAUSSIAN →
            pt.model_type = ModelType.mod_gaussian ∧ pt.size = sc.param0) ∧
          (sc.shapeType = ComponentType.DISK →
            pt.model_type = ModelType.mod_disk ∧ pt.size = sc.param0) ∧
          (sc.shapeType ≠ ComponentType.GAUSSIAN → sc.shapeType ≠ ComponentType.DISK →
            pt.model_type = ModelType.mod_point ∧ pt.size = 0) := by
  have hspec : cl.filter
      (fun sc => decide (pb.calc_ (specDx M ms P sc) (specDy M ms P sc) > 0.01)) =
      specIncluded M ms pb P (Model.new cl subtract).cl := rfl
  rw [hspec]
  have hlen := compute_points_length M (Model.new cl subtract) ms pb P hP
  constructor
  · apply List.ext_getElem?
    intro n
    rw [List.getElem?_map, List.getElem?_map]
    by_cases hn : n < (specIncluded M ms pb P (Model.new cl subtract).cl).length
    · have hsc := List.getElem?_eq_getElem hn
      rw [compute_points_getElem? M (Model.new cl subtract) ms pb P n _ hP hsc, hsc]
      simp only [Option.map_some', storePoint, List.getD_cons_zero, shapeOf]
      by_cases hg : (specIncluded M ms pb P (Model.new cl subtract).cl)[n].shapeType =
          ComponentType.GAUSSIAN
      · simp [hg]
      · by_cases hd : (specIncluded M ms pb P (Model.new cl subtract).cl)[n].shapeType =
            ComponentType.DISK
        · simp [hd]
        · simp [hg, hd]
    · have h1 : (specIncluded M ms pb P (Model.new cl subtract).cl)[n]? = none :=
        List.getElem?_eq_none (by omega)
      have h2 : (((Model.new cl subtract).compute M ms pb).points P)[n]? = none :=
        List.getElem?_eq_none (by omega)
      rw [h1, h2]
      rfl
  · intro i sc hsc
    have hget := compute_points_getElem? M (Model.new cl subtract) ms pb P i sc hP hsc
    refine ⟨_, hget, ?_, ?_, ?_, ?_, ?_⟩
    · simp [storePoint]
    · simp [storePoint]
    · intro hg
      simp [storePoint, shapeOf, hg]
    · intro hd
      simp [storePoint, shapeOf, hd]
    · intro hg hd
      simp [storePoint, shapeOf, hg, hd]

theorem compute_points_are_passing_components_witness :
    0 < onePointing.nPointings ∧
      (((Model.new mixedSources true).compute ratMath onePointing flatBeam).points 0).map
          (fun pt => (pt.x, pt.y, pt.size, pt.model_type)) =
        (mixedSources.filter
            (fun sc => decide (flatBeam.calc_ (specDx ratMath onePointing 0 sc)
              (specDy ratMath onePointing 0 sc) > 0.01))).map
          (fun sc =>
            (sc.dirX, sc.dirY,
             (if sc.shapeType = ComponentType.GAUSSIAN then sc.param0
              else if sc.shapeType = ComponentType.DISK then sc.param0 else 0),
             (if sc.shapeType = ComponentType.GAUSSIAN then ModelType.mod_gaussian
              else if sc.shapeType = ComponentType.DISK then ModelType.mod_disk
              else ModelType.mod_point))) :=
  ⟨by decide,
   (compute_points_are_passing_components ratMath mixedSources true onePointing flatBeam 0
      (by decide)).1⟩

end ModelClaims5

/-! ## Buffer bounds -/

section BoundsLemmas

variable {F : Type} [Zero F]

/-- A loop that keeps the largest of `m0` and the values `f i`, `i < n`. -/
theorem foldl_largest (f : Nat → Nat) :
    ∀ (n m0 : Nat),
      m0 ≤ (List.range n).foldl (fun m i => if f i > m then f i else m) m0 ∧
      (∀ i, i < n → f i ≤ (List.range n).foldl (fun m i => if f i > m then f i else m) m0) ∧
      ((List.range n).foldl (fun m i => if f i > m then f i else m) m0 = m0 ∨
        ∃ i, i < n ∧ f i = (List.range n).foldl (fun m i => if f i > m then f i else m) m0) := by
  intro n
  induction n with
  | zero =>
    intro m0
    simp
  | succ n ih =>
    intro m0
    obtain ⟨h1, h2, h3⟩ := ih m0
    rw [List.range_succ, List.foldl_append, List.foldl_cons, List.foldl_nil]
    by_cases hgt : f n > (List.range n).foldl (fun m i => if f i > m then f i else m) m0
    · rw [if_pos hgt]
      refine ⟨by omega, ?_, Or.inr ⟨n, by omega, rfl⟩⟩
      intro i hi
      by_cases hin : i = n
      · rw [hin]
      · have := h2 i (by omega)
        omega
    · rw [if_neg hgt]
      refine ⟨h1, ?_, ?_⟩
      · intro i hi
        by_cases hin : i = n
        · rw [hin]; omega
        · exact h2 i (by omega)
      · rcases h3 with h3 | ⟨i, hi, h3⟩
        · exact Or.inl h3
        · exact Or.inr ⟨i, by omega, h3⟩

/-- The channel count `largestNchan` finds is the largest over the
spectral windows. -/
theorem largestNchan_spec (chanFreq : List (List F)) :
    (∀ w, w ∈ chanFreq → w.length ≤ largestNchan chanFreq chanFreq.length) ∧
      (chanFreq ≠ [] → ∃ w, w ∈ chanFreq ∧ w.length = largestNchan chanFreq chanFreq.length) := by
  obtain ⟨_, h2, h3⟩ := foldl_largest (fun row => (chanFreq.getD row []).length)
    chanFreq.length 0
  have hget : ∀ i (hi : i < chanFreq.length), chanFreq.getD i [] = chanFreq[i] := by
    intro i hi
    simp [List.getD_eq_getElem?_getD, List.getElem?_eq_getElem hi]
  constructor
  · intro w hw
    obtain ⟨i, hi, hiw⟩ := List.getElem_of_mem hw
    have := h2 i hi
    simp only [hget i hi, hiw] at this
    exact this
  · intro hne
    have hpos : 0 < chanFreq.length := List.length_pos.mpr hne
    rcases h3 with h3 | ⟨i, hi, h3⟩
    · refine ⟨chanFreq[0], List.getElem_mem _, ?_⟩
      have := h2 0 hpos
      simp only [hget 0 hpos] at this
      unfold largestNchan
      omega
    · refine ⟨chanFreq[i], List.getElem_mem _, ?_⟩
      simp only [hget i hi] at h3
      exact h3

/-- The correlation count `largestNstokes` finds is the largest over the
rows of the polarization table. -/
theorem largestNstokes_spec (numCorr : List Nat) :
    (∀ k, k ∈ numCorr → k ≤ largestNstokes numCorr) ∧
      (numCorr ≠ [] → ∃ k, k ∈ numCorr ∧ k = largestNstokes numCorr) := by
  obtain ⟨_, h2, h3⟩ := foldl_largest (fun i => numCorr.getD i 0) numCorr.length 0
  have hget : ∀ i (hi : i < numCorr.length), numCorr.getD i 0 = numCorr[i] := by
    intro i hi
    simp [List.getD_eq_getElem?_getD, List.getElem?_eq_getElem hi]
  constructor
  · intro k hk
    obtain ⟨i, hi, hik⟩ := List.getElem_of_mem hk
    have := h2 i hi
    simp only [hget i hi, hik] at this
    exact this
  · intro hne
    have hpos : 0 < numCorr.length := List.length_pos.mpr hne
    rcases h3 with h3 | ⟨i, hi, h3⟩
    · refine ⟨numCorr[0], List.getElem_mem _, ?_⟩
      have := h2 0 hpos
      simp only [hget 0 hpos] at this
      unfold largestNstokes
      omega
    · refine ⟨numCorr[i], List.getElem_mem _, ?_⟩
      simp only [hget i hi] at h3
      exact h3

/-- The channel and correlation counts of a constructed stream. -/
theorem msio_new_counts (msinfile : MeasurementSet F) (msoutfile : Option (MeasurementSet F))
    (datacolumn : DataColumn) (select_field : Bool) (field : Int → Bool)
    (one_ptg_per_chunk : Bool) (dataset_id ptg_breaks_in_a_row : Int) (s : msio F)
    (hnew : msio.new msinfile msoutfile datacolumn select_field field one_ptg_per_chunk
      dataset_id ptg_breaks_in_a_row = Except.ok s) :
    s.nChan = largestNchan msinfile.chanFreq msinfile.chanFreq.length ∧
      s.nStokes = largestNstokes msinfile.numCorr := by
  have hcf : (if select_field then msinfile.selectField field else msinfile).chanFreq =
      msinfile.chanFreq := by cases select_field <;> rfl
  have hnc : (if select_field then msinfile.selectField field else msinfile).numCorr =
      msinfile.numCorr := by cases select_field <;> rfl
  unfold msio.new at hnew
  dsimp only at hnew
  split at hnew
  · exact absurd hnew (by simp)
  · split at hnew
    · exact absurd hnew (by simp)
    · have hs := Except.ok.inj hnew
      rw [← hs]
      simp only [msio.nChan, msio.nStokes, hcf, hnc, and_self]

end BoundsLemmas

section BoundsLemmas2

variable {F : Type} [Zero F]

theorem fillRecord_foldl_shape (self : msio F) (cur : Nat) :
    ∀ (l : List Nat) (chunk : Chunk F),
      (l.foldl (fillRecord self cur) chunk).nchan = chunk.nchan ∧
        (l.foldl (fillRecord self cur) chunk).nstokes = chunk.nstokes := by
  intro l
  induction l with
  | nil => intro chunk; exact ⟨rfl, rfl⟩
  | cons a l ih =>
    intro chunk
    rw [List.foldl_cons, (ih _).1, (ih _).2]
    exact ⟨rfl, rfl⟩

theorem alignChunk_counts (self : msio F) (chunk : Chunk F) (cur : Nat) :
    (alignChunk self chunk cur).1.nchan = self.nchan ∧
      (alignChunk self chunk cur).1.nstokes = self.nstokes := by
  unfold alignChunk
  dsimp only
  split
  · split <;> exact ⟨rfl, rfl⟩
  · exact ⟨rfl, rfl⟩

/-- A call that finds the stream not exhausted leaves the chunk reshaped to
`nChan()` channels and `nStokes()` polarizations. -/
theorem readChunk_shape (self : msio F) (chunk : Chunk F)
    (hlt : self.currentVisibility < self.nvis) :
    (self.readChunk chunk).2.2.nchan = self.nChan ∧
      (self.readChunk chunk).2.2.nstokes = self.nStokes := by
  unfold msio.readChunk msio.readChunkSimple
  dsimp only
  rw [if_neg (by omega)]
  dsimp only
  rw [(fillRecord_foldl_shape _ _ _ _).1, (fillRecord_foldl_shape _ _ _ _).2]
  simp only [Chunk.reshape_data, msio.nChan, msio.nStokes]
  cases hal : self.one_ptg_per_chunk_
  · simp only [Bool.false_eq_true, if_false, and_self]
  · simp only [if_true]
    exact alignChunk_counts _ _ _

end BoundsLemmas2

section BoundsClaims

variable {F : Type} [Zero F]

/-- C22: buffer bounds in `msio::readChunk`.  `nChan()` is the largest
channel count over the spectral windows and `nStokes()` the largest
correlation count over the rows of the polarization table of the dataset the
stream was constructed on.  A call that returns a batch leaves the chunk
reshaped to `nChan()` x `nStokes()`, and for every record of the batch whose
row has `nstokes_row <= nStokes()` polarizations and `nchan_row <= nChan()`
channels, every flat index `nchan_row * stokes + chan` with
`stokes < nstokes_row` and `chan < nchan_row` is below
`nChan() * nStokes()` and every weight index `stokes` is below `nStokes()`;
at and beyond these bounds `data_real`, `data_imag`, `data_flag` and `weight`
of the records are left as they were before the call. -/
theorem readChunk_buffer_bounds :
    (∀ (F : Type) [Zero F] (msinfile : MeasurementSet F)
        (msoutfile : Option (MeasurementSet F)) (datacolumn : DataColumn)
        (select_field : Bool) (field : Int → Bool) (one_ptg_per_chunk : Bool)
        (dataset_id ptg_breaks_in_a_row : Int) (s : msio F),
        msio.new msinfile msoutfile datacolumn select_field field one_ptg_per_chunk
            dataset_id ptg_breaks_in_a_row = Except.ok s →
        (∀ w, w ∈ msinfile.chanFreq → w.length ≤ s.nChan) ∧
        (msinfile.chanFreq ≠ [] → ∃ w, w ∈ msinfile.chanFreq ∧ w.length = s.nChan) ∧
        (∀ k, k ∈ msinfile.numCorr → k ≤ s.nStokes) ∧
        (msinfile.numCorr ≠ [] → ∃ k, k ∈ msinfile.numCorr ∧ k = s.nStokes)) ∧
    (∀ (F : Type) [Zero F] (self : msio F) (chunk : Chunk F) (i : Nat),
        i < (self.readChunk chunk).1 →
        (selectedData self.msincols self.datacolumn_ (self.currentVisibility + i)).nrow ≤
          self.nStokes →
        (selectedData self.msincols self.datacolumn_ (self.currentVisibility + i)).ncolumn ≤
          self.nChan →
        ((self.readChunk chunk).2.2.nchan = self.nChan ∧
          (self.readChunk chunk).2.2.nstokes = self.nStokes) ∧
        (((self.readChunk chunk).2.2.inVis i).nchan =
            (selectedData self.msincols self.datacolumn_ (self.currentVisibility + i)).ncolumn ∧
          ((self.readChunk chunk).2.2.inVis i).nstokes =
            (selectedData self.msincols self.datacolumn_ (self.currentVisibility + i)).nrow) ∧
        (∀ stokes chan,
          stokes <
            (selectedData self.msincols self.datacolumn_ (self.currentVisibility + i)).nrow →
          chan <
            (selectedData self.msincols self.datacolumn_ (self.currentVisibility + i)).ncolumn →
          (selectedData self.msincols self.datacolumn_ (self.currentVisibility + i)).ncolumn *
                stokes + chan < self.nChan * self.nStokes ∧
            stokes < self.nStokes) ∧
        (∀ j, self.nChan * self.nStokes ≤ j →
          ((self.readChunk chunk).2.2.inVis i).data_real j = (chunk.inVis i).data_real j ∧
          ((self.readChunk chunk).2.2.inVis i).data_imag j = (chunk.inVis i).data_imag j ∧
          ((self.readChunk chunk).2.2.inVis i).data_flag j = (chunk.inVis i).data_flag j ∧
          ((self.readChunk chunk).2.2.outVis i).data_flag j = (chunk.outVis i).data_flag j) ∧
        (∀ j, self.nStokes ≤ j →
          ((self.readChunk chunk).2.2.inVis i).weight j = (chunk.inVis i).weight j ∧
          ((self.readChunk chunk).2.2.outVis i).weight j = (chunk.outVis i).weight j)) := by
  constructor
  · intro F _ msinfile msoutfile datacolumn select_field field one_ptg_per_chunk dataset_id
      ptg_breaks_in_a_row s hnew
    obtain ⟨h1, h2⟩ := msio_new_counts msinfile msoutfile datacolumn select_field field
      one_ptg_per_chunk dataset_id ptg_breaks_in_a_row s hnew
    rw [h1, h2]
    exact ⟨(largestNchan_spec msinfile.chanFreq).1, (largestNchan_spec msinfile.chanFreq).2,
      (largestNstokes_spec msinfile.numCorr).1, (largestNstokes_spec msinfile.numCorr).2⟩
  · intro F _ self chunk i hi hs hc
    have hlt : self.currentVisibility < self.nvis := by
      by_contra hge
      rw [(readChunk_of_ge self chunk (by omega)).1] at hi
      omega
    obtain ⟨v1, v2⟩ := readChunk_vis self chunk i hi
    obtain ⟨g1, _⟩ := fillPair_header self self.currentVisibility
      (chunk.inVis i, chunk.outVis i) i
    have harr := fillPair_arrays self self.currentVisibility (chunk.inVis i, chunk.outVis i) i
    rw [Nat.add_comm i self.currentVisibility] at g1 harr
    simp only [Visibility.header, Prod.mk.injEq] at g1
    obtain ⟨_, _, _, _, _, _, _, a8, a9⟩ := g1
    have hprod : (selectedData self.msincols self.datacolumn_
          (self.currentVisibility + i)).ncolumn *
        (selectedData self.msincols self.datacolumn_ (self.currentVisibility + i)).nrow ≤
          self.nChan * self.nStokes := Nat.mul_le_mul hc hs
    refine ⟨readChunk_shape self chunk hlt, ?_, ?_, ?_, ?_⟩
    · rw [v1]
      exact ⟨a8, a9⟩
    · intro stokes chan hst hch
      refine ⟨?_, by omega⟩
      calc (selectedData self.msincols self.datacolumn_
                (self.currentVisibility + i)).ncolumn * stokes + chan
          < (selectedData self.msincols self.datacolumn_
                (self.currentVisibility + i)).ncolumn * stokes +
              (selectedData self.msincols self.datacolumn_
                (self.currentVisibility + i)).ncolumn := by omega
        _ = (selectedData self.msincols self.datacolumn_
                (self.currentVisibility + i)).ncolumn * (stokes + 1) := by rw [Nat.mul_succ]
        _ ≤ (selectedData self.msincols self.datacolumn_
                (self.currentVisibility + i)).ncolumn *
              (selectedData self.msincols self.datacolumn_
                (self.currentVisibility + i)).nrow := Nat.mul_le_mul_left _ hst
        _ ≤ self.nChan * self.nStokes := hprod
    · intro j hj
      obtain ⟨_, _, r1, r2, r3, r4, _⟩ := harr j
      rw [v1, v2, r1, r2, r3, r4]
      simp only [if_neg (by omega : ¬ j < (selectedData self.msincols self.datacolumn_
          (self.currentVisibility + i)).ncolumn *
        (selectedData self.msincols self.datacolumn_ (self.currentVisibility + i)).nrow),
        and_self]
    · intro j hj
      obtain ⟨w1, w2, _⟩ := harr j
      rw [v1, v2, w1, w2]
      simp only [if_neg (by omega : ¬ j < (selectedData self.msincols self.datacolumn_
          (self.currentVisibility + i)).nrow), and_self]

theorem readChunk_buffer_bounds_witness :
    2 < ((tenRowStream true 0).readChunk (zeroChunk 4)).1 ∧
      (((tenRowStream true 0).readChunk (zeroChunk 4)).2.2.nchan = (tenRowStream true 0).nChan ∧
        ((tenRowStream true 0).readChunk (zeroChunk 4)).2.2.nstokes =
          (tenRowStream true 0).nStokes) :=
  ⟨by decide,
   (readChunk_buffer_bounds.2 ℚ (tenRowStream true 0) (zeroChunk 4) 2 (by decide) (by decide)
      (by decide)).1⟩

end BoundsClaims

end Stacker
